import Mathlib

/-!
# ffimage: geometry, output specification and commit pipeline

A shallow embedding of `ffimage.go`, `image.go` and `image_build.go`.

* Go `int` is modelled by `Int`; results of `+` and `-` are reduced to the
  64-bit two's-complement range by `wrap64`.
* Go `float64` is modelled exactly: a finite double is a sign and a rational
  magnitude, and every arithmetic result is rounded to the nearest value with a
  53-bit significand, ties to even (`rnd`).  Every float this program forms is an
  `int`, a quotient of two of them, or a product or quotient of an `int` with
  such a quotient, so its magnitude lies between `2^-127` and `2^127` and the
  exponent range of the format is never the limit; it is left out.
* Converting a float that is not finite, or whose integer part does not fit an
  `int`, yields an implementation-dependent value in Go.  That value is the
  parameter `cv` of everything that converts.
* The external world (probe, temporary files, the engine, helper programs, the
  JSON codec) is an explicit `Env`; `WriteImage` returns the error, the final
  image and the list of external actions it performed, in order.
-/

namespace FFImage

/-! ## Machine integers -/

/-- Reduction to the 64-bit two's-complement range. -/
def wrap64 (n : Int) : Int := (n + 2 ^ 63) % 2 ^ 64 - 2 ^ 63

/-- Go `a + b` on `int`. -/
def add64 (a b : Int) : Int := wrap64 (a + b)

/-- Go `a - b` on `int`. -/
def sub64 (a b : Int) : Int := wrap64 (a - b)

/-! ## float64 -/

/-- Floor of the base-2 logarithm by repeated halving; the first argument bounds
the number of halvings. -/
def ilog2Aux : Nat → Nat → Nat
  | 0, _ => 0
  | fuel + 1, n => if n < 2 then 0 else ilog2Aux fuel (n / 2) + 1

/-- Floor of the base-2 logarithm of a positive natural number. -/
def ilog2 (n : Nat) : Nat := ilog2Aux n n

/-- Binary exponent of a positive rational: the `e` with `2^e ≤ x < 2^(e+1)`. -/
def expo (x : ℚ) : Int :=
  let c : Int := (ilog2 x.num.natAbs : Int) - (ilog2 x.den : Int)
  if (2 : ℚ) ^ c ≤ x then c else c - 1

/-- Round to the nearest integer, ties to even. -/
def rne (t : ℚ) : Int :=
  let f := ⌊t⌋
  let r := t - f
  if r < 1 / 2 then f
  else if 1 / 2 < r then f + 1
  else if f % 2 = 0 then f else f + 1

/-- Round a non-negative rational to the nearest double: 53 significant bits,
ties to even. -/
def rnd (x : ℚ) : ℚ :=
  if x ≤ 0 then 0
  else
    let u : ℚ := (2 : ℚ) ^ (expo x - 52)
    (rne (x / u) : ℚ) * u

/-- A `float64` value: sign and magnitude, an infinity, or NaN. -/
inductive F64 where
  | fin (neg : Bool) (mag : ℚ)
  | inf (neg : Bool)
  | nan
  deriving DecidableEq

namespace F64

/-- Go `float64(n)` for an `int` n. -/
def ofInt (n : Int) : F64 := .fin (decide (n < 0)) (rnd (n.natAbs : ℚ))

/-- Go `a * b` on `float64`. -/
def mul : F64 → F64 → F64
  | .nan, _ => .nan
  | _, .nan => .nan
  | .inf s, .inf t => .inf (s != t)
  | .inf s, .fin t m => if m = 0 then .nan else .inf (s != t)
  | .fin s m, .inf t => if m = 0 then .nan else .inf (s != t)
  | .fin s a, .fin t b => .fin (s != t) (rnd (a * b))

/-- Go `a / b` on `float64`. -/
def div : F64 → F64 → F64
  | .nan, _ => .nan
  | _, .nan => .nan
  | .inf _, .inf _ => .nan
  | .inf s, .fin t _ => .inf (s != t)
  | .fin s _, .inf t => .fin (s != t) 0
  | .fin s a, .fin t b =>
    if b = 0 then (if a = 0 then .nan else .inf (s != t))
    else .fin (s != t) (rnd (a / b))

/-- Go `math.Abs`. -/
def abs : F64 → F64
  | .fin _ m => .fin false m
  | .inf _ => .inf false
  | .nan => .nan

/-- The rational value of a finite double. -/
def val (neg : Bool) (mag : ℚ) : ℚ := if neg then -mag else mag

/-- Go `a > b` on `float64`. -/
def gt : F64 → F64 → Bool
  | .nan, _ => false
  | _, .nan => false
  | .inf true, _ => false
  | .inf false, .inf false => false
  | .inf false, _ => true
  | .fin _ _, .inf t => t
  | .fin s a, .fin t b => decide (val t b < val s a)

/-- Go `int(x)` for a `float64` x: truncation toward zero when the result fits
an `int`, the implementation-dependent value `cv x` otherwise. -/
def toInt (cv : F64 → Int) : F64 → Int
  | .fin s m =>
    let t : Int := ⌊m⌋
    let v : Int := if s then -t else t
    if -2 ^ 63 ≤ v ∧ v < 2 ^ 63 then v else cv (.fin s m)
  | x => cv x

end F64

/-- The out-of-range conversion of amd64 (`CVTTSD2SQ`): always the smallest `int`. -/
def cvAmd64 : F64 → Int := fun _ => -9223372036854775808

/-! ## Data model (`ffimage.go`) -/

abbrev ImageFormat := String

def ImageFormatUnknown : ImageFormat := ""
def ImageFormatJPEG : ImageFormat := "jpg"
def ImageFormatJPEGXL : ImageFormat := "jxl"
def ImageFormatWEBP : ImageFormat := "webp"
def ImageFormatPNG : ImageFormat := "png"
def ImageFormatAVIF : ImageFormat := "avif"
def ImageFormatAPNG : ImageFormat := "apng"
def ImageFormatBMP : ImageFormat := "bmp"
def ImageFormatGIF : ImageFormat := "gif"

abbrev ResizeType := Int

def ResizeTypeNone : ResizeType := 0
def ResizeTypeUpscale : ResizeType := 1
def ResizeTypeDownscale : ResizeType := 2

abbrev PositionType := String

def PositionTypeNone : PositionType := ""
def PositionTypeTopLeft : PositionType := "top_left"
def PositionTypeTop : PositionType := "top"
def PositionTypeTopRight : PositionType := "top_right"
def PositionTypeLeft : PositionType := "left"
def PositionTypeCenter : PositionType := "center"
def PositionTypeRight : PositionType := "right"
def PositionTypeBottomLeft : PositionType := "bottom_left"
def PositionTypeBottom : PositionType := "bottom"
def PositionTypeBottomRight : PositionType := "bottom_right"

/-- The values the program stores in an `ffmpeg.KwArgs` map. -/
inductive ArgVal where
  | str (s : String)
  | int (n : Int)
  deriving DecidableEq, Repr

/-- An `ffmpeg.KwArgs` map, as its list of entries. -/
abbrev KwArgs := List (String × ArgVal)

/-- One filter of the chain: name and positional arguments (`ffmpeg.Args`). -/
structure filter where
  k : String
  args : List String
  deriving DecidableEq, Repr

/-- The fields of the probed stream that the program reads. -/
structure Stream where
  Width : Int
  Height : Int
  NbFrames : String
  deriving DecidableEq, Repr

structure Output where
  Path : String
  Args : List KwArgs
  Filters : List filter
  Quality : Int
  Format : ImageFormat
  Loop : Int
  IsPreserved : Bool
  EXIF : String
  Codec : String
  BackgroundColor : String
  deriving DecidableEq, Repr

structure Image where
  Stream : Stream
  Width : Int
  Height : Int
  Path : String
  Output : Output
  Silent : Bool
  isTemp : Bool
  deriving DecidableEq, Repr

def addFilter (i : Image) (k : String) (args : List String) : Image :=
  { i with Output := { i.Output with Filters := i.Output.Filters ++ [⟨k, args⟩] } }

def addArg (i : Image) (args : KwArgs) : Image :=
  { i with Output := { i.Output with Args := i.Output.Args ++ [args] } }

def setWidthHeight (i : Image) (w h : Int) : Image :=
  { i with Width := w, Height := h }

/-- The probe of `loadImageSize`: an error, or the streams of the file. -/
abbrev Probe := String → Except String (List Stream)

def NewImage (probe : Probe) (path : String) : Except String Image :=
  match probe path with
  | .error e => .error ("load image size: probe url: " ++ e)
  | .ok streams =>
    match streams with
    | [] => .error "load image size: no valid stream found"
    | s :: _ =>
      if s.Width = 0 ∨ s.Height = 0 then .error "load image size: no valid stream found"
      else
        let image : Image :=
          { Stream := s, Width := 0, Height := 0, Path := path,
            Output :=
              { Path := "", Args := [], Filters := [], Quality := 0, Format := ImageFormatUnknown,
                Loop := 0, IsPreserved := false, EXIF := "", Codec := "",
                BackgroundColor := "black" },
            Silent := true, isTemp := false }
        let image := setWidthHeight image s.Width s.Height
        let image := addArg image [("map_metadata", .str "-1")]
        .ok (addFilter image "format" ["rgba"])

def qualityFactor (cv : F64 → Int) (min max quality : Int) (isLowerBetter : Bool) : Int :=
  if isLowerBetter then
    add64 max (F64.toInt cv
      (F64.mul (F64.div (F64.ofInt quality) (F64.ofInt 100)) (F64.ofInt (sub64 min max))))
  else
    add64 min (F64.toInt cv
      (F64.mul (F64.div (F64.ofInt quality) (F64.ofInt 100)) (F64.ofInt (sub64 max min))))

/-- The `int(math.Abs(float64(x)))` that ends `calcPosition`. -/
def absInt (cv : F64 → Int) (x : Int) : Int := F64.toInt cv (F64.abs (F64.ofInt x))

def calcPosition (cv : F64 → Int) (origW origH w h : Int) (pos : PositionType) : Int × Int :=
  if pos = PositionTypeTopLeft then (0, 0)
  else
    let xy : Int × Int :=
      if pos = PositionTypeTop then (sub64 (origW.tdiv 2) (w.tdiv 2), 0)
      else if pos = PositionTypeTopRight then (sub64 origW w, 0)
      else if pos = PositionTypeLeft then (0, sub64 (origH.tdiv 2) (h.tdiv 2))
      else if pos = PositionTypeCenter then
        (sub64 (origW.tdiv 2) (w.tdiv 2), sub64 (origH.tdiv 2) (h.tdiv 2))
      else if pos = PositionTypeRight then (sub64 origW w, sub64 (origH.tdiv 2) (h.tdiv 2))
      else if pos = PositionTypeBottomLeft then (0, sub64 origH h)
      else if pos = PositionTypeBottom then (sub64 (origW.tdiv 2) (w.tdiv 2), sub64 origH h)
      else if pos = PositionTypeBottomRight then (sub64 origW w, sub64 origH h)
      else (0, 0)
    (absInt cv xy.1, absInt cv xy.2)

def calcBestfit (cv : F64 → Int) (origW origH w h : Int) (typ : ResizeType) : Int × Int :=
  let aspect := F64.div (F64.ofInt origW) (F64.ofInt origH)
  if origW > origH then
    let newH := h
    let newW := F64.toInt cv (F64.mul (F64.ofInt newH) aspect)
    if (typ = ResizeTypeDownscale ∧ newW > w) ∨ (typ = ResizeTypeUpscale ∧ w > newW) then
      (w, F64.toInt cv (F64.div (F64.ofInt w) aspect))
    else (newW, newH)
  else
    let newW := w
    let newH := F64.toInt cv (F64.div (F64.ofInt newW) aspect)
    if (typ = ResizeTypeDownscale ∧ newH > h) ∨ (typ = ResizeTypeUpscale ∧ h > newH) then
      (F64.toInt cv (F64.mul (F64.ofInt h) aspect), h)
    else (newW, newH)

def calcBestpad (cv : F64 → Int) (origW origH w h : Int) : Int × Int :=
  let scale : F64 :=
    if F64.gt (F64.div (F64.ofInt origW) (F64.ofInt w)) (F64.div (F64.ofInt origH) (F64.ofInt h))
    then F64.div (F64.ofInt w) (F64.ofInt origW)
    else F64.div (F64.ofInt h) (F64.ofInt origH)
  (F64.toInt cv (F64.mul (F64.ofInt origW) scale), F64.toInt cv (F64.mul (F64.ofInt origH) scale))

/-- The anchor table in exact integer arithmetic: what `calcPosition` computes when
no subtraction wraps and every magnitude is a double.  Halves are Go's integer
division, truncated toward zero. -/
def anchorOffset (origW origH w h : Int) (pos : PositionType) : Int × Int :=
  if pos = PositionTypeTopLeft then (0, 0)
  else if pos = PositionTypeTop then (|origW.tdiv 2 - w.tdiv 2|, 0)
  else if pos = PositionTypeTopRight then (|origW - w|, 0)
  else if pos = PositionTypeLeft then (0, |origH.tdiv 2 - h.tdiv 2|)
  else if pos = PositionTypeCenter then (|origW.tdiv 2 - w.tdiv 2|, |origH.tdiv 2 - h.tdiv 2|)
  else if pos = PositionTypeRight then (|origW - w|, |origH.tdiv 2 - h.tdiv 2|)
  else if pos = PositionTypeBottomLeft then (0, |origH - h|)
  else if pos = PositionTypeBottom then (|origW.tdiv 2 - w.tdiv 2|, |origH - h|)
  else if pos = PositionTypeBottomRight then (|origW - w|, |origH - h|)
  else (0, 0)

/-! ## Builder methods (`image.go`) -/

/-- Go `fmt.Sprintf("%d", n)`. -/
def fmtInt (n : Int) : String := toString n

def ResizeImage (cv : F64 → Int) (i : Image) (w h : Int) (typ : List ResizeType) : Image :=
  let aspect := F64.div (F64.ofInt i.Width) (F64.ofInt i.Height)
  if w = 0 ∧ h = 0 then i
  else
    let fitted : Option ResizeType :=
      match typ with
      | [t] => if t ≠ ResizeTypeNone then some t else none
      | _ => none
    let wh : Int × Int :=
      match fitted with
      | some t =>
        let w1 := if w = 0 ∧ h ≠ 0 then h else w
        let h1 := if h = 0 ∧ w1 ≠ 0 then w1 else h
        calcBestfit cv i.Width i.Height w1 h1 t
      | none =>
        let w1 := if w = 0 then F64.toInt cv (F64.mul (F64.ofInt h) aspect) else w
        let h1 := if h = 0 then F64.toInt cv (F64.div (F64.ofInt w1) aspect) else h
        (w1, h1)
    addFilter (setWidthHeight i wh.1 wh.2) "scale" [fmtInt wh.1 ++ ":" ++ fmtInt wh.2]

/-- The anchor of `ExtentImage` and `CropImage`: used when exactly one anchor
other than `PositionTypeNone` is given. -/
def anchored (cv : F64 → Int) (i : Image) (w h x y : Int) (pos : List PositionType) : Int × Int :=
  match pos with
  | [p] => if p ≠ PositionTypeNone then calcPosition cv i.Width i.Height w h p else (x, y)
  | _ => (x, y)

def ExtentImage (cv : F64 → Int) (i : Image) (w h x y : Int) (pos : List PositionType) : Image :=
  let xy := anchored cv i w h x y pos
  let bg := i.Output.BackgroundColor
  addFilter (setWidthHeight i w h) "pad"
    [fmtInt w ++ ":" ++ fmtInt h ++ ":" ++ fmtInt xy.1 ++ ":" ++ fmtInt xy.2 ++ ":" ++ bg]

def CropImage (cv : F64 → Int) (i : Image) (w h x y : Int) (pos : List PositionType) : Image :=
  let xy := anchored cv i w h x y pos
  addFilter (setWidthHeight i w h) "crop"
    [fmtInt w ++ ":" ++ fmtInt h ++ ":" ++ fmtInt xy.1 ++ ":" ++ fmtInt xy.2]

def CropThumbnailImage (cv : F64 → Int) (i : Image) (w h : Int) : Image :=
  let i := CropImage cv (ResizeImage cv i w h [ResizeTypeUpscale]) w h 0 0 [PositionTypeCenter]
  setWidthHeight i w h

def ThumbnailImage (cv : F64 → Int) (i : Image) (w h : Int) : Image :=
  let img := calcBestpad cv i.Width i.Height w h
  let xy := calcPosition cv img.1 img.2 w h PositionTypeCenter
  let i := ExtentImage cv (ResizeImage cv i img.1 img.2 [ResizeTypeDownscale]) w h xy.1 xy.2 []
  setWidthHeight i w h

def RotateImage (i : Image) (degree : Int) : Image :=
  addFilter i "rotate"
    ["a=" ++ fmtInt degree ++ "*PI/180:fillcolor=" ++ i.Output.BackgroundColor]

def FlipImage (i : Image) : Image := addFilter i "vflip" []

def FlopImage (i : Image) : Image := addFilter i "hflip" []

def SetBackgroundColor (i : Image) (color : String) : Image :=
  { i with Output := { i.Output with BackgroundColor := color } }

def SetLoop (i : Image) (count : Int) : Image :=
  { i with Output := { i.Output with Loop := count } }

def SetQuality (i : Image) (quality : Int) : Image :=
  { i with Output := { i.Output with Quality := quality } }

def SetImageFramerate (i : Image) (fps : Int) : Image :=
  addArg i [("r", .str (fmtInt fps))]

def DropFrames (i : Image) : Image := addArg i [("vframes", .int 1)]

def SetImageFormat (i : Image) (format : ImageFormat) : Image :=
  let i :=
    if format = ImageFormatJPEG ∨ format = ImageFormatPNG ∨ format = ImageFormatBMP
    then DropFrames i else i
  { i with Output := { i.Output with Format := format } }

def PreserveEXIF (i : Image) : Image :=
  { i with Output := { i.Output with IsPreserved := true } }

def suffixToFormat (ext : String) : ImageFormat :=
  if ext = ".png" then ImageFormatPNG
  else if ext = ".apng" then ImageFormatAPNG
  else if ext = ".jpg" ∨ ext = ".jpeg" then ImageFormatJPEG
  else if ext = ".gif" then ImageFormatGIF
  else if ext = ".webp" then ImageFormatWEBP
  else if ext = ".avif" then ImageFormatAVIF
  else if ext = ".bmp" then ImageFormatBMP
  else if ext = ".jxl" then ImageFormatJPEGXL
  else ImageFormatUnknown

/-- Go `filepath.Ext`, scanning from the end of the path: the suffix from the
last dot of the last path element, empty when that element has no dot.  The
first argument is the path reversed, the second the characters passed so far. -/
def extAux : List Char → List Char → List Char
  | [], _ => []
  | c :: rest, acc =>
    if c = '/' then []
    else if c = '.' then '.' :: acc
    else extAux rest (c :: acc)

/-- Go `filepath.Ext` (path separator `/`). -/
def filepathExt (path : String) : String := String.mk (extAux path.data.reverse [])

/-! ## The external world -/

/-- One run of the transcoding engine, as `WriteImage` assembles it. -/
structure EngineCall where
  input : String
  filters : List filter
  /-- The `split` / `palettegen` / `paletteuse` graph of the GIF case. -/
  palette : Bool
  output : String
  args : List KwArgs
  overwrite : Bool
  silent : Bool
  deriving DecidableEq, Repr

/-- An external action. -/
inductive Event where
  | createTemp (pattern : String)
  | writeFile (name data : String)
  | closeFile (name : String)
  | exec (cmd : String) (args : List String)
  | engine (call : EngineCall)
  | rename (src dst : String)
  deriving DecidableEq, Repr

/-- The actions other than the engine run and the rename: temporary files and
helper programs. -/
def Event.isAuxiliary : Event → Bool
  | .engine _ => false
  | .rename _ _ => false
  | _ => true

/-- A decoded JSON object, as its list of fields. -/
abbrev JsonRecord := List (String × String)

/-- An element of the `[]map[string]interface{}` that `json.Unmarshal` fills: a map,
or the nil map that the JSON value `null` decodes to. -/
abbrev JsonElem := Option JsonRecord

/-- The outcomes of the external actions. -/
structure Env where
  /-- `os.CreateTemp("", pattern)`: an error, or the name of the new file. -/
  createTemp : String → Except String String
  writeFile : String → String → Bool
  closeFile : String → Bool
  /-- `exec.Command(cmd, args...)`: an error, or the standard output. -/
  exec : String → List String → Except String String
  jsonUnmarshal : String → Option (List JsonElem)
  jsonMarshal : List JsonElem → Option String
  /-- The engine run: `none` on success, the captured diagnostic text otherwise. -/
  engine : EngineCall → Option String
  /-- `os.Rename`: `none` on success, the error otherwise. -/
  rename : String → String → Option String

/-- Go `m[key] = value` on a decoded JSON object. -/
def setKey (r : JsonRecord) (key value : String) : JsonRecord :=
  (key, value) :: r.filter (fun kv => kv.1 ≠ key)

/-! ## Commit pipeline (`image_build.go`, `WriteImage`) -/

def buildQuality (cv : F64 → Int) (i : Image) : Image :=
  if i.Output.Quality = 0 then i
  else if i.Output.Format = ImageFormatAVIF then
    addArg i [("crf", .int (qualityFactor cv 0 63 i.Output.Quality true))]
  else if i.Output.Format = ImageFormatJPEG then
    addArg i [("qscale:v", .int (qualityFactor cv 2 31 i.Output.Quality true))]
  else if i.Output.Format = ImageFormatJPEGXL then
    addArg i [("qscale:v", .int (qualityFactor cv 0 100 i.Output.Quality false))]
  else if i.Output.Format = ImageFormatWEBP then
    addArg i [("quality", .int (qualityFactor cv 0 100 i.Output.Quality false))]
  else i

def buildLoop (i : Image) : Image :=
  if i.Output.Format = ImageFormatAPNG then addArg i [("plays", .int i.Output.Loop)]
  else addArg i [("loop", .int i.Output.Loop)]

/-- The helper run of `buildAfterQuality`; its outcome is discarded. -/
def buildAfterQuality (cv : F64 → Int) (i : Image) : List Event :=
  if i.Output.Quality = 0 then []
  else if i.Output.Format = ImageFormatPNG then
    let q := qualityFactor cv 0 100 i.Output.Quality false
    [.exec "pngquant" ["--quality", "0-" ++ fmtInt q, "-f", i.Output.Path, "-o", i.Output.Path]]
  else if i.Output.Format = ImageFormatGIF then
    let q := qualityFactor cv 0 100 i.Output.Quality false
    [.exec "gifsicle" ["-O3", "--lossy=" ++ fmtInt q, i.Output.Path, "-o", i.Output.Path]]
  else []

/-- The metadata export before the engine run.  The first component is the image
the call returns, or `none` when the call does not return: the assignment
`j[0]["SourceFile"] = "*"` is a run-time panic (assignment to entry in nil map)
when the first decoded element is the nil map. -/
def buildBeforeEXIF (env : Env) (i : Image) : Option Image × List Event :=
  if ¬ i.Output.IsPreserved then (some i, [])
  else
    match env.createTemp "" with
    | .error _ => (some i, [.createTemp ""])
    | .ok tmp =>
      let ev1 : List Event := [.createTemp "", .exec "exiftool" ["-json", i.Path]]
      match env.exec "exiftool" ["-json", i.Path] with
      | .error _ => (some i, ev1)
      | .ok b =>
        match env.jsonUnmarshal b with
        | none => (some i, ev1)
        | some [] => (some i, ev1)
        | some (none :: _) => (none, ev1)
        | some (some r :: rs) =>
          match env.jsonMarshal (some (setKey r "SourceFile" "*") :: rs) with
          | none => (some i, ev1)
          | some b2 =>
            let ev2 := ev1 ++ [.writeFile tmp b2]
            if ¬ env.writeFile tmp b2 then (some i, ev2)
            else
              let ev3 := ev2 ++ [.closeFile tmp]
              if ¬ env.closeFile tmp then (some i, ev3)
              else (some { i with Output := { i.Output with EXIF := tmp } }, ev3)

/-- The helper run of `buildAfterEXIF`; its outcome is discarded. -/
def buildAfterEXIF (i : Image) : List Event :=
  if ¬ i.Output.IsPreserved then []
  else [.exec "exiftool" ["-overwrite_original", "-json=" ++ i.Output.EXIF, i.Output.Path]]

/-- What a call of `WriteImage` leaves behind: the returned error, the image, and
the external actions performed, in order.  `panicked` is true when the call does
not return but ends in a run-time panic; `err` is then not a returned value. -/
structure WriteResult where
  err : Option String
  image : Image
  events : List Event
  panicked : Bool

def WriteImage (cv : F64 → Int) (env : Env) (i : Image) (path : String) : WriteResult :=
  let i : Image := { i with Output := { i.Output with Path := path } }
  let i : Image :=
    if i.Output.Path = "" then { i with Output := { i.Output with Path := i.Path } } else i
  let isSameInputOutput : Bool := path = "" || path = i.Path
  let i : Image :=
    if i.Output.Format = ImageFormatUnknown then
      { i with Output := { i.Output with Format := suffixToFormat (filepathExt path) } }
    else i
  if i.Output.Format = ImageFormatUnknown then ⟨some "no image format", i, [], false⟩
  else
    let i := buildQuality cv i
    let i := buildLoop i
    let ie := buildBeforeEXIF env i
    let ev := ie.2
    match ie.1 with
    | none => ⟨none, i, ev, true⟩
    | some i =>
      let pattern := "*" ++ filepathExt i.Path
      let tmp : Except String (String × List Event) :=
        if isSameInputOutput then
          match env.createTemp pattern with
          | .error e => .error e
          | .ok name => .ok (name, [.createTemp pattern, .closeFile name])
        else .ok ("", [])
      match tmp with
      | .error e => ⟨some e, i, ev ++ [.createTemp pattern], false⟩
      | .ok (tmpFilename, evTmp) =>
        let ev := ev ++ evTmp
        let call : EngineCall :=
          { input := i.Path, filters := i.Output.Filters,
            palette := decide (i.Output.Format = ImageFormatGIF),
            output := path, args := i.Output.Args, overwrite := true, silent := i.Silent }
        let ev := ev ++ [.engine call]
        match env.engine call with
        | some diag => ⟨some diag, i, ev, false⟩
        | none =>
          let renamed : Option String × List Event :=
            if isSameInputOutput then (env.rename tmpFilename path, [.rename tmpFilename path])
            else (none, [])
          match renamed.1 with
          | some e => ⟨some e, i, ev ++ renamed.2, false⟩
          | none =>
            ⟨none, i, ev ++ renamed.2 ++ buildAfterQuality cv i ++ buildAfterEXIF i, false⟩

/-- The image of `WriteImage` after the destination has been assigned. -/
def withDestination (i : Image) (path : String) : Image :=
  let i : Image := { i with Output := { i.Output with Path := path } }
  if i.Output.Path = "" then { i with Output := { i.Output with Path := i.Path } } else i

/-- The image of `WriteImage` after the destination and the format have been
assigned. -/
def resolveFormat (i : Image) (path : String) : Image :=
  let i : Image := { i with Output := { i.Output with Path := path } }
  let i : Image :=
    if i.Output.Path = "" then { i with Output := { i.Output with Path := i.Path } } else i
  if i.Output.Format = ImageFormatUnknown then
    { i with Output := { i.Output with Format := suffixToFormat (filepathExt path) } }
  else i

/-- The image and the external actions of `WriteImage` up to the metadata export;
no image when the export panics. -/
def prepared (cv : F64 → Int) (env : Env) (i : Image) (path : String) :
    Option Image × List Event :=
  buildBeforeEXIF env (buildLoop (buildQuality cv (resolveFormat i path)))

/-- The engine run `WriteImage` assembles from the prepared image. -/
def engineCall (j : Image) (path : String) : EngineCall :=
  { input := j.Path, filters := j.Output.Filters,
    palette := decide (j.Output.Format = ImageFormatGIF),
    output := path, args := j.Output.Args, overwrite := true, silent := j.Silent }

/-- The part of `WriteImage` from the engine run on: `ev` are the actions so far,
`tmp` the temporary file of the same-path case. -/
def runEngine (cv : F64 → Int) (env : Env) (j : Image) (path : String) (ev : List Event)
    (tmp : Option String) : WriteResult :=
  match env.engine (engineCall j path) with
  | some diag => ⟨some diag, j, ev ++ [.engine (engineCall j path)], false⟩
  | none =>
    match tmp with
    | some name =>
      match env.rename name path with
      | some e =>
        ⟨some e, j, ev ++ [.engine (engineCall j path)] ++ [.rename name path], false⟩
      | none =>
        ⟨none, j, ev ++ [.engine (engineCall j path)] ++ [.rename name path]
          ++ buildAfterQuality cv j ++ buildAfterEXIF j, false⟩
    | none =>
      ⟨none, j, ev ++ [.engine (engineCall j path)] ++ [] ++ buildAfterQuality cv j
        ++ buildAfterEXIF j, false⟩

/-- The part of `WriteImage` after the metadata export has returned the image `j`:
the temporary file of the same-path case, and the part from the engine run on. -/
def afterExport (cv : F64 → Int) (env : Env) (i : Image) (path : String) (j : Image)
    (ev : List Event) : WriteResult :=
  if path = "" ∨ path = i.Path then
    match env.createTemp ("*" ++ filepathExt i.Path) with
    | .error e => ⟨some e, j, ev ++ [.createTemp ("*" ++ filepathExt i.Path)], false⟩
    | .ok name =>
      runEngine cv env j path
        (ev ++ [.createTemp ("*" ++ filepathExt i.Path), .closeFile name]) (some name)
  else runEngine cv env j path (ev ++ []) none

/-! ## Builder calls -/

/-- A call of one of the builder methods of `image.go`. -/
inductive Call where
  | resize (w h : Int) (typ : List ResizeType)
  | extent (w h x y : Int) (pos : List PositionType)
  | crop (w h x y : Int) (pos : List PositionType)
  | cropThumbnail (w h : Int)
  | thumbnail (w h : Int)
  | rotate (degree : Int)
  | flip
  | flop
  | setBackgroundColor (color : String)
  | setLoop (count : Int)
  | setQuality (quality : Int)
  | setImageFramerate (fps : Int)
  | dropFrames
  | setImageFormat (format : ImageFormat)
  | preserveEXIF

/-- The effect of one builder call. -/
def Call.apply (cv : F64 → Int) (i : Image) : Call → Image
  | .resize w h typ => ResizeImage cv i w h typ
  | .extent w h x y pos => ExtentImage cv i w h x y pos
  | .crop w h x y pos => CropImage cv i w h x y pos
  | .cropThumbnail w h => CropThumbnailImage cv i w h
  | .thumbnail w h => ThumbnailImage cv i w h
  | .rotate d => RotateImage i d
  | .flip => FlipImage i
  | .flop => FlopImage i
  | .setBackgroundColor c => SetBackgroundColor i c
  | .setLoop n => SetLoop i n
  | .setQuality q => SetQuality i q
  | .setImageFramerate fps => SetImageFramerate i fps
  | .dropFrames => DropFrames i
  | .setImageFormat f => SetImageFormat i f
  | .preserveEXIF => PreserveEXIF i

/-- The image after a sequence of builder calls, first call first. -/
def runCalls (cv : F64 → Int) (i : Image) (cs : List Call) : Image :=
  cs.foldl (Call.apply cv) i

/-! ## Fixtures of `ffimage_test.go` -/

/-- The probe of the test image `source.png`: one stream of 431 x 324. -/
def testProbe : Probe := fun _ => .ok [⟨431, 324, "1"⟩]

/-- The image `NewImage("./test/source.png")` returns under `testProbe`. -/
def testImage : Image :=
  { Stream := ⟨431, 324, "1"⟩, Width := 431, Height := 324, Path := "./test/source.png",
    Output :=
      { Path := "", Args := [[("map_metadata", .str "-1")]], Filters := [⟨"format", ["rgba"]⟩],
        Quality := 0, Format := ImageFormatUnknown, Loop := 0, IsPreserved := false, EXIF := "",
        Codec := "", BackgroundColor := "black" },
    Silent := true, isTemp := false }

/-- A world in which every external action succeeds. -/
def envOk : Env :=
  { createTemp := fun pattern => if pattern = "" then .ok "/tmp/5678" else .ok "/tmp/1234.png",
    writeFile := fun _ _ => true,
    closeFile := fun _ => true,
    exec := fun _ _ => .ok "",
    jsonUnmarshal := fun _ => some [some []],
    jsonMarshal := fun _ => some "[]",
    engine := fun _ => none,
    rename := fun _ _ => none }

/-- A world without helper programs: the engine and the rename succeed, every
`exec` fails, and so do the temporary file of the metadata export, the JSON codec
and the file writes. -/
def envNoHelpers : Env :=
  { createTemp := fun pattern => if pattern = "" then .error "no space" else .ok "/tmp/1234.png",
    writeFile := fun _ _ => false,
    closeFile := fun _ => false,
    exec := fun _ _ => .error "executable file not found",
    jsonUnmarshal := fun _ => none,
    jsonMarshal := fun _ => none,
    engine := fun _ => none,
    rename := fun _ _ => none }

/-- A world in which every external action succeeds and `exiftool` prints `[null]`,
which decodes to one nil map. -/
def envNullExport : Env :=
  { envOk with exec := fun _ _ => .ok "[null]", jsonUnmarshal := fun _ => some [none] }

/-- The test image set up for PNG output at quality 80 with the metadata kept. -/
def testImagePng : Image :=
  PreserveEXIF (SetQuality (SetImageFormat testImage ImageFormatPNG) 80)

/-- The test image with another probed and tracked size. -/
def testImageOf (w h : Int) : Image :=
  { testImage with Stream := ⟨w, h, "1"⟩, Width := w, Height := h }

/-! ## Rounding to a double -/

theorem ilog2Aux_spec : ∀ (fuel n : Nat), 0 < n → n < 2 ^ fuel →
    2 ^ ilog2Aux fuel n ≤ n ∧ n < 2 ^ (ilog2Aux fuel n + 1) := by
  intro fuel
  induction fuel with
  | zero => intro n h0 h1; simp at h1; omega
  | succ k ih =>
    intro n h0 h1
    unfold ilog2Aux
    by_cases h2 : n < 2
    · simp [h2]; omega
    · simp only [h2, if_false]
      have h3 : 0 < n / 2 := by omega
      have h4 : n / 2 < 2 ^ k := by
        rw [pow_succ] at h1; omega
      obtain ⟨h5, h6⟩ := ih (n / 2) h3 h4
      rw [pow_succ] at h6
      constructor
      · rw [pow_succ]; omega
      · rw [pow_succ, pow_succ]; omega

theorem ilog2_spec (n : Nat) (h : 0 < n) : 2 ^ ilog2 n ≤ n ∧ n < 2 ^ (ilog2 n + 1) :=
  ilog2Aux_spec n n h (Nat.lt_two_pow n)

theorem expo_spec (x : ℚ) (hx : 0 < x) :
    (2 : ℚ) ^ expo x ≤ x ∧ x < (2 : ℚ) ^ (expo x + 1) := by
  have hnum : 0 < x.num := Rat.num_pos.mpr hx
  have hp : 0 < x.num.natAbs := Int.natAbs_pos.mpr (ne_of_gt hnum)
  have hq : 0 < x.den := x.den_pos
  obtain ⟨pa, pb⟩ := ilog2_spec _ hp
  obtain ⟨qa, qb⟩ := ilog2_spec _ hq
  have hxe : x = (x.num.natAbs : ℚ) / (x.den : ℚ) := by
    have h1 : ((x.num.natAbs : ℤ) : ℚ) = (x.num : ℚ) := by
      rw [Int.natAbs_of_nonneg (le_of_lt hnum)]
    have h2 : ((x.num.natAbs : ℕ) : ℚ) = ((x.num.natAbs : ℤ) : ℚ) :=
      (Int.cast_natCast x.num.natAbs).symm
    rw [h2, h1, Rat.num_div_den]
  have hqQ : (0 : ℚ) < (x.den : ℚ) := by exact_mod_cast hq
  have pa' : (2 : ℚ) ^ (ilog2 x.num.natAbs) ≤ (x.num.natAbs : ℚ) := by exact_mod_cast pa
  have pb' : (x.num.natAbs : ℚ) < (2 : ℚ) ^ (ilog2 x.num.natAbs + 1) := by exact_mod_cast pb
  have qa' : (2 : ℚ) ^ (ilog2 x.den) ≤ (x.den : ℚ) := by exact_mod_cast qa
  have qb' : (x.den : ℚ) < (2 : ℚ) ^ (ilog2 x.den + 1) := by exact_mod_cast qb
  have two0 : (2 : ℚ) ≠ 0 := by norm_num
  unfold expo
  simp only
  split_ifs with hc
  · refine ⟨hc, ?_⟩
    have : (2 : ℚ) ^ ((ilog2 x.num.natAbs : ℤ) - (ilog2 x.den : ℤ) + 1)
        = (2 : ℚ) ^ (ilog2 x.num.natAbs + 1) / (2 : ℚ) ^ (ilog2 x.den) := by
      rw [show ((ilog2 x.num.natAbs : ℤ) - (ilog2 x.den : ℤ) + 1)
          = ((ilog2 x.num.natAbs + 1 : ℕ) : ℤ) - ((ilog2 x.den : ℕ) : ℤ) by push_cast; ring]
      rw [zpow_sub₀ two0, zpow_natCast, zpow_natCast]
    rw [this]
    conv_lhs => rw [hxe]
    rw [div_lt_div_iff₀ hqQ (by positivity)]
    calc (x.num.natAbs : ℚ) * 2 ^ ilog2 x.den
        ≤ (x.num.natAbs : ℚ) * x.den := by
          apply mul_le_mul_of_nonneg_left qa' (by positivity)
      _ < 2 ^ (ilog2 x.num.natAbs + 1) * x.den := by
          apply mul_lt_mul_of_pos_right pb' hqQ
  · push_neg at hc
    constructor
    · have : (2 : ℚ) ^ ((ilog2 x.num.natAbs : ℤ) - (ilog2 x.den : ℤ) - 1)
          = (2 : ℚ) ^ (ilog2 x.num.natAbs) / (2 : ℚ) ^ (ilog2 x.den + 1) := by
        rw [show ((ilog2 x.num.natAbs : ℤ) - (ilog2 x.den : ℤ) - 1)
            = ((ilog2 x.num.natAbs : ℕ) : ℤ) - ((ilog2 x.den + 1 : ℕ) : ℤ) by push_cast; ring]
        rw [zpow_sub₀ two0, zpow_natCast, zpow_natCast]
      rw [this]
      conv_rhs => rw [hxe]
      rw [div_le_div_iff₀ (by positivity) hqQ]
      calc (2 : ℚ) ^ ilog2 x.num.natAbs * x.den
          ≤ (x.num.natAbs : ℚ) * x.den := by
            apply mul_le_mul_of_nonneg_right pa' (le_of_lt hqQ)
        _ ≤ (x.num.natAbs : ℚ) * 2 ^ (ilog2 x.den + 1) := by
            apply mul_le_mul_of_nonneg_left (le_of_lt qb') (by positivity)
    · simpa using hc



theorem rne_floor_le (t : ℚ) : ⌊t⌋ ≤ rne t := by
  unfold rne
  simp only
  split_ifs <;> omega

theorem rne_le_floor_succ (t : ℚ) : rne t ≤ ⌊t⌋ + 1 := by
  unfold rne
  simp only
  split_ifs <;> omega

theorem rne_intCast (n : ℤ) : rne (n : ℚ) = n := by
  unfold rne
  simp

theorem rne_mono {s t : ℚ} (h : s ≤ t) : rne s ≤ rne t := by
  have hf : ⌊s⌋ ≤ ⌊t⌋ := Int.floor_mono h
  rcases lt_or_eq_of_le hf with hlt | heq
  · calc rne s ≤ ⌊s⌋ + 1 := rne_le_floor_succ s
      _ ≤ ⌊t⌋ := hlt
      _ ≤ rne t := rne_floor_le t
  · have hr : s - ⌊s⌋ ≤ t - ⌊t⌋ := by rw [heq]; linarith
    unfold rne
    simp only
    rw [heq] at hr ⊢
    split_ifs <;> first | omega | (exfalso; linarith)

theorem rnd_of_nonpos {x : ℚ} (h : x ≤ 0) : rnd x = 0 := by
  unfold rnd; simp [h]

theorem rnd_bounds (x : ℚ) (hx : 0 < x) :
    (2 : ℚ) ^ expo x ≤ rnd x ∧ rnd x ≤ (2 : ℚ) ^ (expo x + 1) := by
  obtain ⟨h1, h2⟩ := expo_spec x hx
  have two0 : (2 : ℚ) ≠ 0 := by norm_num
  have hu : (0 : ℚ) < (2 : ℚ) ^ (expo x - 52) := by positivity
  have e1 : (2 : ℚ) ^ expo x = (2 ^ 52 : ℤ) * (2 : ℚ) ^ (expo x - 52) := by
    rw [zpow_sub₀ two0]; push_cast; field_simp; ring
  have e2 : (2 : ℚ) ^ (expo x + 1) = (2 ^ 53 : ℤ) * (2 : ℚ) ^ (expo x - 52) := by
    rw [zpow_sub₀ two0, zpow_add₀ two0]; push_cast; field_simp; ring
  have lo : ((2 ^ 52 : ℤ) : ℚ) ≤ x / (2 : ℚ) ^ (expo x - 52) := by
    rw [le_div_iff₀ hu, ← e1]; exact h1
  have hi : x / (2 : ℚ) ^ (expo x - 52) ≤ ((2 ^ 53 : ℤ) : ℚ) := by
    rw [div_le_iff₀ hu, ← e2]; exact le_of_lt h2
  have lo' := rne_mono lo
  have hi' := rne_mono hi
  rw [rne_intCast] at lo' hi'
  have hrnd : rnd x = (rne (x / (2 : ℚ) ^ (expo x - 52)) : ℚ) * (2 : ℚ) ^ (expo x - 52) := by
    unfold rnd; simp [not_le.mpr hx]
  rw [hrnd, e1, e2]
  constructor
  · apply mul_le_mul_of_nonneg_right _ (le_of_lt hu)
    exact_mod_cast lo'
  · apply mul_le_mul_of_nonneg_right _ (le_of_lt hu)
    exact_mod_cast hi'

theorem rnd_pos {x : ℚ} (hx : 0 < x) : 0 < rnd x :=
  lt_of_lt_of_le (by positivity) (rnd_bounds x hx).1

theorem rnd_nonneg (x : ℚ) : 0 ≤ rnd x := by
  rcases le_or_lt x 0 with h | h
  · rw [rnd_of_nonpos h]
  · exact le_of_lt (rnd_pos h)

theorem expo_mono {x y : ℚ} (hx : 0 < x) (hxy : x ≤ y) : expo x ≤ expo y := by
  have h1 := (expo_spec x hx).1
  have h2 := (expo_spec y (lt_of_lt_of_le hx hxy)).2
  have h3 : (2 : ℚ) ^ expo x < (2 : ℚ) ^ (expo y + 1) := lt_of_le_of_lt (le_trans h1 hxy) h2
  have h4 := (zpow_lt_zpow_iff_right₀ (by norm_num : (1 : ℚ) < 2)).mp h3
  omega

theorem rnd_mono {x y : ℚ} (hxy : x ≤ y) : rnd x ≤ rnd y := by
  rcases le_or_lt x 0 with hx | hx
  · rw [rnd_of_nonpos hx]; exact rnd_nonneg y
  · have hy : 0 < y := lt_of_lt_of_le hx hxy
    rcases lt_or_eq_of_le (expo_mono hx hxy) with hlt | heq
    · calc rnd x ≤ (2 : ℚ) ^ (expo x + 1) := (rnd_bounds x hx).2
        _ ≤ (2 : ℚ) ^ expo y := zpow_le_zpow_right₀ (by norm_num) (by omega)
        _ ≤ rnd y := (rnd_bounds y hy).1
    · have hu : (0 : ℚ) < (2 : ℚ) ^ (expo y - 52) := by positivity
      unfold rnd
      simp only [not_le.mpr hx, not_le.mpr hy, if_false, heq]
      apply mul_le_mul_of_nonneg_right _ (le_of_lt hu)
      have : x / (2 : ℚ) ^ (expo y - 52) ≤ y / (2 : ℚ) ^ (expo y - 52) :=
        div_le_div_of_nonneg_right hxy (le_of_lt hu)
      exact_mod_cast rne_mono this

theorem rnd_natCast (n : ℕ) (h : n < 2 ^ 53) : rnd (n : ℚ) = n := by
  rcases Nat.eq_zero_or_pos n with h0 | h0
  · subst h0; simp [rnd]
  · have hx : (0 : ℚ) < (n : ℚ) := by exact_mod_cast h0
    have two0 : (2 : ℚ) ≠ 0 := by norm_num
    have h1 := (expo_spec (n : ℚ) hx).1
    have h2 : (n : ℚ) < (2 : ℚ) ^ (53 : ℤ) := by
      have e : (2 : ℚ) ^ (53 : ℤ) = ((2 ^ 53 : ℕ) : ℚ) := by norm_num
      rw [e]; exact_mod_cast h
    have h3 := (zpow_lt_zpow_iff_right₀ (by norm_num : (1 : ℚ) < 2)).mp (lt_of_le_of_lt h1 h2)
    obtain ⟨k, hk⟩ : ∃ k : ℕ, expo (n : ℚ) - 52 = -(k : ℤ) := ⟨(52 - expo (n : ℚ)).toNat, by omega⟩
    have hrnd : rnd (n : ℚ)
        = (rne ((n : ℚ) / (2 : ℚ) ^ (expo (n : ℚ) - 52)) : ℚ) * (2 : ℚ) ^ (expo (n : ℚ) - 52) := by
      unfold rnd; simp [not_le.mpr hx]
    rw [hrnd, hk, zpow_neg, zpow_natCast]
    have hdiv : (n : ℚ) / ((2 : ℚ) ^ k)⁻¹ = ((n * 2 ^ k : ℕ) : ℤ) := by
      push_cast; field_simp
    rw [hdiv, rne_intCast]
    push_cast
    field_simp

theorem rnd_intCast {n : Int} (h0 : 0 ≤ n) (h : n < 2 ^ 53) : rnd (n : ℚ) = n := by
  obtain ⟨k, rfl⟩ := Int.eq_ofNat_of_zero_le h0
  have hk : k < 2 ^ 53 := by exact_mod_cast h
  simpa using rnd_natCast k hk

theorem rnd_le_int {x : ℚ} {n : Int} (h0 : 0 ≤ n) (h : n < 2 ^ 53) (hx : x ≤ n) :
    rnd x ≤ n := by
  have := rnd_mono hx
  rwa [rnd_intCast h0 h] at this

theorem int_le_rnd {x : ℚ} {n : Int} (h0 : 0 ≤ n) (h : n < 2 ^ 53) (hx : (n : ℚ) ≤ x) :
    (n : ℚ) ≤ rnd x := by
  have := rnd_mono hx
  rwa [rnd_intCast h0 h] at this

theorem lt_of_int_lt_rnd {x : ℚ} {n : Int} (h0 : 0 ≤ n) (h : n < 2 ^ 53)
    (hx : (n : ℚ) < rnd x) : (n : ℚ) < x := by
  by_contra hc
  exact absurd (rnd_le_int h0 h (not_lt.mp hc)) (not_le.mpr hx)

theorem lt_of_rnd_lt_int {x : ℚ} {n : Int} (h0 : 0 ≤ n) (h : n < 2 ^ 53)
    (hx : rnd x < n) : x < n := by
  by_contra hc
  exact absurd (int_le_rnd h0 h (not_lt.mp hc)) (not_le.mpr hx)

theorem rnd_le_two_zpow {x : ℚ} {k : ℤ} (hx : x < (2 : ℚ) ^ k) : rnd x ≤ (2 : ℚ) ^ k := by
  rcases le_or_lt x 0 with h0 | h0
  · rw [rnd_of_nonpos h0]; positivity
  · have h1 := (expo_spec x h0).1
    have h2 := (zpow_lt_zpow_iff_right₀ (by norm_num : (1 : ℚ) < 2)).mp (lt_of_le_of_lt h1 hx)
    calc rnd x ≤ (2 : ℚ) ^ (expo x + 1) := (rnd_bounds x h0).2
      _ ≤ (2 : ℚ) ^ k := zpow_le_zpow_right₀ (by norm_num) (by omega)

theorem two_zpow_le_rnd {x : ℚ} {k : ℤ} (hx : (2 : ℚ) ^ k ≤ x) : (2 : ℚ) ^ k ≤ rnd x := by
  have h0 : 0 < x := lt_of_lt_of_le (by positivity) hx
  have h2 := (expo_spec x h0).2
  have h3 := (zpow_lt_zpow_iff_right₀ (by norm_num : (1 : ℚ) < 2)).mp (lt_of_le_of_lt hx h2)
  calc (2 : ℚ) ^ k ≤ (2 : ℚ) ^ expo x := zpow_le_zpow_right₀ (by norm_num) (by omega)
    _ ≤ rnd x := (rnd_bounds x h0).1

/-! ## Conversions -/

theorem ofInt_of_pos {n : Int} (h : 0 < n) :
    F64.ofInt n = .fin false (rnd (n.natAbs : ℚ)) ∧ 0 < rnd (n.natAbs : ℚ) := by
  refine ⟨?_, ?_⟩
  · unfold F64.ofInt
    simp [not_lt.mpr (le_of_lt h)]
  · apply rnd_pos
    have : 0 < n.natAbs := Int.natAbs_pos.mpr (ne_of_gt h)
    exact_mod_cast this

theorem ofInt_of_nonneg_small {n : Int} (h0 : 0 ≤ n) (h : n < 2 ^ 53) :
    F64.ofInt n = .fin false (n : ℚ) := by
  unfold F64.ofInt
  have e : ((n.natAbs : ℕ) : ℚ) = (n : ℚ) := by
    rw [← Int.cast_natCast, Int.natAbs_of_nonneg h0]
  rw [e, rnd_intCast h0 h]
  simp [not_lt.mpr h0]

theorem div_fin_pos (a : ℚ) {b : ℚ} (hb : 0 < b) :
    F64.div (.fin false a) (.fin false b) = .fin false (rnd (a / b)) := by
  simp [F64.div, ne_of_gt hb]

theorem mul_fin_pos (a b : ℚ) :
    F64.mul (.fin false a) (.fin false b) = .fin false (rnd (a * b)) := by
  simp [F64.mul]

theorem toInt_eq_floor (cv : F64 → Int) {m : ℚ} (h0 : 0 ≤ m) (h : m < 2 ^ 63) :
    F64.toInt cv (.fin false m) = ⌊m⌋ := by
  have f0 : 0 ≤ ⌊m⌋ := Int.floor_nonneg.mpr h0
  have f1 : ⌊m⌋ < 2 ^ 63 := by
    have : (⌊m⌋ : ℚ) < ((2 ^ 63 : ℤ) : ℚ) := lt_of_le_of_lt (Int.floor_le m) (by push_cast; exact h)
    exact_mod_cast this
  unfold F64.toInt
  simp only [Bool.false_eq_true, if_false]
  rw [if_pos ⟨by omega, f1⟩]

theorem toInt_le (cv : F64 → Int) {m : ℚ} {n : Int} (h0 : 0 ≤ m) (hmn : m ≤ n)
    (hn : n < 2 ^ 63) : F64.toInt cv (.fin false m) ≤ n := by
  have hlt : m < 2 ^ 63 := lt_of_le_of_lt hmn (by exact_mod_cast hn)
  rw [toInt_eq_floor cv h0 hlt]
  have : (⌊m⌋ : ℚ) ≤ (n : ℚ) := le_trans (Int.floor_le m) hmn
  exact_mod_cast this

theorem lt_of_lt_toInt (cv : F64 → Int) {m : ℚ} {n : Int} (h0 : 0 ≤ m) (hn : n < 2 ^ 63)
    (h : n < F64.toInt cv (.fin false m)) : (n : ℚ) < m := by
  rcases lt_or_le m (2 ^ 63) with hlt | hge
  · rw [toInt_eq_floor cv h0 hlt] at h
    have : (n : ℚ) < (⌊m⌋ : ℚ) := by exact_mod_cast h
    exact lt_of_lt_of_le this (Int.floor_le m)
  · have : (n : ℚ) < 2 ^ 63 := by exact_mod_cast hn
    exact lt_of_lt_of_le this hge

/-! ## `calcBestfit` -/

/-- The two candidate conversions of `calcBestfit` on positive arguments with a
box below `2^53`: the aspect `r` is a positive double, and the function returns
what its branches say in terms of `r`. -/
theorem calcBestfit_pos (cv : F64 → Int) (origW origH w h : Int) (typ : ResizeType)
    (hW : 0 < origW) (hH : 0 < origH) (hw : 0 < w) (hh : 0 < h)
    (bw : w < 2 ^ 53) (bh : h < 2 ^ 53) :
    ∃ r : ℚ, 0 < r ∧
      r = rnd (rnd (origW.natAbs : ℚ) / rnd (origH.natAbs : ℚ)) ∧
      calcBestfit cv origW origH w h typ =
        if origW > origH then
          if (typ = ResizeTypeDownscale ∧ F64.toInt cv (.fin false (rnd ((h : ℚ) * r))) > w) ∨
              (typ = ResizeTypeUpscale ∧ w > F64.toInt cv (.fin false (rnd ((h : ℚ) * r)))) then
            (w, F64.toInt cv (.fin false (rnd ((w : ℚ) / r))))
          else (F64.toInt cv (.fin false (rnd ((h : ℚ) * r))), h)
        else
          if (typ = ResizeTypeDownscale ∧ F64.toInt cv (.fin false (rnd ((w : ℚ) / r))) > h) ∨
              (typ = ResizeTypeUpscale ∧ h > F64.toInt cv (.fin false (rnd ((w : ℚ) / r)))) then
            (F64.toInt cv (.fin false (rnd ((h : ℚ) * r))), h)
          else (w, F64.toInt cv (.fin false (rnd ((w : ℚ) / r)))) := by
  obtain ⟨eW, pW⟩ := ofInt_of_pos hW
  obtain ⟨eH, pH⟩ := ofInt_of_pos hH
  have pr : 0 < rnd (rnd (origW.natAbs : ℚ) / rnd (origH.natAbs : ℚ)) :=
    rnd_pos (div_pos pW pH)
  refine ⟨_, pr, rfl, ?_⟩
  unfold calcBestfit
  simp only [eW, eH, div_fin_pos _ pH, ofInt_of_nonneg_small (le_of_lt hw) bw,
    ofInt_of_nonneg_small (le_of_lt hh) bh, mul_fin_pos, div_fin_pos _ pr]

theorem calcBestfit_downscale_le (cv : F64 → Int) (origW origH w h : Int)
    (hW : 0 < origW) (hH : 0 < origH) (hw : 0 < w) (hh : 0 < h)
    (bw : w < 2 ^ 53) (bh : h < 2 ^ 53) :
    (calcBestfit cv origW origH w h ResizeTypeDownscale).1 ≤ w ∧
      (calcBestfit cv origW origH w h ResizeTypeDownscale).2 ≤ h := by
  obtain ⟨r, pr, -, e⟩ := calcBestfit_pos cv origW origH w h ResizeTypeDownscale hW hH hw hh bw bh
  rw [e]
  have w63 : w < 2 ^ 63 := by omega
  have h63 : h < 2 ^ 63 := by omega
  have hwq : (0 : ℚ) < (w : ℚ) := by exact_mod_cast hw
  have hhq : (0 : ℚ) < (h : ℚ) := by exact_mod_cast hh
  have ne : ¬ (ResizeTypeDownscale = ResizeTypeUpscale) := by decide
  simp only [ne, false_and, or_false, true_and]
  split_ifs with c1 c2 c3
  · -- wide, the clamp fires
    refine ⟨le_refl _, ?_⟩
    have a1 := lt_of_lt_toInt cv (rnd_nonneg _) w63 c2
    have a2 : (w : ℚ) < (h : ℚ) * r := lt_of_int_lt_rnd (le_of_lt hw) bw a1
    have a3 : (w : ℚ) / r ≤ (h : ℚ) := by
      rw [div_le_iff₀ pr]; exact le_of_lt a2
    exact toInt_le cv (rnd_nonneg _) (rnd_le_int (le_of_lt hh) bh a3) h63
  · exact ⟨not_lt.mp c2, le_refl _⟩
  · -- tall or square, the clamp fires
    refine ⟨?_, le_refl _⟩
    have a1 := lt_of_lt_toInt cv (rnd_nonneg _) h63 c3
    have a2 : (h : ℚ) < (w : ℚ) / r := lt_of_int_lt_rnd (le_of_lt hh) bh a1
    have a3 : (h : ℚ) * r ≤ (w : ℚ) := by
      rw [lt_div_iff₀ pr] at a2; exact le_of_lt a2
    exact toInt_le cv (rnd_nonneg _) (rnd_le_int (le_of_lt hw) bw a3) w63
  · exact ⟨le_refl _, not_lt.mp c3⟩

/-- On arguments below `2^31` no conversion of `calcBestfit` leaves the range of
`int`: the aspect lies between `2^-31` and `2^31`. -/
theorem aspect_bounds {origW origH : Int} (hW : 0 < origW) (hH : 0 < origH)
    (bW : origW < 2 ^ 31) (bH : origH < 2 ^ 31) :
    (2 : ℚ) ^ (-31 : ℤ) ≤ rnd (rnd (origW.natAbs : ℚ) / rnd (origH.natAbs : ℚ)) ∧
      rnd (rnd (origW.natAbs : ℚ) / rnd (origH.natAbs : ℚ)) ≤ (2 : ℚ) ^ (31 : ℤ) := by
  have eW : ((origW.natAbs : ℕ) : ℚ) = (origW : ℚ) := by
    rw [← Int.cast_natCast, Int.natAbs_of_nonneg (le_of_lt hW)]
  have eH : ((origH.natAbs : ℕ) : ℚ) = (origH : ℚ) := by
    rw [← Int.cast_natCast, Int.natAbs_of_nonneg (le_of_lt hH)]
  rw [eW, eH, rnd_intCast (le_of_lt hW) (by omega), rnd_intCast (le_of_lt hH) (by omega)]
  have hWq : (1 : ℚ) ≤ (origW : ℚ) := by exact_mod_cast hW
  have hHq : (1 : ℚ) ≤ (origH : ℚ) := by exact_mod_cast hH
  have bWq : (origW : ℚ) < 2 ^ 31 := by exact_mod_cast bW
  have bHq : (origH : ℚ) < 2 ^ 31 := by exact_mod_cast bH
  have hH0 : (0 : ℚ) < (origH : ℚ) := by linarith
  constructor
  · apply two_zpow_le_rnd
    rw [le_div_iff₀ hH0]
    have : (2 : ℚ) ^ (-31 : ℤ) = 1 / 2 ^ 31 := by norm_num
    rw [this]
    have : (1 : ℚ) / 2 ^ 31 * (origH : ℚ) ≤ 1 := by
      rw [div_mul_eq_mul_div, div_le_iff₀ (by positivity)]; linarith
    linarith
  · apply rnd_le_two_zpow
    rw [div_lt_iff₀ hH0]
    have : (2 : ℚ) ^ (31 : ℤ) = 2 ^ 31 := by norm_num
    rw [this]
    nlinarith

theorem calcBestfit_upscale_ge (cv : F64 → Int) (origW origH w h : Int)
    (hW : 0 < origW) (hH : 0 < origH) (hw : 0 < w) (hh : 0 < h)
    (bW : origW < 2 ^ 31) (bH : origH < 2 ^ 31) (bw : w < 2 ^ 31) (bh : h < 2 ^ 31) :
    w ≤ (calcBestfit cv origW origH w h ResizeTypeUpscale).1 ∧
      h ≤ (calcBestfit cv origW origH w h ResizeTypeUpscale).2 := by
  have bw53 : w < 2 ^ 53 := by omega
  have bh53 : h < 2 ^ 53 := by omega
  obtain ⟨r, pr, er, e⟩ :=
    calcBestfit_pos cv origW origH w h ResizeTypeUpscale hW hH hw hh bw53 bh53
  obtain ⟨rlo, rhi⟩ := aspect_bounds hW hH bW bH
  rw [← er] at rlo rhi
  rw [e]
  have hwq : (0 : ℚ) < (w : ℚ) := by exact_mod_cast hw
  have hhq : (0 : ℚ) < (h : ℚ) := by exact_mod_cast hh
  have bwq : (w : ℚ) ≤ 2 ^ 31 - 1 := by
    have : w ≤ 2 ^ 31 - 1 := by omega
    exact_mod_cast this
  have bhq : (h : ℚ) ≤ 2 ^ 31 - 1 := by
    have : h ≤ 2 ^ 31 - 1 := by omega
    exact_mod_cast this
  have e31 : (2 : ℚ) ^ (31 : ℤ) = 2 ^ 31 := by norm_num
  have em31 : (2 : ℚ) ^ (-31 : ℤ) = 1 / 2 ^ 31 := by norm_num
  have e62 : (2 : ℚ) ^ (62 : ℤ) = 2 ^ 62 := by norm_num
  rw [e31] at rhi
  rw [em31] at rlo
  -- both candidate conversions are in range
  have m1 : rnd ((h : ℚ) * r) < 2 ^ 63 := by
    have : (h : ℚ) * r < (2 : ℚ) ^ (62 : ℤ) := by rw [e62]; nlinarith
    have := rnd_le_two_zpow this
    rw [e62] at this
    linarith
  have m2 : rnd ((w : ℚ) / r) < 2 ^ 63 := by
    have : (w : ℚ) / r < (2 : ℚ) ^ (62 : ℤ) := by
      rw [e62, div_lt_iff₀ pr]
      have : (1 : ℚ) ≤ 2 ^ 31 * r := by
        have := mul_le_mul_of_nonneg_left rlo (by positivity : (0 : ℚ) ≤ 2 ^ 31)
        simpa using this
      nlinarith
    have := rnd_le_two_zpow this
    rw [e62] at this
    linarith
  rw [toInt_eq_floor cv (rnd_nonneg _) m1, toInt_eq_floor cv (rnd_nonneg _) m2]
  have ne : ¬ (ResizeTypeUpscale = ResizeTypeDownscale) := by decide
  simp only [ne, false_and, false_or, true_and]
  split_ifs with c1 c2 c3
  · -- wide, the clamp fires
    refine ⟨le_refl _, ?_⟩
    have a1 : rnd ((h : ℚ) * r) < (w : ℚ) := Int.floor_lt.mp c2
    have a2 : (h : ℚ) * r < (w : ℚ) := lt_of_rnd_lt_int (le_of_lt hw) bw53 a1
    have a3 : (h : ℚ) ≤ (w : ℚ) / r := by
      rw [le_div_iff₀ pr]; exact le_of_lt a2
    exact Int.le_floor.mpr (int_le_rnd (le_of_lt hh) bh53 a3)
  · exact ⟨not_lt.mp c2, le_refl _⟩
  · -- tall or square, the clamp fires
    refine ⟨?_, le_refl _⟩
    have a1 : rnd ((w : ℚ) / r) < (h : ℚ) := Int.floor_lt.mp c3
    have a2 : (w : ℚ) / r < (h : ℚ) := lt_of_rnd_lt_int (le_of_lt hh) bh53 a1
    have a3 : (w : ℚ) ≤ (h : ℚ) * r := by
      rw [div_lt_iff₀ pr] at a2; exact le_of_lt a2
    exact Int.le_floor.mpr (int_le_rnd (le_of_lt hw) bw53 a3)
  · exact ⟨le_refl _, not_lt.mp c3⟩

/-! ## `ResizeImage` -/

theorem ResizeImage_fit (cv : F64 → Int) (i : Image) (w h : Int) (t : ResizeType)
    (ht : t ≠ ResizeTypeNone) (hw : w ≠ 0) (hh : h ≠ 0) :
    ResizeImage cv i w h [t] =
      addFilter
        (setWidthHeight i (calcBestfit cv i.Width i.Height w h t).1
          (calcBestfit cv i.Width i.Height w h t).2)
        "scale"
        [fmtInt (calcBestfit cv i.Width i.Height w h t).1 ++ ":" ++
          fmtInt (calcBestfit cv i.Width i.Height w h t).2] := by
  unfold ResizeImage
  simp [hw, hh, ht]

theorem addFilter_size (i : Image) (k : String) (args : List String) :
    (addFilter i k args).Width = i.Width ∧ (addFilter i k args).Height = i.Height :=
  ⟨rfl, rfl⟩

theorem ResizeImage_fit_size (cv : F64 → Int) (i : Image) (w h : Int) (t : ResizeType)
    (ht : t ≠ ResizeTypeNone) (hw : w ≠ 0) (hh : h ≠ 0) :
    (ResizeImage cv i w h [t]).Width = (calcBestfit cv i.Width i.Height w h t).1 ∧
      (ResizeImage cv i w h [t]).Height = (calcBestfit cv i.Width i.Height w h t).2 := by
  rw [ResizeImage_fit cv i w h t ht hw hh]
  exact ⟨rfl, rfl⟩

/-! ## Claims -/

/-- C1, as stated, fails: on a 1 x 1 source with the box 9007199254740995 x
9007199254740995 (that is `2^53 + 3`, which `float64` rounds to `2^53 + 4`), the
downscale fit returns the width 9007199254740996, one more than the box. -/
theorem bestfit_downscale_exceeds_box :
    calcBestfit cvAmd64 1 1 9007199254740995 9007199254740995 ResizeTypeDownscale
        = (9007199254740996, 9007199254740995) ∧
      ¬ ((calcBestfit cvAmd64 1 1 9007199254740995 9007199254740995 ResizeTypeDownscale).1
          ≤ 9007199254740995) := by
  decide!

/-- C1, amended: for all positive `origW`, `origH` and every positive box `w`, `h`
below `2^53`, `calcBestfit` with `ResizeTypeDownscale` returns `newW ≤ w` and
`newH ≤ h`, whatever the platform does on an out-of-range conversion; so
`ResizeImage(w, h, ResizeTypeDownscale)` on an image tracked at `origW x origH`
tracks a size within the box. -/
theorem bestfit_downscale_within_box (cv : F64 → Int) (origW origH w h : Int) (i : Image)
    (hW : 0 < origW) (hH : 0 < origH) (hw : 0 < w) (hh : 0 < h)
    (bw : w < 2 ^ 53) (bh : h < 2 ^ 53) (iW : i.Width = origW) (iH : i.Height = origH) :
    (calcBestfit cv origW origH w h ResizeTypeDownscale).1 ≤ w ∧
      (calcBestfit cv origW origH w h ResizeTypeDownscale).2 ≤ h ∧
      (ResizeImage cv i w h [ResizeTypeDownscale]).Width ≤ w ∧
      (ResizeImage cv i w h [ResizeTypeDownscale]).Height ≤ h := by
  have key := calcBestfit_downscale_le cv origW origH w h hW hH hw hh bw bh
  have sz := ResizeImage_fit_size cv i w h ResizeTypeDownscale (by decide) (ne_of_gt hw)
    (ne_of_gt hh)
  rw [iW, iH] at sz
  rw [sz.1, sz.2]
  exact ⟨key.1, key.2, key.1, key.2⟩

theorem bestfit_downscale_within_box_witness :
    (calcBestfit cvAmd64 431 324 300 300 ResizeTypeDownscale).1 ≤ 300 ∧
      (calcBestfit cvAmd64 431 324 300 300 ResizeTypeDownscale).2 ≤ 300 ∧
      (ResizeImage cvAmd64 testImage 300 300 [ResizeTypeDownscale]).Width ≤ 300 ∧
      (ResizeImage cvAmd64 testImage 300 300 [ResizeTypeDownscale]).Height ≤ 300 :=
  bestfit_downscale_within_box cvAmd64 431 324 300 300 testImage (by decide) (by decide)
    (by decide) (by decide) (by decide) (by decide) rfl rfl

/-- C2, as stated, fails.  On a 1 x 1 source with the box 9007199254740993 x
9007199254740993 (`2^53 + 1`, which `float64` rounds to `2^53`) the upscale fit
returns the width 9007199254740992, one less than the box.  And where a
conversion leaves the range of `int` the result depends on the platform: on
amd64 a 1099511627776 x 1 source with the box 5 x 1099511627776 gets the
height 0. -/
theorem bestfit_upscale_below_box :
    calcBestfit cvAmd64 1 1 9007199254740993 9007199254740993 ResizeTypeUpscale
        = (9007199254740992, 9007199254740993) ∧
      ¬ (9007199254740993
          ≤ (calcBestfit cvAmd64 1 1 9007199254740993 9007199254740993 ResizeTypeUpscale).1) ∧
      calcBestfit cvAmd64 1099511627776 1 5 1099511627776 ResizeTypeUpscale = (5, 0) := by
  decide!

/-- C2, amended: for all positive `origW`, `origH`, `w`, `h` below `2^31`,
`calcBestfit` with `ResizeTypeUpscale` returns `newW ≥ w` and `newH ≥ h`; so
`ResizeImage(w, h, ResizeTypeUpscale)` on an image tracked at `origW x origH`
tracks a size that covers the box. -/
theorem bestfit_upscale_covers_box (cv : F64 → Int) (origW origH w h : Int) (i : Image)
    (hW : 0 < origW) (hH : 0 < origH) (hw : 0 < w) (hh : 0 < h)
    (bW : origW < 2 ^ 31) (bH : origH < 2 ^ 31) (bw : w < 2 ^ 31) (bh : h < 2 ^ 31)
    (iW : i.Width = origW) (iH : i.Height = origH) :
    w ≤ (calcBestfit cv origW origH w h ResizeTypeUpscale).1 ∧
      h ≤ (calcBestfit cv origW origH w h ResizeTypeUpscale).2 ∧
      w ≤ (ResizeImage cv i w h [ResizeTypeUpscale]).Width ∧
      h ≤ (ResizeImage cv i w h [ResizeTypeUpscale]).Height := by
  have key := calcBestfit_upscale_ge cv origW origH w h hW hH hw hh bW bH bw bh
  have sz := ResizeImage_fit_size cv i w h ResizeTypeUpscale (by decide) (ne_of_gt hw)
    (ne_of_gt hh)
  rw [iW, iH] at sz
  rw [sz.1, sz.2]
  exact ⟨key.1, key.2, key.1, key.2⟩

theorem bestfit_upscale_covers_box_witness :
    300 ≤ (calcBestfit cvAmd64 431 324 300 300 ResizeTypeUpscale).1 ∧
      300 ≤ (calcBestfit cvAmd64 431 324 300 300 ResizeTypeUpscale).2 ∧
      300 ≤ (ResizeImage cvAmd64 testImage 300 300 [ResizeTypeUpscale]).Width ∧
      300 ≤ (ResizeImage cvAmd64 testImage 300 300 [ResizeTypeUpscale]).Height :=
  bestfit_upscale_covers_box cvAmd64 431 324 300 300 testImage (by decide) (by decide)
    (by decide) (by decide) (by decide) (by decide) (by decide) (by decide) rfl rfl

/-! ## `calcPosition` -/

theorem wrap64_of_range {n : Int} (h0 : -2 ^ 63 ≤ n) (h1 : n < 2 ^ 63) : wrap64 n = n := by
  unfold wrap64
  omega

theorem absInt_small (cv : F64 → Int) {x : Int} (h0 : -2 ^ 53 < x) (h1 : x < 2 ^ 53) :
    absInt cv x = |x| := by
  unfold absInt F64.ofInt F64.abs
  have e : ((x.natAbs : ℕ) : ℚ) = ((|x| : ℤ) : ℚ) := by
    rw [← Int.cast_natCast, Int.natCast_natAbs]
  have a0 : 0 ≤ |x| := abs_nonneg x
  have a1 : |x| < 2 ^ 53 := abs_lt.mpr ⟨h0, h1⟩
  simp only
  rw [e, rnd_intCast a0 a1]
  have hlt : ((|x| : ℤ) : ℚ) < 2 ^ 63 := by
    have : |x| < 2 ^ 63 := by omega
    exact_mod_cast this
  rw [toInt_eq_floor cv (by exact_mod_cast a0) hlt]
  exact Int.floor_intCast _

theorem calcPosition_center (cv : F64 → Int) (origW origH w h : Int) :
    calcPosition cv origW origH w h PositionTypeCenter =
      (absInt cv (sub64 (origW.tdiv 2) (w.tdiv 2)), absInt cv (sub64 (origH.tdiv 2) (h.tdiv 2))) := by
  unfold calcPosition
  simp [PositionTypeCenter, PositionTypeTopLeft, PositionTypeTop, PositionTypeTopRight,
    PositionTypeLeft]

theorem tdiv_two_bounds {x : Int} (h0 : -2 ^ 53 < x) (h1 : x < 2 ^ 53) :
    -2 ^ 52 < x.tdiv 2 ∧ x.tdiv 2 < 2 ^ 52 := by
  rcases le_or_lt 0 x with hx | hx
  · rw [Int.tdiv_eq_ediv hx (by decide)]; omega
  · obtain ⟨y, rfl⟩ : ∃ y, x = -y := ⟨-x, by simp⟩
    have hy : 0 ≤ y := by omega
    rw [Int.neg_tdiv, Int.tdiv_eq_ediv hy (by decide)]; omega

/-- C5, as stated, fails.  The two halves are truncated separately and the
difference is returned as a magnitude: a 1 x 1 region in a 2 x 2 canvas gets
(1, 1), not ((2 - 1)/2, (2 - 1)/2) = (0, 0); a 4 x 4 region in a 0 x 0 canvas
gets (2, 2), not (-2, -2).  The magnitude is taken in `float64`: for
`origW = 2^54 + 2` and `w = 0` the result is `2^53`, not `2^53 + 1`. -/
theorem position_center_not_half_difference :
    calcPosition cvAmd64 2 2 1 1 PositionTypeCenter = (1, 1) ∧
      ¬ (calcPosition cvAmd64 2 2 1 1 PositionTypeCenter
          = (Int.tdiv (2 - 1) 2, Int.tdiv (2 - 1) 2)) ∧
      calcPosition cvAmd64 0 0 4 4 PositionTypeCenter = (2, 2) ∧
      ¬ (calcPosition cvAmd64 0 0 4 4 PositionTypeCenter
          = (Int.tdiv (0 - 4) 2, Int.tdiv (0 - 4) 2)) ∧
      calcPosition cvAmd64 18014398509481986 0 0 0 PositionTypeCenter
        = (9007199254740992, 0) ∧
      Int.tdiv 18014398509481986 2 - Int.tdiv 0 2 = 9007199254740993 := by
  decide!

/-- C5, amended: for all integers `origW`, `origH`, `w`, `h` of magnitude below
`2^53`, `calcPosition` with `PositionTypeCenter` returns exactly
`x = |origW/2 - w/2|` and `y = |origH/2 - h/2|`, each half being Go's integer
division (truncated toward zero), whatever the platform does on an out-of-range
conversion. -/
theorem position_center_halves (cv : F64 → Int) (origW origH w h : Int)
    (hW : -2 ^ 53 < origW ∧ origW < 2 ^ 53) (hH : -2 ^ 53 < origH ∧ origH < 2 ^ 53)
    (hw : -2 ^ 53 < w ∧ w < 2 ^ 53) (hh : -2 ^ 53 < h ∧ h < 2 ^ 53) :
    calcPosition cv origW origH w h PositionTypeCenter =
      (|origW.tdiv 2 - w.tdiv 2|, |origH.tdiv 2 - h.tdiv 2|) := by
  obtain ⟨a1, a2⟩ := tdiv_two_bounds hW.1 hW.2
  obtain ⟨b1, b2⟩ := tdiv_two_bounds hH.1 hH.2
  obtain ⟨c1, c2⟩ := tdiv_two_bounds hw.1 hw.2
  obtain ⟨d1, d2⟩ := tdiv_two_bounds hh.1 hh.2
  rw [calcPosition_center]
  unfold sub64
  rw [wrap64_of_range (by omega) (by omega), wrap64_of_range (by omega) (by omega),
    absInt_small cv (by omega) (by omega), absInt_small cv (by omega) (by omega)]

theorem position_center_halves_witness :
    calcPosition cvAmd64 431 324 300 300 PositionTypeCenter =
      (|Int.tdiv 431 2 - Int.tdiv 300 2|, |Int.tdiv 324 2 - Int.tdiv 300 2|) :=
  position_center_halves cvAmd64 431 324 300 300 (by decide) (by decide) (by decide)
    (by decide)

/-- C6 at a failing input: `ThumbnailImage(150, 150)` on the 431 x 324 test image
appends `scale 148:112` and `pad 150:150:0:19:black`.  The offsets are those of a
150 x 112 inner image (`calcBestpad`), but the scale filter is 148 wide: the
left margin is 0 and the right margin 2, so the image is not centred to within
one pixel. -/
theorem thumbnail_off_centre :
    (ThumbnailImage cvAmd64 testImage 150 150).Output.Filters =
        testImage.Output.Filters ++ [⟨"scale", ["148:112"]⟩, ⟨"pad", ["150:150:0:19:black"]⟩] ∧
      calcBestpad cvAmd64 431 324 150 150 = (150, 112) ∧
      calcPosition cvAmd64 150 112 150 150 PositionTypeCenter = (0, 19) ∧
      ¬ (|(0 : Int) - (150 - 148 - 0)| ≤ 1) := by
  decide!

/-- C7 at a failing input, the one of the claim: `ThumbnailImage(300, 300)` on the
431 x 324 test image appends `scale 299:225`, although
`calcBestpad(431, 324, 300, 300)` is (300, 225): `ResizeImage` is called with
`ResizeTypeDownscale` and fits the `calcBestpad` size once more through
`calcBestfit`. -/
theorem thumbnail_inner_size_refitted :
    (ThumbnailImage cvAmd64 testImage 300 300).Output.Filters =
        testImage.Output.Filters ++ [⟨"scale", ["299:225"]⟩, ⟨"pad", ["300:300:0:38:black"]⟩] ∧
      calcBestpad cvAmd64 431 324 300 300 = (300, 225) ∧
      calcBestfit cvAmd64 431 324 300 225 ResizeTypeDownscale = (299, 225) := by
  decide!

theorem NewImage_testImage : NewImage testProbe "./test/source.png" = .ok testImage := by
  rfl

theorem ExtentImage_size (cv : F64 → Int) (i : Image) (w h x y : Int) (pos : List PositionType) :
    (ExtentImage cv i w h x y pos).Width = w ∧ (ExtentImage cv i w h x y pos).Height = h :=
  ⟨rfl, rfl⟩

theorem CropImage_size (cv : F64 → Int) (i : Image) (w h x y : Int) (pos : List PositionType) :
    (CropImage cv i w h x y pos).Width = w ∧ (CropImage cv i w h x y pos).Height = h :=
  ⟨rfl, rfl⟩

theorem CropThumbnailImage_size (cv : F64 → Int) (i : Image) (w h : Int) :
    (CropThumbnailImage cv i w h).Width = w ∧ (CropThumbnailImage cv i w h).Height = h :=
  ⟨rfl, rfl⟩

theorem ThumbnailImage_size (cv : F64 → Int) (i : Image) (w h : Int) :
    (ThumbnailImage cv i w h).Width = w ∧ (ThumbnailImage cv i w h).Height = h :=
  ⟨rfl, rfl⟩

theorem ResizeImage_stretch_size (cv : F64 → Int) (i : Image) (w h : Int) (typ : List ResizeType)
    (ht : typ = [] ∨ typ = [ResizeTypeNone]) (hw : w ≠ 0) (hh : h ≠ 0) :
    (ResizeImage cv i w h typ).Width = w ∧ (ResizeImage cv i w h typ).Height = h := by
  rcases ht with rfl | rfl <;>
  · unfold ResizeImage
    simp [hw, hh, addFilter, setWidthHeight]

/-- C8, as stated, fails.  `ExtentImage(0, 0, 0, 0)` and `CropImage(-5, 10, 0, 0)`
track the size they are given; on a 1000 x 1 image
`ResizeImage(10, 10, ResizeTypeDownscale)` tracks 10 x 0; on a 1 x 1000 image
`ResizeImage(0, 10)` tracks 0 x 10. -/
theorem tracked_size_not_positive :
    (ExtentImage cvAmd64 testImage 0 0 0 0 []).Width = 0 ∧
      (CropImage cvAmd64 testImage (-5) 10 0 0 []).Width = -5 ∧
      (0 < (testImageOf 1000 1).Width ∧ 0 < (testImageOf 1000 1).Height) ∧
      (ResizeImage cvAmd64 (testImageOf 1000 1) 10 10 [ResizeTypeDownscale]).Width = 10 ∧
      (ResizeImage cvAmd64 (testImageOf 1000 1) 10 10 [ResizeTypeDownscale]).Height = 0 ∧
      (ResizeImage cvAmd64 (testImageOf 1 1000) 0 10 []).Width = 0 ∧
      (ResizeImage cvAmd64 (testImageOf 1 1000) 0 10 []).Height = 10 := by
  decide!

/-- C8, amended: with positive `w` and `h`, `ExtentImage`, `CropImage`,
`CropThumbnailImage`, `ThumbnailImage` and `ResizeImage` without a fit mode leave
the tracked size equal to (w, h), hence positive, whatever the image was; and
`ResizeImage(w, h, ResizeTypeUpscale)` with `w`, `h` below `2^31`, on an image
whose tracked `Width` and `Height` are positive and below `2^31`, leaves it at
least (w, h), hence positive. -/
theorem tracked_size_positive (cv : F64 → Int) (i : Image) (w h x y : Int)
    (pos : List PositionType) (hw : 0 < w) (hh : 0 < h) :
    ((ExtentImage cv i w h x y pos).Width = w ∧ (ExtentImage cv i w h x y pos).Height = h ∧
        0 < (ExtentImage cv i w h x y pos).Width ∧ 0 < (ExtentImage cv i w h x y pos).Height) ∧
      ((CropImage cv i w h x y pos).Width = w ∧ (CropImage cv i w h x y pos).Height = h ∧
        0 < (CropImage cv i w h x y pos).Width ∧ 0 < (CropImage cv i w h x y pos).Height) ∧
      ((CropThumbnailImage cv i w h).Width = w ∧ (CropThumbnailImage cv i w h).Height = h ∧
        0 < (CropThumbnailImage cv i w h).Width ∧ 0 < (CropThumbnailImage cv i w h).Height) ∧
      ((ThumbnailImage cv i w h).Width = w ∧ (ThumbnailImage cv i w h).Height = h ∧
        0 < (ThumbnailImage cv i w h).Width ∧ 0 < (ThumbnailImage cv i w h).Height) ∧
      ((ResizeImage cv i w h []).Width = w ∧ (ResizeImage cv i w h []).Height = h ∧
        0 < (ResizeImage cv i w h []).Width ∧ 0 < (ResizeImage cv i w h []).Height) ∧
      ((ResizeImage cv i w h [ResizeTypeNone]).Width = w ∧
        (ResizeImage cv i w h [ResizeTypeNone]).Height = h ∧
        0 < (ResizeImage cv i w h [ResizeTypeNone]).Width ∧
        0 < (ResizeImage cv i w h [ResizeTypeNone]).Height) ∧
      (0 < i.Width → 0 < i.Height → i.Width < 2 ^ 31 → i.Height < 2 ^ 31 →
        w < 2 ^ 31 → h < 2 ^ 31 →
        w ≤ (ResizeImage cv i w h [ResizeTypeUpscale]).Width ∧
          h ≤ (ResizeImage cv i w h [ResizeTypeUpscale]).Height ∧
          0 < (ResizeImage cv i w h [ResizeTypeUpscale]).Width ∧
          0 < (ResizeImage cv i w h [ResizeTypeUpscale]).Height) := by
  have e := ExtentImage_size cv i w h x y pos
  have c := CropImage_size cv i w h x y pos
  have ct := CropThumbnailImage_size cv i w h
  have t := ThumbnailImage_size cv i w h
  have r1 := ResizeImage_stretch_size cv i w h [] (Or.inl rfl) (ne_of_gt hw) (ne_of_gt hh)
  have r2 := ResizeImage_stretch_size cv i w h [ResizeTypeNone] (Or.inr rfl) (ne_of_gt hw)
    (ne_of_gt hh)
  rw [e.1, e.2, c.1, c.2, ct.1, ct.2, t.1, t.2, r1.1, r1.2, r2.1, r2.2]
  refine ⟨⟨rfl, rfl, hw, hh⟩, ⟨rfl, rfl, hw, hh⟩, ⟨rfl, rfl, hw, hh⟩, ⟨rfl, rfl, hw, hh⟩,
    ⟨rfl, rfl, hw, hh⟩, ⟨rfl, rfl, hw, hh⟩, ?_⟩
  intro pW pH bW bH bw bh
  have sz := ResizeImage_fit_size cv i w h ResizeTypeUpscale (by decide) (ne_of_gt hw)
    (ne_of_gt hh)
  have key := calcBestfit_upscale_ge cv i.Width i.Height w h pW pH hw hh bW bH bw bh
  rw [sz.1, sz.2]
  exact ⟨key.1, key.2, lt_of_lt_of_le hw key.1, lt_of_lt_of_le hh key.2⟩

theorem tracked_size_positive_witness :
    ((ExtentImage cvAmd64 testImage 500 500 0 0 [PositionTypeCenter]).Width = 500 ∧
        (ExtentImage cvAmd64 testImage 500 500 0 0 [PositionTypeCenter]).Height = 500 ∧
        0 < (ExtentImage cvAmd64 testImage 500 500 0 0 [PositionTypeCenter]).Width ∧
        0 < (ExtentImage cvAmd64 testImage 500 500 0 0 [PositionTypeCenter]).Height) ∧
      ((CropImage cvAmd64 testImage 500 500 0 0 [PositionTypeCenter]).Width = 500 ∧
        (CropImage cvAmd64 testImage 500 500 0 0 [PositionTypeCenter]).Height = 500 ∧
        0 < (CropImage cvAmd64 testImage 500 500 0 0 [PositionTypeCenter]).Width ∧
        0 < (CropImage cvAmd64 testImage 500 500 0 0 [PositionTypeCenter]).Height) ∧
      ((CropThumbnailImage cvAmd64 testImage 500 500).Width = 500 ∧
        (CropThumbnailImage cvAmd64 testImage 500 500).Height = 500 ∧
        0 < (CropThumbnailImage cvAmd64 testImage 500 500).Width ∧
        0 < (CropThumbnailImage cvAmd64 testImage 500 500).Height) ∧
      ((ThumbnailImage cvAmd64 testImage 500 500).Width = 500 ∧
        (ThumbnailImage cvAmd64 testImage 500 500).Height = 500 ∧
        0 < (ThumbnailImage cvAmd64 testImage 500 500).Width ∧
        0 < (ThumbnailImage cvAmd64 testImage 500 500).Height) ∧
      ((ResizeImage cvAmd64 testImage 500 500 []).Width = 500 ∧
        (ResizeImage cvAmd64 testImage 500 500 []).Height = 500 ∧
        0 < (ResizeImage cvAmd64 testImage 500 500 []).Width ∧
        0 < (ResizeImage cvAmd64 testImage 500 500 []).Height) ∧
      ((ResizeImage cvAmd64 testImage 500 500 [ResizeTypeNone]).Width = 500 ∧
        (ResizeImage cvAmd64 testImage 500 500 [ResizeTypeNone]).Height = 500 ∧
        0 < (ResizeImage cvAmd64 testImage 500 500 [ResizeTypeNone]).Width ∧
        0 < (ResizeImage cvAmd64 testImage 500 500 [ResizeTypeNone]).Height) ∧
      (500 ≤ (ResizeImage cvAmd64 testImage 500 500 [ResizeTypeUpscale]).Width ∧
        500 ≤ (ResizeImage cvAmd64 testImage 500 500 [ResizeTypeUpscale]).Height ∧
        0 < (ResizeImage cvAmd64 testImage 500 500 [ResizeTypeUpscale]).Width ∧
        0 < (ResizeImage cvAmd64 testImage 500 500 [ResizeTypeUpscale]).Height) :=
  let t := tracked_size_positive cvAmd64 testImage 500 500 0 0 [PositionTypeCenter]
    (by decide) (by decide)
  ⟨t.1, t.2.1, t.2.2.1, t.2.2.2.1, t.2.2.2.2.1, t.2.2.2.2.2.1,
    t.2.2.2.2.2.2 (by decide) (by decide) (by decide) (by decide) (by decide) (by decide)⟩

/-! ## Quality -/

theorem ResizeImage_Quality (cv : F64 → Int) (i : Image) (w h : Int) (typ : List ResizeType) :
    (ResizeImage cv i w h typ).Output.Quality = i.Output.Quality := by
  unfold ResizeImage
  simp only
  split_ifs <;> rfl

theorem SetImageFormat_Quality (i : Image) (f : ImageFormat) :
    (SetImageFormat i f).Output.Quality = i.Output.Quality := by
  unfold SetImageFormat
  simp only
  split_ifs <;> rfl

theorem Call.apply_Quality (cv : F64 → Int) (i : Image) (c : Call) :
    (c.apply cv i).Output.Quality =
      match c with
      | .setQuality q => q
      | _ => i.Output.Quality := by
  cases c <;> first
    | rfl
    | exact ResizeImage_Quality cv i _ _ _
    | exact SetImageFormat_Quality i _

theorem NewImage_Quality {probe : Probe} {path : String} {i : Image}
    (h : NewImage probe path = .ok i) : i.Output.Quality = 0 := by
  unfold NewImage at h
  split at h
  · cases h
  · split at h
    · cases h
    · split_ifs at h
      simp only [Except.ok.injEq] at h
      rw [← h]
      rfl

theorem runCalls_Quality (cv : F64 → Int) (cs : List Call) :
    ∀ i : Image, (0 ≤ i.Output.Quality ∧ i.Output.Quality ≤ 100) →
      (∀ q, Call.setQuality q ∈ cs → 0 ≤ q ∧ q ≤ 100) →
      0 ≤ (runCalls cv i cs).Output.Quality ∧ (runCalls cv i cs).Output.Quality ≤ 100 := by
  induction cs with
  | nil => intro i hi _; exact hi
  | cons c cs ih =>
    intro i hi hq
    have step : 0 ≤ (c.apply cv i).Output.Quality ∧ (c.apply cv i).Output.Quality ≤ 100 := by
      rw [Call.apply_Quality]
      cases c <;> first
        | exact hi
        | exact hq _ (List.mem_cons_self _ _)
    exact ih (c.apply cv i) step (fun q hmem => hq q (List.mem_cons_of_mem _ hmem))

/-- C9, as stated, fails: `SetQuality` stores its argument unchecked, so after
`SetQuality(101)` or `SetQuality(-3)` on the test image `Output.Quality` is 101
or -3, neither 0 nor in [1, 100]. -/
theorem quality_out_of_range :
    NewImage testProbe "./test/source.png" = .ok testImage ∧
      (runCalls cvAmd64 testImage [.setQuality 101]).Output.Quality = 101 ∧
      ¬ ((runCalls cvAmd64 testImage [.setQuality 101]).Output.Quality = 0 ∨
          (1 ≤ (runCalls cvAmd64 testImage [.setQuality 101]).Output.Quality ∧
            (runCalls cvAmd64 testImage [.setQuality 101]).Output.Quality ≤ 100)) ∧
      (runCalls cvAmd64 testImage [.setQuality (-3)]).Output.Quality = -3 := by
  refine ⟨rfl, ?_, ?_, ?_⟩ <;> decide

/-- C9, amended: `SetQuality(q)` stores `q` as it is, and in every state reached
from `NewImage` by builder calls whose `SetQuality` arguments all lie in
[0, 100], `Output.Quality` is either 0 (unset) or lies in [1, 100]. -/
theorem quality_in_range (cv : F64 → Int) (probe : Probe) (path : String) (i0 : Image)
    (cs : List Call) (h0 : NewImage probe path = .ok i0)
    (hq : ∀ q, Call.setQuality q ∈ cs → 0 ≤ q ∧ q ≤ 100) :
    (∀ (i : Image) (q : Int), (SetQuality i q).Output.Quality = q) ∧
      ((runCalls cv i0 cs).Output.Quality = 0 ∨
        (1 ≤ (runCalls cv i0 cs).Output.Quality ∧ (runCalls cv i0 cs).Output.Quality ≤ 100)) := by
  refine ⟨fun _ _ => rfl, ?_⟩
  have h := runCalls_Quality cv cs i0 (by rw [NewImage_Quality h0]; decide) hq
  omega

theorem quality_in_range_witness :
    (∀ (i : Image) (q : Int), (SetQuality i q).Output.Quality = q) ∧
      ((runCalls cvAmd64 testImage [.setQuality 80, .resize 300 300 [], .flip]).Output.Quality = 0 ∨
        (1 ≤ (runCalls cvAmd64 testImage
              [.setQuality 80, .resize 300 300 [], .flip]).Output.Quality ∧
          (runCalls cvAmd64 testImage
              [.setQuality 80, .resize 300 300 [], .flip]).Output.Quality ≤ 100)) :=
  quality_in_range cvAmd64 testProbe "./test/source.png" testImage
    [.setQuality 80, .resize 300 300 [], .flip] NewImage_testImage
    (by
      intro q hmem
      simp at hmem
      subst hmem
      decide)

/-! ## `WriteImage` -/

theorem filepathExt_empty : filepathExt "" = "" := by decide

theorem suffixToFormat_empty : suffixToFormat "" = ImageFormatUnknown := by decide

/-- With the format unset and a path whose suffix is not in the table,
`WriteImage` stops at the format check. -/
theorem WriteImage_no_format (cv : F64 → Int) (env : Env) (i : Image) (path : String)
    (hf : i.Output.Format = ImageFormatUnknown)
    (hs : suffixToFormat (filepathExt path) = ImageFormatUnknown) :
    (WriteImage cv env i path).err = some "no image format" ∧
      (WriteImage cv env i path).events = [] ∧
      (WriteImage cv env i path).image.Output.Args = i.Output.Args ∧
      (WriteImage cv env i path).image.Output.Filters = i.Output.Filters ∧
      (WriteImage cv env i path).image.Output.Path = (if path = "" then i.Path else path) ∧
      (WriteImage cv env i path).panicked = false := by
  unfold WriteImage
  by_cases hp : path = ""
  · subst hp
    simp [hf, hs]
  · simp [hf, hs, hp]

/-- C10: if `Output.Format` is unset and the suffix of the path argument is not in
the extension table, `WriteImage` returns the error "no image format", leaves the
argument list and the filter list of the Output Specification as they were (no
quality or loop argument is appended), and performs no external action: no
temporary file is created, neither the engine nor any helper is run. -/
theorem no_format_is_terminal (cv : F64 → Int) (env : Env) (i : Image) (path : String)
    (hf : i.Output.Format = ImageFormatUnknown)
    (hs : suffixToFormat (filepathExt path) = ImageFormatUnknown) :
    (WriteImage cv env i path).err = some "no image format" ∧
      (WriteImage cv env i path).image.Output.Args = i.Output.Args ∧
      (WriteImage cv env i path).image.Output.Filters = i.Output.Filters ∧
      (WriteImage cv env i path).events = [] ∧
      (WriteImage cv env i path).panicked = false := by
  obtain ⟨h1, h2, h3, h4, -, h6⟩ := WriteImage_no_format cv env i path hf hs
  exact ⟨h1, h3, h4, h2, h6⟩

theorem no_format_is_terminal_witness :
    (WriteImage cvAmd64 envOk testImage "./test/output/resize.tiff").err
        = some "no image format" ∧
      (WriteImage cvAmd64 envOk testImage "./test/output/resize.tiff").image.Output.Args
        = testImage.Output.Args ∧
      (WriteImage cvAmd64 envOk testImage "./test/output/resize.tiff").image.Output.Filters
        = testImage.Output.Filters ∧
      (WriteImage cvAmd64 envOk testImage "./test/output/resize.tiff").events = [] ∧
      (WriteImage cvAmd64 envOk testImage "./test/output/resize.tiff").panicked = false :=
  no_format_is_terminal cvAmd64 envOk testImage "./test/output/resize.tiff" (by decide)
    (by decide)

/-- C4 at the failing inputs: with the format not set explicitly, `WriteImage("")`
returns the error "no image format" and performs no external action, whatever
the suffix of the source path: the format is looked up from the suffix of the
empty `path` argument, not from the destination `Output.Path`, which has been
set to the source path. -/
theorem write_empty_path_fails (cv : F64 → Int) (env : Env) (i : Image)
    (hf : i.Output.Format = ImageFormatUnknown) :
    (WriteImage cv env i "").err = some "no image format" ∧
      (WriteImage cv env i "").events = [] ∧
      (WriteImage cv env i "").image.Output.Path = i.Path ∧
      (WriteImage cv env i "").panicked = false := by
  obtain ⟨h1, h2, -, -, h5, h6⟩ :=
    WriteImage_no_format cv env i "" hf (by rw [filepathExt_empty]; exact suffixToFormat_empty)
  exact ⟨h1, h2, by simpa using h5, h6⟩

theorem write_empty_path_fails_witness :
    suffixToFormat (filepathExt testImage.Path) = ImageFormatPNG ∧
      (WriteImage cvAmd64 envOk testImage "").err = some "no image format" ∧
      (WriteImage cvAmd64 envOk testImage "").events = [] ∧
      (WriteImage cvAmd64 envOk testImage "").image.Output.Path = testImage.Path ∧
      (WriteImage cvAmd64 envOk testImage "").panicked = false :=
  ⟨by decide, write_empty_path_fails cvAmd64 envOk testImage (by decide)⟩

/-- C3 at a failing input: `WriteImage("./test/source.png")` on the test image,
whose source path is "./test/source.png", in a world where every external
action succeeds.  The temporary file is created and closed, but the engine is
run with the source path as its output, and the untouched temporary file is
then renamed onto it. -/
theorem write_same_path_engine_target :
    (WriteImage cvAmd64 envOk testImage "./test/source.png").panicked = false ∧
      (WriteImage cvAmd64 envOk testImage "./test/source.png").err = none ∧
      (WriteImage cvAmd64 envOk testImage "./test/source.png").events =
        [ .createTemp "*.png",
          .closeFile "/tmp/1234.png",
          .engine
            { input := "./test/source.png", filters := [⟨"format", ["rgba"]⟩], palette := false,
              output := "./test/source.png",
              args := [[("map_metadata", .str "-1")], [("loop", .int 0)]],
              overwrite := true, silent := true },
          .rename "/tmp/1234.png" "./test/source.png" ] := by
  decide!

/-! ## Rounding error -/

theorem rne_error (t : ℚ) : (rne t : ℚ) - t ≤ 1 / 2 ∧ t - (rne t : ℚ) ≤ 1 / 2 := by
  have h1 := Int.floor_le t
  have h2 := Int.lt_floor_add_one t
  unfold rne
  simp only
  split_ifs <;> push_cast <;> constructor <;> linarith

/-- The relative error of rounding to a double is at most `2^-53`. -/
theorem rnd_error {x : ℚ} (hx : 0 < x) :
    x - x / 2 ^ 53 ≤ rnd x ∧ rnd x ≤ x + x / 2 ^ 53 := by
  have two0 : (2 : ℚ) ≠ 0 := by norm_num
  have h1 := (expo_spec x hx).1
  have hu : (0 : ℚ) < (2 : ℚ) ^ (expo x - 52) := by positivity
  have hrnd : rnd x = (rne (x / (2 : ℚ) ^ (expo x - 52)) : ℚ) * (2 : ℚ) ^ (expo x - 52) := by
    unfold rnd; simp [not_le.mpr hx]
  have eu : (2 : ℚ) ^ (expo x - 52) = (2 : ℚ) ^ expo x / 2 ^ 52 := by
    rw [zpow_sub₀ two0]; norm_num
  obtain ⟨e1, e2⟩ := rne_error (x / (2 : ℚ) ^ (expo x - 52))
  have hx' : x / (2 : ℚ) ^ (expo x - 52) * (2 : ℚ) ^ (expo x - 52) = x := by
    field_simp
  have b1 : rnd x - x ≤ (2 : ℚ) ^ (expo x - 52) / 2 := by
    have := mul_le_mul_of_nonneg_right e1 (le_of_lt hu)
    rw [sub_mul, hx', ← hrnd] at this
    linarith
  have b2 : x - rnd x ≤ (2 : ℚ) ^ (expo x - 52) / 2 := by
    have := mul_le_mul_of_nonneg_right e2 (le_of_lt hu)
    rw [sub_mul, hx', ← hrnd] at this
    linarith
  have b3 : (2 : ℚ) ^ (expo x - 52) / 2 ≤ x / 2 ^ 53 := by
    rw [eu]
    have : (2 : ℚ) ^ expo x / 2 ^ 52 / 2 = (2 : ℚ) ^ expo x / 2 ^ 53 := by
      rw [div_div]; norm_num
    rw [this]
    exact div_le_div_of_nonneg_right h1 (by positivity)
  constructor <;> linarith

theorem lt_add_one_of_le_sq {X y U : ℚ} (hX : 0 ≤ X) (hU0 : 0 ≤ U) (hU1 : U ≤ 1)
    (h : y ≤ X * (1 + U) * (1 + U)) (h3 : 3 * U * X < 1) : y < X + 1 := by
  have k := mul_nonneg (mul_nonneg hX hU0) (sub_nonneg.mpr hU1)
  nlinarith

theorem sub_one_lt_of_sq_le {X y U : ℚ} (hX : 0 ≤ X) (hU0 : 0 ≤ U)
    (h : X * (1 - U) * (1 - U) ≤ y) (h3 : 3 * U * X < 1) : X - 1 < y := by
  have k := mul_nonneg (mul_nonneg hX hU0) hU0
  have k2 := mul_nonneg hX hU0
  nlinarith

/-- The integer part of the double `a * (b / c)` is the exact quotient `a * b / c`
truncated, or one less. -/
theorem floor_mul_rnd (a b c : ℤ) (ha : 0 < a) (hb : 0 < b) (hc : 0 < c)
    (hab : a * b < 2 ^ 51) :
    ⌊rnd ((a : ℚ) * rnd ((b : ℚ) / c))⌋ * c ≤ a * b ∧
      a * b - c ≤ ⌊rnd ((a : ℚ) * rnd ((b : ℚ) / c))⌋ * c := by
  have haq : (0 : ℚ) < (a : ℚ) := by exact_mod_cast ha
  have hbq : (0 : ℚ) < (b : ℚ) := by exact_mod_cast hb
  have hcq : (0 : ℚ) < (c : ℚ) := by exact_mod_cast hc
  have habq : (a : ℚ) * b < 2 ^ 51 := by exact_mod_cast hab
  have hq : (0 : ℚ) < (b : ℚ) / c := div_pos hbq hcq
  obtain ⟨r1, r2⟩ := rnd_error hq
  have hr : 0 < rnd ((b : ℚ) / c) := rnd_pos hq
  obtain ⟨y1, y2⟩ := rnd_error (mul_pos haq hr)
  set r := rnd ((b : ℚ) / c) with hrdef
  set y := rnd ((a : ℚ) * r) with hydef
  have hqc : (b : ℚ) / c * c = b := by field_simp
  have hU0 : (0 : ℚ) ≤ 1 / 2 ^ 53 := by positivity
  have hU1 : (1 : ℚ) / 2 ^ 53 ≤ 1 := by norm_num
  have h3 : 3 * ((1 : ℚ) / 2 ^ 53) * ((a : ℚ) * b) < 1 := by
    have : (3 : ℚ) * (1 / 2 ^ 53) * ((a : ℚ) * b) = 3 / 2 ^ 53 * ((a : ℚ) * b) := by ring
    rw [this]
    have : (3 : ℚ) / 2 ^ 53 * ((a : ℚ) * b) < 3 / 2 ^ 53 * 2 ^ 51 :=
      mul_lt_mul_of_pos_left habq (by positivity)
    have e : (3 : ℚ) / 2 ^ 53 * 2 ^ 51 = 3 / 4 := by norm_num
    linarith
  -- bounds on `y * c`
  have up : y * c ≤ (a : ℚ) * b * (1 + 1 / 2 ^ 53) * (1 + 1 / 2 ^ 53) := by
    have s1 : y ≤ (a : ℚ) * r * (1 + 1 / 2 ^ 53) := by
      have : (a : ℚ) * r + (a : ℚ) * r / 2 ^ 53 = (a : ℚ) * r * (1 + 1 / 2 ^ 53) := by ring
      linarith
    have s2 : r ≤ (b : ℚ) / c * (1 + 1 / 2 ^ 53) := by
      have : (b : ℚ) / c + (b : ℚ) / c / 2 ^ 53 = (b : ℚ) / c * (1 + 1 / 2 ^ 53) := by ring
      linarith
    have s3 : (a : ℚ) * r * (1 + 1 / 2 ^ 53)
        ≤ (a : ℚ) * ((b : ℚ) / c * (1 + 1 / 2 ^ 53)) * (1 + 1 / 2 ^ 53) :=
      mul_le_mul_of_nonneg_right (mul_le_mul_of_nonneg_left s2 (le_of_lt haq)) (by positivity)
    have s4 : y * c ≤ (a : ℚ) * ((b : ℚ) / c * (1 + 1 / 2 ^ 53)) * (1 + 1 / 2 ^ 53) * c :=
      mul_le_mul_of_nonneg_right (le_trans s1 s3) (le_of_lt hcq)
    have s5 : (a : ℚ) * ((b : ℚ) / c * (1 + 1 / 2 ^ 53)) * (1 + 1 / 2 ^ 53) * c
        = (a : ℚ) * ((b : ℚ) / c * c) * (1 + 1 / 2 ^ 53) * (1 + 1 / 2 ^ 53) := by ring
    rw [s5, hqc] at s4
    linarith
  have lo : (a : ℚ) * b * (1 - 1 / 2 ^ 53) * (1 - 1 / 2 ^ 53) ≤ y * c := by
    have s1 : (a : ℚ) * r * (1 - 1 / 2 ^ 53) ≤ y := by
      have : (a : ℚ) * r - (a : ℚ) * r / 2 ^ 53 = (a : ℚ) * r * (1 - 1 / 2 ^ 53) := by ring
      linarith
    have s2 : (b : ℚ) / c * (1 - 1 / 2 ^ 53) ≤ r := by
      have : (b : ℚ) / c - (b : ℚ) / c / 2 ^ 53 = (b : ℚ) / c * (1 - 1 / 2 ^ 53) := by ring
      linarith
    have p : (0 : ℚ) ≤ 1 - 1 / 2 ^ 53 := by norm_num
    have s3 : (a : ℚ) * ((b : ℚ) / c * (1 - 1 / 2 ^ 53)) * (1 - 1 / 2 ^ 53)
        ≤ (a : ℚ) * r * (1 - 1 / 2 ^ 53) :=
      mul_le_mul_of_nonneg_right (mul_le_mul_of_nonneg_left s2 (le_of_lt haq)) p
    have s4 : (a : ℚ) * ((b : ℚ) / c * (1 - 1 / 2 ^ 53)) * (1 - 1 / 2 ^ 53) * c ≤ y * c :=
      mul_le_mul_of_nonneg_right (le_trans s3 s1) (le_of_lt hcq)
    have s5 : (a : ℚ) * ((b : ℚ) / c * (1 - 1 / 2 ^ 53)) * (1 - 1 / 2 ^ 53) * c
        = (a : ℚ) * ((b : ℚ) / c * c) * (1 - 1 / 2 ^ 53) * (1 - 1 / 2 ^ 53) := by ring
    rw [s5, hqc] at s4
    linarith
  have X0 : (0 : ℚ) ≤ (a : ℚ) * b := le_of_lt (mul_pos haq hbq)
  have up' := lt_add_one_of_le_sq X0 hU0 hU1 up h3
  have lo' := sub_one_lt_of_sq_le X0 hU0 lo h3
  have f1 : (⌊y⌋ : ℚ) ≤ y := Int.floor_le y
  have f2 : y < (⌊y⌋ : ℚ) + 1 := Int.lt_floor_add_one y
  constructor
  · have : (⌊y⌋ : ℚ) * c < (a : ℚ) * b + 1 :=
      lt_of_le_of_lt (mul_le_mul_of_nonneg_right f1 (le_of_lt hcq)) up'
    have : ⌊y⌋ * c < a * b + 1 := by exact_mod_cast this
    omega
  · have : (a : ℚ) * b - 1 < ((⌊y⌋ : ℚ) + 1) * c :=
      lt_trans lo' (mul_lt_mul_of_pos_right f2 hcq)
    have : a * b - 1 < (⌊y⌋ + 1) * c := by exact_mod_cast this
    have e : (⌊y⌋ + 1) * c = ⌊y⌋ * c + c := by ring
    omega

theorem lt_add_one_of_quot {K X U : ℚ} (hU : U ≤ 1 / 3)
    (h : K * (1 - U) ≤ X * (1 + U)) (h3 : 3 * U * X < 1) : K < X + 1 := by
  by_contra hc
  have hk : X + 1 ≤ K := not_lt.mp hc
  have p : 0 ≤ (K - (X + 1)) * (1 - U) := mul_nonneg (by linarith) (by linarith)
  nlinarith

theorem sub_one_lt_of_quot {K X U : ℚ} (hX : 0 ≤ X) (hU0 : 0 ≤ U)
    (h : X * (1 - U) ≤ K * (1 + U)) (h3 : 3 * U * X < 1) : X - 1 < K := by
  by_contra hc
  have hk : K ≤ X - 1 := not_lt.mp hc
  have p : 0 ≤ (X - 1 - K) * (1 + U) := mul_nonneg (by linarith) (by linarith)
  have q := mul_nonneg hX hU0
  nlinarith

/-- The integer part of the double `a / (b / c)` is the exact quotient `a * c / b`
truncated, or one less. -/
theorem floor_div_rnd (a b c : ℤ) (ha : 0 < a) (hb : 0 < b) (hc : 0 < c)
    (hac : a * c < 2 ^ 51) :
    ⌊rnd ((a : ℚ) / rnd ((b : ℚ) / c))⌋ * b ≤ a * c ∧
      a * c - b ≤ ⌊rnd ((a : ℚ) / rnd ((b : ℚ) / c))⌋ * b := by
  have haq : (0 : ℚ) < (a : ℚ) := by exact_mod_cast ha
  have hbq : (0 : ℚ) < (b : ℚ) := by exact_mod_cast hb
  have hcq : (0 : ℚ) < (c : ℚ) := by exact_mod_cast hc
  have hacq : (a : ℚ) * c < 2 ^ 51 := by exact_mod_cast hac
  have hq : (0 : ℚ) < (b : ℚ) / c := div_pos hbq hcq
  obtain ⟨r1, r2⟩ := rnd_error hq
  have hr : 0 < rnd ((b : ℚ) / c) := rnd_pos hq
  obtain ⟨y1, y2⟩ := rnd_error (div_pos haq hr)
  set r := rnd ((b : ℚ) / c) with hrdef
  set z := (a : ℚ) / r with hzdef
  set y := rnd z with hydef
  have hz : 0 < z := div_pos haq hr
  have hzr : z * r = a := by rw [hzdef]; field_simp
  have hqc : (b : ℚ) / c * c = b := by field_simp
  have hU0 : (0 : ℚ) ≤ 1 / 2 ^ 53 := by positivity
  have hU : (1 : ℚ) / 2 ^ 53 ≤ 1 / 3 := by norm_num
  have pU : (0 : ℚ) ≤ 1 - 1 / 2 ^ 53 := by norm_num
  have pU' : (0 : ℚ) ≤ 1 + 1 / 2 ^ 53 := by positivity
  have h3 : 3 * ((1 : ℚ) / 2 ^ 53) * ((a : ℚ) * c) < 1 := by
    have : (3 : ℚ) * (1 / 2 ^ 53) * ((a : ℚ) * c) = 3 / 2 ^ 53 * ((a : ℚ) * c) := by ring
    rw [this]
    have : (3 : ℚ) / 2 ^ 53 * ((a : ℚ) * c) < 3 / 2 ^ 53 * 2 ^ 51 :=
      mul_lt_mul_of_pos_left hacq (by positivity)
    have e : (3 : ℚ) / 2 ^ 53 * 2 ^ 51 = 3 / 4 := by norm_num
    linarith
  -- `z * b` against `a * c`
  have zb1 : z * b * (1 - 1 / 2 ^ 53) ≤ (a : ℚ) * c := by
    have s2 : (b : ℚ) / c * (1 - 1 / 2 ^ 53) ≤ r := by
      have : (b : ℚ) / c - (b : ℚ) / c / 2 ^ 53 = (b : ℚ) / c * (1 - 1 / 2 ^ 53) := by ring
      linarith
    have s3 : z * ((b : ℚ) / c * (1 - 1 / 2 ^ 53)) ≤ z * r :=
      mul_le_mul_of_nonneg_left s2 (le_of_lt hz)
    rw [hzr] at s3
    have s4 := mul_le_mul_of_nonneg_right s3 (le_of_lt hcq)
    have s5 : z * ((b : ℚ) / c * (1 - 1 / 2 ^ 53)) * c
        = z * ((b : ℚ) / c * c) * (1 - 1 / 2 ^ 53) := by ring
    rw [s5, hqc] at s4
    exact s4
  have zb2 : (a : ℚ) * c ≤ z * b * (1 + 1 / 2 ^ 53) := by
    have s2 : r ≤ (b : ℚ) / c * (1 + 1 / 2 ^ 53) := by
      have : (b : ℚ) / c + (b : ℚ) / c / 2 ^ 53 = (b : ℚ) / c * (1 + 1 / 2 ^ 53) := by ring
      linarith
    have s3 : z * r ≤ z * ((b : ℚ) / c * (1 + 1 / 2 ^ 53)) :=
      mul_le_mul_of_nonneg_left s2 (le_of_lt hz)
    rw [hzr] at s3
    have s4 := mul_le_mul_of_nonneg_right s3 (le_of_lt hcq)
    have s5 : z * ((b : ℚ) / c * (1 + 1 / 2 ^ 53)) * c
        = z * ((b : ℚ) / c * c) * (1 + 1 / 2 ^ 53) := by ring
    rw [s5, hqc] at s4
    exact s4
  have up : y * b * (1 - 1 / 2 ^ 53) ≤ (a : ℚ) * c * (1 + 1 / 2 ^ 53) := by
    have s1 : y ≤ z * (1 + 1 / 2 ^ 53) := by
      have : z + z / 2 ^ 53 = z * (1 + 1 / 2 ^ 53) := by ring
      linarith
    have s2 : y * (b * (1 - 1 / 2 ^ 53)) ≤ z * (1 + 1 / 2 ^ 53) * (b * (1 - 1 / 2 ^ 53)) :=
      mul_le_mul_of_nonneg_right s1 (mul_nonneg (le_of_lt hbq) pU)
    have s3 : z * (1 + 1 / 2 ^ 53) * (b * (1 - 1 / 2 ^ 53))
        = z * b * (1 - 1 / 2 ^ 53) * (1 + 1 / 2 ^ 53) := by ring
    have s4 := mul_le_mul_of_nonneg_right zb1 pU'
    have s5 : y * b * (1 - 1 / 2 ^ 53) = y * (b * (1 - 1 / 2 ^ 53)) := by ring
    linarith
  have lo : (a : ℚ) * c * (1 - 1 / 2 ^ 53) ≤ y * b * (1 + 1 / 2 ^ 53) := by
    have s1 : z * (1 - 1 / 2 ^ 53) ≤ y := by
      have : z - z / 2 ^ 53 = z * (1 - 1 / 2 ^ 53) := by ring
      linarith
    have s2 : z * (1 - 1 / 2 ^ 53) * (b * (1 + 1 / 2 ^ 53)) ≤ y * (b * (1 + 1 / 2 ^ 53)) :=
      mul_le_mul_of_nonneg_right s1 (mul_nonneg (le_of_lt hbq) pU')
    have s3 : z * (1 - 1 / 2 ^ 53) * (b * (1 + 1 / 2 ^ 53))
        = z * b * (1 + 1 / 2 ^ 53) * (1 - 1 / 2 ^ 53) := by ring
    have s4 := mul_le_mul_of_nonneg_right zb2 pU
    have s5 : y * b * (1 + 1 / 2 ^ 53) = y * (b * (1 + 1 / 2 ^ 53)) := by ring
    linarith
  have X0 : (0 : ℚ) ≤ (a : ℚ) * c := le_of_lt (mul_pos haq hcq)
  have up' := lt_add_one_of_quot hU up h3
  have lo' := sub_one_lt_of_quot X0 hU0 lo h3
  have f1 : (⌊y⌋ : ℚ) ≤ y := Int.floor_le y
  have f2 : y < (⌊y⌋ : ℚ) + 1 := Int.lt_floor_add_one y
  constructor
  · have : (⌊y⌋ : ℚ) * b < (a : ℚ) * c + 1 :=
      lt_of_le_of_lt (mul_le_mul_of_nonneg_right f1 (le_of_lt hbq)) up'
    have : ⌊y⌋ * b < a * c + 1 := by exact_mod_cast this
    omega
  · have : (a : ℚ) * c - 1 < ((⌊y⌋ : ℚ) + 1) * b :=
      lt_trans lo' (mul_lt_mul_of_pos_right f2 hbq)
    have : a * c - 1 < (⌊y⌋ + 1) * b := by exact_mod_cast this
    have e : (⌊y⌋ + 1) * b = ⌊y⌋ * b + b := by ring
    omega

/-! ## `qualityFactor` -/

theorem ofInt_eq (n : Int) :
    F64.ofInt n = .fin (decide (n < 0)) (rnd ((|n| : ℤ) : ℚ)) := by
  unfold F64.ofInt
  rw [← Int.cast_natCast, Int.natCast_natAbs]

theorem toInt_fin (cv : F64 → Int) (s : Bool) {m : ℚ} (h0 : 0 ≤ m) (h : m < 2 ^ 63) :
    F64.toInt cv (.fin s m) = if s then -⌊m⌋ else ⌊m⌋ := by
  have f0 : 0 ≤ ⌊m⌋ := Int.floor_nonneg.mpr h0
  have f1 : ⌊m⌋ < 2 ^ 63 := by
    have : (⌊m⌋ : ℚ) < ((2 ^ 63 : ℤ) : ℚ) := lt_of_le_of_lt (Int.floor_le m) (by push_cast; exact h)
    exact_mod_cast this
  unfold F64.toInt
  cases s
  · simp only [Bool.false_eq_true, if_false]
    rw [if_pos ⟨by omega, f1⟩]
  · simp only [if_true]
    rw [if_pos ⟨by omega, by omega⟩]

/-- The quality fraction `float64(quality) / 100` for a quality in [0, 100]. -/
theorem quality_fraction {q : Int} (h0 : 0 ≤ q) (h1 : q ≤ 100) :
    F64.div (F64.ofInt q) (F64.ofInt 100) = .fin false (rnd ((q : ℚ) / 100)) ∧
      0 ≤ rnd ((q : ℚ) / 100) ∧ rnd ((q : ℚ) / 100) ≤ 1 := by
  refine ⟨?_, rnd_nonneg _, ?_⟩
  · rw [ofInt_of_nonneg_small h0 (by omega), ofInt_of_nonneg_small (by decide) (by decide),
      div_fin_pos _ (by norm_num)]
    norm_num
  · have hq : (q : ℚ) ≤ 100 := by exact_mod_cast h1
    have : (q : ℚ) / 100 ≤ ((1 : ℤ) : ℚ) := by
      rw [div_le_iff₀ (by norm_num)]; push_cast; linarith
    exact_mod_cast rnd_le_int (by decide) (by decide) this

/-- The scaled span `int(fraction * float64(d))` of `qualityFactor`, for a span
`d` of magnitude at most `2^62`: the sign of `d` and the integer part of the
rounded product. -/
theorem quality_span (cv : F64 → Int) {q d : Int} (h0 : 0 ≤ q) (h1 : q ≤ 100)
    (hd : |d| ≤ 2 ^ 62) :
    F64.toInt cv (F64.mul (F64.div (F64.ofInt q) (F64.ofInt 100)) (F64.ofInt d)) =
        (if d < 0 then -⌊rnd (rnd ((q : ℚ) / 100) * rnd ((|d| : ℤ) : ℚ))⌋
          else ⌊rnd (rnd ((q : ℚ) / 100) * rnd ((|d| : ℤ) : ℚ))⌋) ∧
      0 ≤ ⌊rnd (rnd ((q : ℚ) / 100) * rnd ((|d| : ℤ) : ℚ))⌋ ∧
      ⌊rnd (rnd ((q : ℚ) / 100) * rnd ((|d| : ℤ) : ℚ))⌋ ≤ 2 ^ 62 + 2 ^ 11 := by
  obtain ⟨e, f0, f1⟩ := quality_fraction h0 h1
  have a0 : (0 : ℚ) ≤ ((|d| : ℤ) : ℚ) := by exact_mod_cast abs_nonneg d
  have a1 : ((|d| : ℤ) : ℚ) ≤ 2 ^ 62 := by exact_mod_cast hd
  have r0 : 0 ≤ rnd ((|d| : ℤ) : ℚ) := rnd_nonneg _
  -- the rounded span is below 2^62 + 2^10
  have r1 : rnd ((|d| : ℤ) : ℚ) ≤ 2 ^ 62 + 2 ^ 9 := by
    rcases eq_or_lt_of_le a0 with hz | hp
    · rw [← hz, rnd_of_nonpos (le_refl _)]; positivity
    · have := (rnd_error hp).2
      have : ((|d| : ℤ) : ℚ) / 2 ^ 53 ≤ 2 ^ 62 / 2 ^ 53 :=
        div_le_div_of_nonneg_right a1 (by positivity)
      have e9 : (2 : ℚ) ^ 62 / 2 ^ 53 = 2 ^ 9 := by norm_num
      linarith
  have p0 : 0 ≤ rnd ((q : ℚ) / 100) * rnd ((|d| : ℤ) : ℚ) := mul_nonneg f0 r0
  have p1 : rnd ((q : ℚ) / 100) * rnd ((|d| : ℤ) : ℚ) ≤ 2 ^ 62 + 2 ^ 9 := by
    have := mul_le_mul_of_nonneg_right f1 r0
    linarith
  have m1 : rnd (rnd ((q : ℚ) / 100) * rnd ((|d| : ℤ) : ℚ)) ≤ 2 ^ 62 + 2 ^ 11 := by
    rcases eq_or_lt_of_le p0 with hz | hp
    · rw [← hz, rnd_of_nonpos (le_refl _)]; positivity
    · have := (rnd_error hp).2
      have : rnd ((q : ℚ) / 100) * rnd ((|d| : ℤ) : ℚ) / 2 ^ 53 ≤ (2 ^ 62 + 2 ^ 9) / 2 ^ 53 :=
        div_le_div_of_nonneg_right p1 (by positivity)
      have e9 : ((2 : ℚ) ^ 62 + 2 ^ 9) / 2 ^ 53 ≤ 2 ^ 10 := by norm_num
      have e11 : (2 : ℚ) ^ 9 + 2 ^ 10 ≤ 2 ^ 11 := by norm_num
      linarith
  have m63 : rnd (rnd ((q : ℚ) / 100) * rnd ((|d| : ℤ) : ℚ)) < 2 ^ 63 := by
    have : (2 : ℚ) ^ 62 + 2 ^ 11 < 2 ^ 63 := by norm_num
    linarith
  refine ⟨?_, Int.floor_nonneg.mpr (rnd_nonneg _), ?_⟩
  · rw [e, ofInt_eq d]
    simp only [F64.mul, Bool.false_bne]
    rw [toInt_fin cv _ (rnd_nonneg _) m63]
    by_cases hneg : d < 0 <;> simp [hneg]
  · have : (⌊rnd (rnd ((q : ℚ) / 100) * rnd ((|d| : ℤ) : ℚ))⌋ : ℚ) ≤ ((2 ^ 62 + 2 ^ 11 : ℤ) : ℚ) := by
      have e : ((2 ^ 62 + 2 ^ 11 : ℤ) : ℚ) = 2 ^ 62 + 2 ^ 11 := by norm_num
      rw [e]
      exact le_trans (Int.floor_le _) m1
    exact Int.cast_le.mp this

/-- The integer part of the scaled span, as a function of the quality and the
span. -/
theorem qualityFactor_eq (cv : F64 → Int) (min max q : Int) (h0 : 0 ≤ q) (h1 : q ≤ 100)
    (hmin : -2 ^ 61 ≤ min ∧ min ≤ 2 ^ 61) (hmax : -2 ^ 61 ≤ max ∧ max ≤ 2 ^ 61) :
    qualityFactor cv min max q true =
        max + (if min - max < 0
          then -⌊rnd (rnd ((q : ℚ) / 100) * rnd ((|min - max| : ℤ) : ℚ))⌋
          else ⌊rnd (rnd ((q : ℚ) / 100) * rnd ((|min - max| : ℤ) : ℚ))⌋) ∧
      qualityFactor cv min max q false =
        min + (if max - min < 0
          then -⌊rnd (rnd ((q : ℚ) / 100) * rnd ((|max - min| : ℤ) : ℚ))⌋
          else ⌊rnd (rnd ((q : ℚ) / 100) * rnd ((|max - min| : ℤ) : ℚ))⌋) := by
  have d1 : |min - max| ≤ 2 ^ 62 := abs_le.mpr ⟨by omega, by omega⟩
  have d2 : |max - min| ≤ 2 ^ 62 := abs_le.mpr ⟨by omega, by omega⟩
  obtain ⟨e1, k1, k1'⟩ := quality_span cv h0 h1 d1
  obtain ⟨e2, k2, k2'⟩ := quality_span cv h0 h1 d2
  unfold qualityFactor sub64 add64
  rw [wrap64_of_range (by omega : -2 ^ 63 ≤ min - max) (by omega),
    wrap64_of_range (by omega : -2 ^ 63 ≤ max - min) (by omega)]
  simp only [if_true, Bool.false_eq_true, if_false]
  rw [e1, e2]
  constructor
  · split_ifs with hs
    · exact wrap64_of_range (by omega) (by omega)
    · exact wrap64_of_range (by omega) (by omega)
  · split_ifs with hs
    · exact wrap64_of_range (by omega) (by omega)
    · exact wrap64_of_range (by omega) (by omega)

theorem quality_span_mono {q1 q2 : Int} (h12 : q1 ≤ q2) (d : ℚ) (hd : 0 ≤ d) :
    ⌊rnd (rnd ((q1 : ℚ) / 100) * d)⌋ ≤ ⌊rnd (rnd ((q2 : ℚ) / 100) * d)⌋ := by
  have hq : (q1 : ℚ) / 100 ≤ (q2 : ℚ) / 100 := by
    have : (q1 : ℚ) ≤ (q2 : ℚ) := by exact_mod_cast h12
    exact div_le_div_of_nonneg_right this (by norm_num)
  exact Int.floor_mono (rnd_mono (mul_le_mul_of_nonneg_right (rnd_mono hq) hd))

theorem quality_span_zero (q : ℚ) : ⌊rnd (rnd q * rnd ((|(0 : ℤ)| : ℤ) : ℚ))⌋ = 0 := by
  simp [rnd_of_nonpos (le_refl (0 : ℚ))]

/-- C13, as stated, fails where `max - min` leaves the range of `int`: with
`min = -(2^62 + 2^61)` and `max = 2^62 + 2^61` the difference wraps to `-2^62`,
and quality 50 gives `-2^63`, below the value `min` of quality 0. -/
theorem quality_factor_not_monotone :
    (-6917529027641081856 : Int) ≤ 6917529027641081856 ∧
      qualityFactor cvAmd64 (-6917529027641081856) 6917529027641081856 0 false
        = -6917529027641081856 ∧
      qualityFactor cvAmd64 (-6917529027641081856) 6917529027641081856 50 false
        = -9223372036854775808 ∧
      ¬ (qualityFactor cvAmd64 (-6917529027641081856) 6917529027641081856 0 false
          ≤ qualityFactor cvAmd64 (-6917529027641081856) 6917529027641081856 50 false) := by
  decide!

/-- C13, amended: for all integers `min ≤ max` of magnitude at most `2^61` and all
`0 ≤ q1 ≤ q2 ≤ 100`, `qualityFactor(min, max, q1, false) ≤
qualityFactor(min, max, q2, false)` and `qualityFactor(min, max, q1, true) ≥
qualityFactor(min, max, q2, true)`. -/
theorem quality_factor_monotone (cv : F64 → Int) (min max q1 q2 : Int)
    (hmin : -2 ^ 61 ≤ min) (hmm : min ≤ max) (hmax : max ≤ 2 ^ 61)
    (h0 : 0 ≤ q1) (h12 : q1 ≤ q2) (h2 : q2 ≤ 100) :
    qualityFactor cv min max q1 false ≤ qualityFactor cv min max q2 false ∧
      qualityFactor cv min max q2 true ≤ qualityFactor cv min max q1 true := by
  obtain ⟨t1, f1⟩ := qualityFactor_eq cv min max q1 h0 (by omega) ⟨hmin, by omega⟩
    ⟨by omega, hmax⟩
  obtain ⟨t2, f2⟩ := qualityFactor_eq cv min max q2 (by omega) h2 ⟨hmin, by omega⟩
    ⟨by omega, hmax⟩
  rw [t1, t2, f1, f2]
  have mono1 := quality_span_mono h12 (rnd ((|max - min| : ℤ) : ℚ)) (rnd_nonneg _)
  have mono2 := quality_span_mono h12 (rnd ((|min - max| : ℤ) : ℚ)) (rnd_nonneg _)
  constructor
  · rw [if_neg (by omega), if_neg (by omega)]
    omega
  · rcases eq_or_lt_of_le hmm with heq | hlt
    · subst heq
      simp only [sub_self, lt_self_iff_false, if_false]
      rw [quality_span_zero, quality_span_zero]
    · rw [if_pos (by omega), if_pos (by omega)]
      omega

theorem quality_factor_monotone_witness :
    qualityFactor cvAmd64 2 31 40 false ≤ qualityFactor cvAmd64 2 31 90 false ∧
      qualityFactor cvAmd64 2 31 90 true ≤ qualityFactor cvAmd64 2 31 40 true :=
  quality_factor_monotone cvAmd64 2 31 40 90 (by decide) (by decide) (by decide) (by decide)
    (by decide) (by decide)

theorem quality_span_at_zero (d : ℚ) : ⌊rnd (rnd (((0 : ℤ) : ℚ) / 100) * d)⌋ = 0 := by
  simp [rnd_of_nonpos (le_refl (0 : ℚ))]

theorem quality_span_at_hundred {d : Int} (hd : |d| < 2 ^ 53) :
    ⌊rnd (rnd (((100 : ℤ) : ℚ) / 100) * rnd ((|d| : ℤ) : ℚ))⌋ = |d| := by
  have e1 : (((100 : ℤ) : ℚ) / 100) = ((1 : ℤ) : ℚ) := by norm_num
  rw [e1, rnd_intCast (by decide) (by decide), rnd_intCast (abs_nonneg d) hd]
  push_cast
  rw [one_mul]
  have : (|(d : ℚ)|) = ((|d| : ℤ) : ℚ) := by push_cast; rfl
  rw [this, rnd_intCast (abs_nonneg d) hd]
  exact Int.floor_intCast _

/-- C14, as stated, fails where `max - min` is not a double: with `min = 0` and
`max = 2^53 + 1`, quality 100 gives `2^53`, not `max`. -/
theorem quality_factor_misses_endpoint :
    qualityFactor cvAmd64 0 9007199254740993 100 false = 9007199254740992 ∧
      ¬ (qualityFactor cvAmd64 0 9007199254740993 100 false = 9007199254740993) := by
  decide!

/-- C14, amended: for all integers `min`, `max` of magnitude below `2^52`,
`qualityFactor(min, max, 0, false) = min`, `qualityFactor(min, max, 100, false) =
max`, `qualityFactor(min, max, 0, true) = max` and
`qualityFactor(min, max, 100, true) = min`. -/
theorem quality_factor_endpoints (cv : F64 → Int) (min max : Int)
    (hmin : -2 ^ 52 < min ∧ min < 2 ^ 52) (hmax : -2 ^ 52 < max ∧ max < 2 ^ 52) :
    qualityFactor cv min max 0 false = min ∧ qualityFactor cv min max 100 false = max ∧
      qualityFactor cv min max 0 true = max ∧ qualityFactor cv min max 100 true = min := by
  obtain ⟨t0, f0⟩ := qualityFactor_eq cv min max 0 (by decide) (by decide)
    ⟨by omega, by omega⟩ ⟨by omega, by omega⟩
  obtain ⟨t1, f1⟩ := qualityFactor_eq cv min max 100 (by decide) (by decide)
    ⟨by omega, by omega⟩ ⟨by omega, by omega⟩
  have d1 : |min - max| < 2 ^ 53 := abs_lt.mpr ⟨by omega, by omega⟩
  have d2 : |max - min| < 2 ^ 53 := abs_lt.mpr ⟨by omega, by omega⟩
  rw [quality_span_at_zero] at t0 f0
  rw [quality_span_at_hundred d1] at t1
  rw [quality_span_at_hundred d2] at f1
  refine ⟨?_, ?_, ?_, ?_⟩
  · rw [f0]; simp
  · rw [f1]
    split_ifs with hs
    · rw [abs_of_neg hs]; omega
    · rw [abs_of_nonneg (not_lt.mp hs)]; omega
  · rw [t0]; simp
  · rw [t1]
    split_ifs with hs
    · rw [abs_of_neg hs]; omega
    · rw [abs_of_nonneg (not_lt.mp hs)]; omega

theorem quality_factor_endpoints_witness :
    qualityFactor cvAmd64 2 31 0 false = 2 ∧ qualityFactor cvAmd64 2 31 100 false = 31 ∧
      qualityFactor cvAmd64 2 31 0 true = 31 ∧ qualityFactor cvAmd64 2 31 100 true = 2 :=
  quality_factor_endpoints cvAmd64 2 31 (by decide) (by decide)

theorem quality_span_le {q d : Int} (h0 : 0 ≤ q) (h1 : q ≤ 100) (hd : |d| < 2 ^ 53) :
    0 ≤ ⌊rnd (rnd ((q : ℚ) / 100) * rnd ((|d| : ℤ) : ℚ))⌋ ∧
      ⌊rnd (rnd ((q : ℚ) / 100) * rnd ((|d| : ℤ) : ℚ))⌋ ≤ |d| := by
  obtain ⟨-, f0, f1⟩ := quality_fraction h0 h1
  refine ⟨Int.floor_nonneg.mpr (rnd_nonneg _), ?_⟩
  rw [rnd_intCast (abs_nonneg d) hd]
  have a0 : (0 : ℚ) ≤ ((|d| : ℤ) : ℚ) := by exact_mod_cast abs_nonneg d
  have : rnd ((q : ℚ) / 100) * ((|d| : ℤ) : ℚ) ≤ ((|d| : ℤ) : ℚ) := by
    have := mul_le_mul_of_nonneg_right f1 a0
    linarith
  have h := rnd_le_int (abs_nonneg d) hd this
  have : (⌊rnd (rnd ((q : ℚ) / 100) * ((|d| : ℤ) : ℚ))⌋ : ℚ) ≤ ((|d| : ℤ) : ℚ) :=
    le_trans (Int.floor_le _) h
  exact Int.cast_le.mp this

/-- The native parameters of the quality table, for a quality in [0, 100]. -/
theorem qualityFactor_table (cv : F64 → Int) (q : Int) (h0 : 0 ≤ q) (h1 : q ≤ 100) :
    (0 ≤ qualityFactor cv 0 63 q true ∧ qualityFactor cv 0 63 q true ≤ 63) ∧
      (2 ≤ qualityFactor cv 2 31 q true ∧ qualityFactor cv 2 31 q true ≤ 31) ∧
      (0 ≤ qualityFactor cv 0 100 q false ∧ qualityFactor cv 0 100 q false ≤ 100) := by
  obtain ⟨a, -⟩ := qualityFactor_eq cv 0 63 q h0 h1 ⟨by decide, by decide⟩ ⟨by decide, by decide⟩
  obtain ⟨b, -⟩ := qualityFactor_eq cv 2 31 q h0 h1 ⟨by decide, by decide⟩ ⟨by decide, by decide⟩
  obtain ⟨-, c⟩ := qualityFactor_eq cv 0 100 q h0 h1 ⟨by decide, by decide⟩
    ⟨by decide, by decide⟩
  have ka := quality_span_le (d := 0 - 63) h0 h1 (by decide)
  have kb := quality_span_le (d := 2 - 31) h0 h1 (by decide)
  have kc := quality_span_le (d := 100 - 0) h0 h1 (by decide)
  rw [a, b, c]
  rw [if_pos (by decide), if_pos (by decide), if_neg (by decide)]
  have ea : |(0 : ℤ) - 63| = 63 := by decide
  have eb : |(2 : ℤ) - 31| = 29 := by decide
  have ec : |(100 : ℤ) - 0| = 100 := by decide
  rw [ea] at ka
  rw [eb] at kb
  rw [ec] at kc
  rw [ea, eb, ec]
  omega

/-- C15: `buildQuality` follows the native quality table.  With `Output.Quality = 0`
it appends nothing, whatever the format.  With `Output.Quality = q`,
`1 ≤ q ≤ 100`, it appends exactly one argument: `crf = qualityFactor(0, 63, q,
true)` for AVIF, `qscale:v = qualityFactor(2, 31, q, true)` for JPEG, `qscale:v =
qualityFactor(0, 100, q, false)` for JPEGXL, `quality = qualityFactor(0, 100, q,
false)` for WEBP, each value inside the native range of the format; it appends
nothing for PNG, GIF, APNG and BMP.  JPEG with quality 100 gives `qscale:v = 2`. -/
theorem buildQuality_follows_table (cv : F64 → Int) (i : Image) :
    (i.Output.Quality = 0 → buildQuality cv i = i) ∧
      (1 ≤ i.Output.Quality → i.Output.Quality ≤ 100 →
        (i.Output.Format = ImageFormatAVIF →
          buildQuality cv i
              = addArg i [("crf", .int (qualityFactor cv 0 63 i.Output.Quality true))] ∧
            0 ≤ qualityFactor cv 0 63 i.Output.Quality true ∧
            qualityFactor cv 0 63 i.Output.Quality true ≤ 63) ∧
        (i.Output.Format = ImageFormatJPEG →
          buildQuality cv i
              = addArg i [("qscale:v", .int (qualityFactor cv 2 31 i.Output.Quality true))] ∧
            2 ≤ qualityFactor cv 2 31 i.Output.Quality true ∧
            qualityFactor cv 2 31 i.Output.Quality true ≤ 31) ∧
        (i.Output.Format = ImageFormatJPEGXL →
          buildQuality cv i
              = addArg i [("qscale:v", .int (qualityFactor cv 0 100 i.Output.Quality false))] ∧
            0 ≤ qualityFactor cv 0 100 i.Output.Quality false ∧
            qualityFactor cv 0 100 i.Output.Quality false ≤ 100) ∧
        (i.Output.Format = ImageFormatWEBP →
          buildQuality cv i
              = addArg i [("quality", .int (qualityFactor cv 0 100 i.Output.Quality false))] ∧
            0 ≤ qualityFactor cv 0 100 i.Output.Quality false ∧
            qualityFactor cv 0 100 i.Output.Quality false ≤ 100) ∧
        (i.Output.Format = ImageFormatPNG ∨ i.Output.Format = ImageFormatGIF ∨
            i.Output.Format = ImageFormatAPNG ∨ i.Output.Format = ImageFormatBMP →
          buildQuality cv i = i)) ∧
      qualityFactor cv 2 31 100 true = 2 := by
  refine ⟨?_, ?_, ?_⟩
  · intro hq
    unfold buildQuality
    simp [hq]
  · intro q1 q100
    have hq : i.Output.Quality ≠ 0 := by omega
    obtain ⟨ta, tb, tc⟩ := qualityFactor_table cv i.Output.Quality (by omega) q100
    refine ⟨?_, ?_, ?_, ?_, ?_⟩
    · intro hf
      refine ⟨?_, ta.1, ta.2⟩
      unfold buildQuality
      simp [hq, hf]
    · intro hf
      refine ⟨?_, tb.1, tb.2⟩
      unfold buildQuality
      simp [hq, hf, ImageFormatJPEG, ImageFormatAVIF]
    · intro hf
      refine ⟨?_, tc.1, tc.2⟩
      unfold buildQuality
      simp [hq, hf, ImageFormatJPEG, ImageFormatAVIF, ImageFormatJPEGXL]
    · intro hf
      refine ⟨?_, tc.1, tc.2⟩
      unfold buildQuality
      simp [hq, hf, ImageFormatJPEG, ImageFormatAVIF, ImageFormatJPEGXL, ImageFormatWEBP]
    · intro hf
      unfold buildQuality
      rcases hf with hf | hf | hf | hf <;>
        simp [hq, hf, ImageFormatJPEG, ImageFormatAVIF, ImageFormatJPEGXL, ImageFormatWEBP,
          ImageFormatPNG, ImageFormatGIF, ImageFormatAPNG, ImageFormatBMP]
  · obtain ⟨t, -⟩ := qualityFactor_eq cv 2 31 100 (by decide) (by decide) ⟨by decide, by decide⟩
      ⟨by decide, by decide⟩
    rw [t, quality_span_at_hundred (by decide), if_pos (by decide)]
    decide

theorem buildQuality_follows_table_witness :
    buildQuality cvAmd64 testImage = testImage ∧
      (buildQuality cvAmd64 (SetQuality (SetImageFormat testImage ImageFormatJPEG) 100)
          = addArg (SetQuality (SetImageFormat testImage ImageFormatJPEG) 100)
              [("qscale:v", .int (qualityFactor cvAmd64 2 31 100 true))] ∧
        2 ≤ qualityFactor cvAmd64 2 31 100 true ∧ qualityFactor cvAmd64 2 31 100 true ≤ 31) ∧
      buildQuality cvAmd64 (SetQuality (SetImageFormat testImage ImageFormatPNG) 80)
        = SetQuality (SetImageFormat testImage ImageFormatPNG) 80 ∧
      qualityFactor cvAmd64 2 31 100 true = 2 :=
  ⟨(buildQuality_follows_table cvAmd64 testImage).1 (by decide),
    ((buildQuality_follows_table cvAmd64
        (SetQuality (SetImageFormat testImage ImageFormatJPEG) 100)).2.1
      (by decide) (by decide)).2.1 (by decide),
    ((buildQuality_follows_table cvAmd64
        (SetQuality (SetImageFormat testImage ImageFormatPNG) 80)).2.1
      (by decide) (by decide)).2.2.2.2 (Or.inl (by decide)),
    (buildQuality_follows_table cvAmd64 testImage).2.2⟩

/-! ## `ExtentImage` and `CropImage` -/

theorem anchored_one (cv : F64 → Int) (i : Image) (w h x y : Int) (p : PositionType)
    (hp : p ≠ PositionTypeNone) :
    anchored cv i w h x y [p] = calcPosition cv i.Width i.Height w h p := by
  unfold anchored
  simp [hp]

theorem anchored_else (cv : F64 → Int) (i : Image) (w h x y : Int) (pos : List PositionType)
    (hp : ∀ p, pos = [p] → p = PositionTypeNone) : anchored cv i w h x y pos = (x, y) := by
  unfold anchored
  split
  · next p => simp [hp p rfl]
  · rfl

/-- C20: `ExtentImage(w, h, x, y [, pos])` and `CropImage(w, h, x, y [, pos])` each
append exactly one filter at the end of the filter list and set the tracked size
to (w, h), leaving everything else as it was.  `ExtentImage` appends
`pad "w:h:x':y':bg"` with `bg` the background colour at the time of the call,
`CropImage` appends `crop "w:h:x':y'"`.  When exactly one anchor other than
`PositionTypeNone` is given, (x', y') is `calcPosition(W, H, w, h, pos)` for the
tracked size `W x H` before the call, and the arguments `x`, `y` are ignored;
otherwise (x', y') = (x, y). -/
theorem extent_and_crop_append_one_filter (cv : F64 → Int) (i : Image) (w h x y : Int)
    (pos : List PositionType) :
    (∀ p, pos = [p] → p ≠ PositionTypeNone →
        ExtentImage cv i w h x y pos =
            { i with
              Width := w, Height := h,
              Output := { i.Output with
                Filters := i.Output.Filters ++
                  [⟨"pad", [fmtInt w ++ ":" ++ fmtInt h ++ ":" ++
                    fmtInt (calcPosition cv i.Width i.Height w h p).1 ++ ":" ++
                    fmtInt (calcPosition cv i.Width i.Height w h p).2 ++ ":" ++
                    i.Output.BackgroundColor]⟩] } } ∧
          CropImage cv i w h x y pos =
            { i with
              Width := w, Height := h,
              Output := { i.Output with
                Filters := i.Output.Filters ++
                  [⟨"crop", [fmtInt w ++ ":" ++ fmtInt h ++ ":" ++
                    fmtInt (calcPosition cv i.Width i.Height w h p).1 ++ ":" ++
                    fmtInt (calcPosition cv i.Width i.Height w h p).2]⟩] } }) ∧
      ((∀ p, pos = [p] → p = PositionTypeNone) →
        ExtentImage cv i w h x y pos =
            { i with
              Width := w, Height := h,
              Output := { i.Output with
                Filters := i.Output.Filters ++
                  [⟨"pad", [fmtInt w ++ ":" ++ fmtInt h ++ ":" ++ fmtInt x ++ ":" ++ fmtInt y ++
                    ":" ++ i.Output.BackgroundColor]⟩] } } ∧
          CropImage cv i w h x y pos =
            { i with
              Width := w, Height := h,
              Output := { i.Output with
                Filters := i.Output.Filters ++
                  [⟨"crop", [fmtInt w ++ ":" ++ fmtInt h ++ ":" ++ fmtInt x ++ ":" ++
                    fmtInt y]⟩] } }) := by
  constructor
  · intro p hpos hp
    subst hpos
    unfold ExtentImage CropImage
    simp only [anchored_one cv i w h x y p hp]
    exact ⟨rfl, rfl⟩
  · intro hp
    unfold ExtentImage CropImage
    simp only [anchored_else cv i w h x y pos hp]
    exact ⟨rfl, rfl⟩

theorem extent_and_crop_append_one_filter_witness :
    (ExtentImage cvAmd64 testImage 500 500 7 9 [PositionTypeCenter]).Output.Filters =
        [⟨"format", ["rgba"]⟩, ⟨"pad", ["500:500:35:88:black"]⟩] ∧
      (CropImage cvAmd64 testImage 300 300 7 9 [PositionTypeCenter]).Output.Filters =
        [⟨"format", ["rgba"]⟩, ⟨"crop", ["300:300:65:12"]⟩] ∧
      (ExtentImage cvAmd64 testImage 500 500 7 9 []).Output.Filters =
        [⟨"format", ["rgba"]⟩, ⟨"pad", ["500:500:7:9:black"]⟩] ∧
      (CropImage cvAmd64 testImage 300 300 7 9 [PositionTypeNone]).Output.Filters =
        [⟨"format", ["rgba"]⟩, ⟨"crop", ["300:300:7:9"]⟩] := by
  have a := (extent_and_crop_append_one_filter cvAmd64 testImage 500 500 7 9
    [PositionTypeCenter]).1 PositionTypeCenter rfl (by decide)
  have b := (extent_and_crop_append_one_filter cvAmd64 testImage 300 300 7 9
    [PositionTypeCenter]).1 PositionTypeCenter rfl (by decide)
  have c := (extent_and_crop_append_one_filter cvAmd64 testImage 500 500 7 9 []).2
    (by intro p hp; cases hp)
  have d := (extent_and_crop_append_one_filter cvAmd64 testImage 300 300 7 9
    [PositionTypeNone]).2 (by intro p hp; simp at hp; exact hp.symm)
  refine ⟨?_, ?_, ?_, ?_⟩
  · rw [a.1]; decide!
  · rw [b.2]; decide!
  · rw [c.1]; decide!
  · rw [d.2]; decide!

/-! ## The stages of `WriteImage` -/

theorem resolveFormat_Path (i : Image) (path : String) : (resolveFormat i path).Path = i.Path := by
  unfold resolveFormat
  simp only
  split_ifs <;> rfl

theorem buildQuality_Path (cv : F64 → Int) (i : Image) : (buildQuality cv i).Path = i.Path := by
  unfold buildQuality
  split_ifs <;> rfl

theorem buildLoop_Path (i : Image) : (buildLoop i).Path = i.Path := by
  unfold buildLoop
  split_ifs <;> rfl

theorem buildBeforeEXIF_Path (env : Env) (i : Image) :
    (buildBeforeEXIF env i).1 = none ∨
      ∃ j, (buildBeforeEXIF env i).1 = some j ∧ j.Path = i.Path := by
  unfold buildBeforeEXIF
  repeat' (first | exact Or.inl rfl | exact Or.inr ⟨_, rfl, rfl⟩ | split)

theorem prepared_Path (cv : F64 → Int) (env : Env) (i : Image) (path : String) :
    (prepared cv env i path).1 = none ∨
      ∃ j, (prepared cv env i path).1 = some j ∧ j.Path = i.Path := by
  unfold prepared
  rcases buildBeforeEXIF_Path env (buildLoop (buildQuality cv (resolveFormat i path))) with
    h | ⟨j, h, hp⟩
  · exact Or.inl h
  · refine Or.inr ⟨j, h, ?_⟩
    rw [hp, buildLoop_Path, buildQuality_Path, resolveFormat_Path]

theorem WriteImage_unfold (cv : F64 → Int) (env : Env) (i : Image) (path : String) :
    WriteImage cv env i path =
      if (resolveFormat i path).Output.Format = ImageFormatUnknown then
        ⟨some "no image format", resolveFormat i path, [], false⟩
      else
        match (prepared cv env i path).1 with
        | none =>
          ⟨none, buildLoop (buildQuality cv (resolveFormat i path)), (prepared cv env i path).2,
            true⟩
        | some j =>
          (match (if (decide (path = "") || decide (path = (withDestination i path).Path)) = true
            then
              match env.createTemp ("*" ++ filepathExt j.Path) with
              | .error e => (Except.error e : Except String (String × List Event))
              | .ok name =>
                .ok (name, [.createTemp ("*" ++ filepathExt j.Path), .closeFile name])
            else .ok ("", [])) with
          | .error e =>
            ⟨some e, j,
              (prepared cv env i path).2 ++ [.createTemp ("*" ++ filepathExt j.Path)], false⟩
          | .ok (tmpFilename, evTmp) =>
            match env.engine (engineCall j path) with
            | some diag =>
              ⟨some diag, j,
                (prepared cv env i path).2 ++ evTmp ++ [.engine (engineCall j path)], false⟩
            | none =>
              match (if (decide (path = "") || decide (path = (withDestination i path).Path))
                  = true then
                  (env.rename tmpFilename path, [Event.rename tmpFilename path])
                else (none, [])).1 with
              | some e =>
                ⟨some e, j,
                  (prepared cv env i path).2 ++ evTmp ++ [.engine (engineCall j path)] ++
                    (if (decide (path = "") || decide (path = (withDestination i path).Path))
                      = true then
                      (env.rename tmpFilename path, [Event.rename tmpFilename path])
                    else (none, [])).2, false⟩
              | none =>
                ⟨none, j,
                  (prepared cv env i path).2 ++ evTmp ++ [.engine (engineCall j path)] ++
                    (if (decide (path = "") || decide (path = (withDestination i path).Path))
                      = true then
                      (env.rename tmpFilename path, [Event.rename tmpFilename path])
                    else (none, [])).2 ++
                    buildAfterQuality cv j ++ buildAfterEXIF j, false⟩) := by
  rfl

theorem withDestination_Path (i : Image) (path : String) :
    (withDestination i path).Path = i.Path := by
  unfold withDestination
  simp only
  split_ifs <;> rfl

/-- `WriteImage` by stages: the format check, the preparation, which may panic,
the temporary file of the same-path case, and the part from the engine run on. -/
theorem WriteImage_eq (cv : F64 → Int) (env : Env) (i : Image) (path : String) :
    WriteImage cv env i path =
      if (resolveFormat i path).Output.Format = ImageFormatUnknown then
        ⟨some "no image format", resolveFormat i path, [], false⟩
      else
        match (prepared cv env i path).1 with
        | none =>
          ⟨none, buildLoop (buildQuality cv (resolveFormat i path)), (prepared cv env i path).2,
            true⟩
        | some j => afterExport cv env i path j (prepared cv env i path).2 := by
  rw [WriteImage_unfold, withDestination_Path]
  by_cases hf : (resolveFormat i path).Output.Format = ImageFormatUnknown
  · rw [if_pos hf, if_pos hf]
  · rw [if_neg hf, if_neg hf]
    rcases prepared_Path cv env i path with hn | ⟨j, hj, hp⟩
    · rw [hn]
    · rw [hj]
      simp only
      rw [hp]
      unfold afterExport
      by_cases hs : path = "" ∨ path = i.Path
      · have hs' : (decide (path = "") || decide (path = i.Path)) = true := by
          simpa using hs
        rw [if_pos hs]
        simp only [hs', if_true]
        cases hct : env.createTemp ("*" ++ filepathExt i.Path) with
        | error e => rfl
        | ok name =>
          simp only
          unfold runEngine
          cases heng : env.engine (engineCall j path) with
          | some d => simp
          | none => simp only
      · have hs' : ¬ ((decide (path = "") || decide (path = i.Path)) = true) := by
          simpa using hs
        rw [if_neg hs]
        simp only [hs', if_false]
        unfold runEngine
        cases heng : env.engine (engineCall j path) with
        | some d => simp
        | none => simp

theorem buildBeforeEXIF_auxiliary (env : Env) (i : Image) :
    (buildBeforeEXIF env i).2.all Event.isAuxiliary = true := by
  unfold buildBeforeEXIF
  repeat' (first | rfl | split)

theorem buildAfterQuality_auxiliary (cv : F64 → Int) (i : Image) :
    (buildAfterQuality cv i).all Event.isAuxiliary = true := by
  unfold buildAfterQuality
  repeat' (first | rfl | split)

theorem buildAfterEXIF_auxiliary (i : Image) :
    (buildAfterEXIF i).all Event.isAuxiliary = true := by
  unfold buildAfterEXIF
  repeat' (first | rfl | split)

theorem not_engine_of_auxiliary {l : List Event} (hl : l.all Event.isAuxiliary = true)
    (ev : Event) (h : ev ∈ l) : (∀ c, ev ≠ .engine c) ∧ (∀ s d, ev ≠ .rename s d) := by
  have := List.all_eq_true.mp hl ev h
  constructor
  · intro c hc; subst hc; cases this
  · intro s d hc; subst hc; cases this

theorem buildBeforeEXIF_events (env : Env) (i : Image) (ev : Event)
    (h : ev ∈ (buildBeforeEXIF env i).2) :
    (∀ c, ev ≠ .engine c) ∧ (∀ s d, ev ≠ .rename s d) :=
  not_engine_of_auxiliary (buildBeforeEXIF_auxiliary env i) ev h

theorem prepared_events (cv : F64 → Int) (env : Env) (i : Image) (path : String) (ev : Event)
    (h : ev ∈ (prepared cv env i path).2) :
    (∀ c, ev ≠ .engine c) ∧ (∀ s d, ev ≠ .rename s d) :=
  buildBeforeEXIF_events env _ ev h

theorem runEngine_err (cv : F64 → Int) (env : Env) (j : Image) (path : String)
    (ev : List Event) (tmp : Option String)
    (hev : ∀ e ∈ ev, ∀ c, e ≠ .engine c)
    (hrun : ∃ c, Event.engine c ∈ (runEngine cv env j path ev tmp).events ∧ env.engine c = none)
    (hren : ∀ s d, Event.rename s d ∈ (runEngine cv env j path ev tmp).events →
      env.rename s d = none) :
    (runEngine cv env j path ev tmp).err = none := by
  unfold runEngine at hrun hren ⊢
  cases heng : env.engine (engineCall j path) with
  | some diag =>
    rw [heng] at hrun
    simp only at hrun
    obtain ⟨c, hc, hnone⟩ := hrun
    rw [List.mem_append, List.mem_singleton] at hc
    rcases hc with hc | hc
    · exact absurd rfl (hev _ hc c)
    · rw [Event.engine.injEq] at hc
      rw [hc, heng] at hnone
      cases hnone
  | none =>
    rw [heng] at hren
    cases tmp with
    | none => rfl
    | some name =>
      simp only at hren ⊢
      cases hr : env.rename name path with
      | none => rfl
      | some e =>
        rw [hr] at hren
        have := hren name path (by simp)
        rw [hr] at this
        cases this

theorem runEngine_panicked (cv : F64 → Int) (env : Env) (j : Image) (path : String)
    (ev : List Event) (tmp : Option String) :
    (runEngine cv env j path ev tmp).panicked = false := by
  unfold runEngine
  repeat' (first | rfl | split)

theorem afterExport_panicked (cv : F64 → Int) (env : Env) (i : Image) (path : String)
    (j : Image) (ev : List Event) : (afterExport cv env i path j ev).panicked = false := by
  unfold afterExport
  repeat' (first | rfl | exact runEngine_panicked cv env j path _ _ | split)

theorem afterExport_err (cv : F64 → Int) (env : Env) (i : Image) (path : String)
    (j : Image) (ev : List Event)
    (hev : ∀ e ∈ ev, ∀ c, e ≠ .engine c)
    (hrun : ∃ c, Event.engine c ∈ (afterExport cv env i path j ev).events ∧ env.engine c = none)
    (hren : ∀ s d, Event.rename s d ∈ (afterExport cv env i path j ev).events →
      env.rename s d = none) :
    (afterExport cv env i path j ev).err = none := by
  unfold afterExport at hrun hren ⊢
  by_cases hs : path = "" ∨ path = i.Path
  · rw [if_pos hs] at hrun hren ⊢
    cases hct : env.createTemp ("*" ++ filepathExt i.Path) with
    | error e =>
      rw [hct] at hrun
      obtain ⟨c, hc, -⟩ := hrun
      simp only [List.mem_append, List.mem_singleton] at hc
      rcases hc with hc | hc
      · exact absurd rfl (hev _ hc c)
      · cases hc
    | ok name =>
      rw [hct] at hrun hren
      simp only at hrun hren ⊢
      apply runEngine_err cv env _ path _ _ _ hrun hren
      intro e he c
      rw [List.mem_append] at he
      rcases he with he | he
      · exact hev e he c
      · simp only [List.mem_cons, List.mem_singleton, List.not_mem_nil, or_false] at he
        rcases he with he | he <;> subst he <;> simp
  · rw [if_neg hs] at hrun hren ⊢
    apply runEngine_err cv env _ path _ _ _ hrun hren
    intro e he c
    rw [List.append_nil] at he
    exact hev e he c

/-- The run-time panic of the metadata export: when `exiftool` prints `[null]`, the
decoded list holds one nil map, the assignment of `SourceFile` panics, and
`WriteImage` ends there, after the temporary file and the `exiftool` run and before
any engine run.  With no metadata kept the same world returns normally. -/
theorem metadata_export_null_record :
    (WriteImage cvAmd64 envNullExport testImagePng "./test/output/a.png").panicked = true ∧
      (WriteImage cvAmd64 envNullExport testImagePng "./test/output/a.png").events =
        [.createTemp "", .exec "exiftool" ["-json", "./test/source.png"]] ∧
      (WriteImage cvAmd64 envNullExport (SetImageFormat testImage ImageFormatPNG)
        "./test/output/a.png").panicked = false ∧
      (WriteImage cvAmd64 envNullExport (SetImageFormat testImage ImageFormatPNG)
        "./test/output/a.png").err = none := by
  decide!

/-- C11: whenever the engine is run and succeeds and every rename performed
succeeds, `WriteImage` returns, and returns no error, whatever the outcomes of the
metadata export before the run (temporary file, `exiftool`, JSON codec, file
write), of the quality helper (`pngquant`, `gifsicle`) and of the metadata
re-import after it: `env` is arbitrary in all of these.  The one outcome of the
export that stops `WriteImage`, the panic on a decoded `null`, comes before the
engine run, so no engine run is among the actions then. -/
theorem postprocessing_never_fails (cv : F64 → Int) (env : Env) (i : Image) (path : String)
    (hrun : ∃ c, Event.engine c ∈ (WriteImage cv env i path).events ∧ env.engine c = none)
    (hren : ∀ s d, Event.rename s d ∈ (WriteImage cv env i path).events →
      env.rename s d = none) :
    (WriteImage cv env i path).err = none ∧ (WriteImage cv env i path).panicked = false := by
  rw [WriteImage_eq] at hrun hren ⊢
  have hprep : ∀ e ∈ (prepared cv env i path).2, ∀ c, e ≠ .engine c :=
    fun e he => (prepared_events cv env i path e he).1
  by_cases hf : (resolveFormat i path).Output.Format = ImageFormatUnknown
  · rw [if_pos hf] at hrun
    obtain ⟨c, hc, -⟩ := hrun
    cases hc
  · rw [if_neg hf] at hrun hren ⊢
    cases hp : (prepared cv env i path).1 with
    | none =>
      rw [hp] at hrun
      obtain ⟨c, hc, -⟩ := hrun
      exact absurd rfl (hprep _ hc c)
    | some j =>
      rw [hp] at hrun hren
      exact ⟨afterExport_err cv env i path j _ hprep hrun hren,
        afterExport_panicked cv env i path j _⟩

theorem postprocessing_never_fails_witness :
    (WriteImage cvAmd64 envNoHelpers testImagePng "./test/source.png").events =
        [ .createTemp "",
          .createTemp "*.png",
          .closeFile "/tmp/1234.png",
          .engine (engineCall
            (buildLoop (buildQuality cvAmd64 (resolveFormat testImagePng "./test/source.png")))
            "./test/source.png"),
          .rename "/tmp/1234.png" "./test/source.png",
          .exec "pngquant"
            ["--quality", "0-80", "-f", "./test/source.png", "-o", "./test/source.png"],
          .exec "exiftool" ["-overwrite_original", "-json=", "./test/source.png"] ] ∧
      envNoHelpers.exec "pngquant"
          ["--quality", "0-80", "-f", "./test/source.png", "-o", "./test/source.png"]
        = .error "executable file not found" ∧
      (WriteImage cvAmd64 envNoHelpers testImagePng "./test/source.png").err = none ∧
      (WriteImage cvAmd64 envNoHelpers testImagePng "./test/source.png").panicked = false :=
  ⟨by decide!, rfl,
    postprocessing_never_fails cvAmd64 envNoHelpers testImagePng "./test/source.png"
      ⟨engineCall
          (buildLoop (buildQuality cvAmd64 (resolveFormat testImagePng "./test/source.png")))
          "./test/source.png", by decide!, rfl⟩
      (fun _ _ _ => rfl)⟩

/-! ## Fitted sizes against the exact quotients -/

theorem natAbs_cast_of_pos {n : Int} (h : 0 < n) : ((n.natAbs : ℕ) : ℚ) = (n : ℚ) := by
  rw [← Int.cast_natCast, Int.natAbs_of_nonneg (le_of_lt h)]

/-- A quotient truncated or one less, in terms of products. -/
theorem eq_ediv_or_pred {a n d : Int} (hd : 0 < d) (h1 : a * d ≤ n) (h2 : n - d ≤ a * d) :
    a = n / d ∨ a = n / d - 1 := by
  have u : a ≤ n / d := (Int.le_ediv_iff_mul_le hd).mpr h1
  have l : n / d ≤ a + 1 := by
    have : n / d * d ≤ n := Int.ediv_mul_le n (ne_of_gt hd)
    have h3 : n / d * d ≤ (a + 1) * d := by
      have : (a + 1) * d = a * d + d := by ring
      omega
    exact le_of_mul_le_mul_right h3 hd
  omega

/-- The integer part of a non-negative double below `2^51`, as `int`. -/
theorem toInt_floor_of_le (cv : F64 → Int) {m : ℚ} {n : Int} (h0 : 0 ≤ m) (hn : n < 2 ^ 62)
    (hm : ⌊m⌋ ≤ n) : F64.toInt cv (.fin false m) = ⌊m⌋ := by
  apply toInt_eq_floor cv h0
  have h1 : m < (⌊m⌋ : ℚ) + 1 := Int.lt_floor_add_one m
  have h2 : ((⌊m⌋ : ℤ) : ℚ) + 1 ≤ ((2 ^ 62 : ℤ) : ℚ) := by
    have : ⌊m⌋ + 1 ≤ 2 ^ 62 := by omega
    exact_mod_cast this
  have h3 : ((2 ^ 62 : ℤ) : ℚ) < 2 ^ 63 := by norm_num
  linarith

/-- `calcBestfit` on positive arguments below `2^25`: the two candidates are the
exact quotients `h * origW / origH` and `w * origH / origW` truncated, or one
less. -/
theorem calcBestfit_floor (cv : F64 → Int) (origW origH w h : Int) (typ : ResizeType)
    (hW : 0 < origW) (hH : 0 < origH) (hw : 0 < w) (hh : 0 < h)
    (bW : origW < 2 ^ 25) (bH : origH < 2 ^ 25) (bw : w < 2 ^ 25) (bh : h < 2 ^ 25) :
    ∃ a b : Int,
      (a = ⌊rnd ((h : ℚ) * rnd ((origW : ℚ) / origH))⌋ ∧
        b = ⌊rnd ((w : ℚ) / rnd ((origW : ℚ) / origH))⌋) ∧
      (a * origH ≤ h * origW ∧ h * origW - origH ≤ a * origH) ∧
      (b * origW ≤ w * origH ∧ w * origH - origW ≤ b * origW) ∧
      calcBestfit cv origW origH w h typ =
        if origW > origH then
          if (typ = ResizeTypeDownscale ∧ a > w) ∨ (typ = ResizeTypeUpscale ∧ w > a) then (w, b)
          else (a, h)
        else
          if (typ = ResizeTypeDownscale ∧ b > h) ∨ (typ = ResizeTypeUpscale ∧ h > b) then (a, h)
          else (w, b) := by
  obtain ⟨r, -, er, e⟩ :=
    calcBestfit_pos cv origW origH w h typ hW hH hw hh (by omega) (by omega)
  rw [natAbs_cast_of_pos hW, natAbs_cast_of_pos hH, rnd_intCast (le_of_lt hW) (by omega),
    rnd_intCast (le_of_lt hH) (by omega)] at er
  subst er
  have p1 : h * origW < 2 ^ 51 := by
    have : h * origW < 2 ^ 25 * 2 ^ 25 := by
      apply mul_lt_mul'' bh bW (le_of_lt hh) (le_of_lt hW)
    omega
  have p2 : w * origH < 2 ^ 51 := by
    have : w * origH < 2 ^ 25 * 2 ^ 25 := by
      apply mul_lt_mul'' bw bH (le_of_lt hw) (le_of_lt hH)
    omega
  have fa := floor_mul_rnd h origW origH hh hW hH p1
  have fb := floor_div_rnd w origW origH hw hW hH p2
  have ua : ⌊rnd ((h : ℚ) * rnd ((origW : ℚ) / origH))⌋ ≤ 2 ^ 51 := by
    have : ⌊rnd ((h : ℚ) * rnd ((origW : ℚ) / origH))⌋ * 1
        ≤ ⌊rnd ((h : ℚ) * rnd ((origW : ℚ) / origH))⌋ * origH := by
      apply mul_le_mul_of_nonneg_left (by omega) (Int.floor_nonneg.mpr (rnd_nonneg _))
    omega
  have ub : ⌊rnd ((w : ℚ) / rnd ((origW : ℚ) / origH))⌋ ≤ 2 ^ 51 := by
    have : ⌊rnd ((w : ℚ) / rnd ((origW : ℚ) / origH))⌋ * 1
        ≤ ⌊rnd ((w : ℚ) / rnd ((origW : ℚ) / origH))⌋ * origW := by
      apply mul_le_mul_of_nonneg_left (by omega) (Int.floor_nonneg.mpr (rnd_nonneg _))
    omega
  refine ⟨_, _, ⟨rfl, rfl⟩, fa, fb, ?_⟩
  rw [e, toInt_floor_of_le cv (rnd_nonneg _) (by decide) ua,
    toInt_floor_of_le cv (rnd_nonneg _) (by decide) ub]

/-- C16, as stated, fails: the quotients are taken in `float64`.  For a 100 x 161
source and the box 161 x 161, `ResizeTypeDownscale` returns (99, 161): the double
`161 * (100 / 161)` is just below 100.  Neither `99 = trunc(161 * 100 / 161)` nor
`161 = trunc(99 * 161 / 100)` holds, and `|99 * 161 - 161 * 100| = 161` is not
below `max(100, 161)`. -/
theorem bestfit_aspect_off_by_one :
    calcBestfit cvAmd64 100 161 161 161 ResizeTypeDownscale = (99, 161) ∧
      ¬ ((99 : Int) = Int.tdiv (161 * 100) 161 ∨ (161 : Int) = Int.tdiv (99 * 161) 100) ∧
      ¬ (|(99 : Int) * 161 - 161 * 100| < max 100 161) := by
  decide!

/-- C16, amended: for all positive `origW`, `origH`, `w`, `h` below `2^25` and every
mode, the result (newW, newH) of `calcBestfit` satisfies: `newW` is
`trunc(newH * origW / origH)` or one less, or `newH` is
`trunc(newW * origH / origW)` or one less (exact quotients); hence
`|newW * origH - newH * origW| ≤ max(origW, origH)`. -/
theorem bestfit_aspect_within_one_pixel (cv : F64 → Int) (origW origH w h : Int)
    (typ : ResizeType) (hW : 0 < origW) (hH : 0 < origH) (hw : 0 < w) (hh : 0 < h)
    (bW : origW < 2 ^ 25) (bH : origH < 2 ^ 25) (bw : w < 2 ^ 25) (bh : h < 2 ^ 25) :
    (((calcBestfit cv origW origH w h typ).1
          = (calcBestfit cv origW origH w h typ).2 * origW / origH ∨
        (calcBestfit cv origW origH w h typ).1
          = (calcBestfit cv origW origH w h typ).2 * origW / origH - 1) ∨
      ((calcBestfit cv origW origH w h typ).2
          = (calcBestfit cv origW origH w h typ).1 * origH / origW ∨
        (calcBestfit cv origW origH w h typ).2
          = (calcBestfit cv origW origH w h typ).1 * origH / origW - 1)) ∧
      |(calcBestfit cv origW origH w h typ).1 * origH
          - (calcBestfit cv origW origH w h typ).2 * origW| ≤ max origW origH := by
  obtain ⟨a, b, -, ⟨a1, a2⟩, ⟨b1, b2⟩, e⟩ :=
    calcBestfit_floor cv origW origH w h typ hW hH hw hh bW bH bw bh
  have ca := eq_ediv_or_pred hH a1 a2
  have cb := eq_ediv_or_pred hW b1 b2
  have mW : origW ≤ max origW origH := le_max_left _ _
  have mH : origH ≤ max origW origH := le_max_right _ _
  have ka : |a * origH - h * origW| ≤ max origW origH := abs_le.mpr ⟨by omega, by omega⟩
  have kb : |w * origH - b * origW| ≤ max origW origH := abs_le.mpr ⟨by omega, by omega⟩
  rw [e]
  split_ifs
  · exact ⟨Or.inr cb, kb⟩
  · exact ⟨Or.inl ca, ka⟩
  · exact ⟨Or.inl ca, ka⟩
  · exact ⟨Or.inr cb, kb⟩

theorem bestfit_aspect_within_one_pixel_witness :
    (((calcBestfit cvAmd64 431 324 300 300 ResizeTypeDownscale).1
          = (calcBestfit cvAmd64 431 324 300 300 ResizeTypeDownscale).2 * 431 / 324 ∨
        (calcBestfit cvAmd64 431 324 300 300 ResizeTypeDownscale).1
          = (calcBestfit cvAmd64 431 324 300 300 ResizeTypeDownscale).2 * 431 / 324 - 1) ∨
      ((calcBestfit cvAmd64 431 324 300 300 ResizeTypeDownscale).2
          = (calcBestfit cvAmd64 431 324 300 300 ResizeTypeDownscale).1 * 324 / 431 ∨
        (calcBestfit cvAmd64 431 324 300 300 ResizeTypeDownscale).2
          = (calcBestfit cvAmd64 431 324 300 300 ResizeTypeDownscale).1 * 324 / 431 - 1)) ∧
      |(calcBestfit cvAmd64 431 324 300 300 ResizeTypeDownscale).1 * 324
          - (calcBestfit cvAmd64 431 324 300 300 ResizeTypeDownscale).2 * 431| ≤ max 431 324 :=
  bestfit_aspect_within_one_pixel cvAmd64 431 324 300 300 ResizeTypeDownscale (by decide)
    (by decide) (by decide) (by decide) (by decide) (by decide) (by decide) (by decide)

/-- On positive arguments below `2^25` no conversion of `calcBestfit` leaves the
range of `int`: the result does not depend on the platform. -/
theorem calcBestfit_platform (cv cv' : F64 → Int) (origW origH w h : Int) (typ : ResizeType)
    (hW : 0 < origW) (hH : 0 < origH) (hw : 0 < w) (hh : 0 < h)
    (bW : origW < 2 ^ 25) (bH : origH < 2 ^ 25) (bw : w < 2 ^ 25) (bh : h < 2 ^ 25) :
    calcBestfit cv origW origH w h typ = calcBestfit cv' origW origH w h typ := by
  obtain ⟨a, b, ⟨ea, eb⟩, -, -, e⟩ :=
    calcBestfit_floor cv origW origH w h typ hW hH hw hh bW bH bw bh
  obtain ⟨a', b', ⟨ea', eb'⟩, -, -, e'⟩ :=
    calcBestfit_floor cv' origW origH w h typ hW hH hw hh bW bH bw bh
  rw [e, e', ea, eb, ea', eb']

theorem calcBestfit_examples :
    calcBestfit cvAmd64 300 225 400 400 ResizeTypeUpscale = (533, 400) ∧
      calcBestfit cvAmd64 300 225 400 400 ResizeTypeDownscale = (400, 300) ∧
      calcBestfit cvAmd64 431 324 300 300 ResizeTypeUpscale = (399, 300) ∧
      calcBestfit cvAmd64 431 324 300 300 ResizeTypeDownscale = (300, 225) := by
  decide!

/-- C17, as stated, fails: the candidates are computed in `float64`.  On a
113 x 100 image `ResizeImage(100, 100, ResizeTypeUpscale)` tracks 112 x 100, not
(trunc(100 * 113 / 100), 100) = (113, 100): the double `100 * (113 / 100)` is
just below 113. -/
theorem resize_fit_not_exact_quotient :
    (ResizeImage cvAmd64 (testImageOf 113 100) 100 100 [ResizeTypeUpscale]).Width = 112 ∧
      (ResizeImage cvAmd64 (testImageOf 113 100) 100 100 [ResizeTypeUpscale]).Height = 100 ∧
      Int.tdiv (100 * 113) 100 = 113 ∧ ¬ ((100 : Int) > Int.tdiv (100 * 113) 100) := by
  decide!

/-- C17, amended: for an image with positive tracked size `W x H` and positive
`w`, `h`, all below `2^25`, `ResizeImage(w, h, mode)` with mode Upscale or
Downscale tracks, for a wide source (`W > H`), (w, b) when the clamp fires
(Downscale: `a > w`; Upscale: `w > a`) and (a, h) otherwise, and for `W ≤ H`
(a, h) when the clamp fires (Downscale: `b > h`; Upscale: `h > b`) and (w, b)
otherwise, where the candidate `a` is `trunc(h * W / H)` or one less and the
candidate `b` is `trunc(w * H / W)` or one less (both computed in `float64`).  A
300 x 225 image with box 400 x 400 becomes 533 x 400 under Upscale and
400 x 300 under Downscale; a 431 x 324 image with box 300 x 300 becomes
399 x 300 under Upscale and 300 x 225 under Downscale. -/
theorem resize_fit_sizes (cv : F64 → Int) (i : Image) (w h : Int) (typ : ResizeType)
    (ht : typ = ResizeTypeUpscale ∨ typ = ResizeTypeDownscale)
    (hW : 0 < i.Width) (hH : 0 < i.Height) (hw : 0 < w) (hh : 0 < h)
    (bW : i.Width < 2 ^ 25) (bH : i.Height < 2 ^ 25) (bw : w < 2 ^ 25) (bh : h < 2 ^ 25) :
    (∃ a b : Int,
      (a = h * i.Width / i.Height ∨ a = h * i.Width / i.Height - 1) ∧
      (b = w * i.Height / i.Width ∨ b = w * i.Height / i.Width - 1) ∧
      ((ResizeImage cv i w h [typ]).Width, (ResizeImage cv i w h [typ]).Height) =
        if i.Width > i.Height then
          if (typ = ResizeTypeDownscale ∧ a > w) ∨ (typ = ResizeTypeUpscale ∧ w > a) then (w, b)
          else (a, h)
        else
          if (typ = ResizeTypeDownscale ∧ b > h) ∨ (typ = ResizeTypeUpscale ∧ h > b) then (a, h)
          else (w, b)) ∧
      ((ResizeImage cv (testImageOf 300 225) 400 400 [ResizeTypeUpscale]).Width = 533 ∧
        (ResizeImage cv (testImageOf 300 225) 400 400 [ResizeTypeUpscale]).Height = 400) ∧
      ((ResizeImage cv (testImageOf 300 225) 400 400 [ResizeTypeDownscale]).Width = 400 ∧
        (ResizeImage cv (testImageOf 300 225) 400 400 [ResizeTypeDownscale]).Height = 300) ∧
      ((ResizeImage cv testImage 300 300 [ResizeTypeUpscale]).Width = 399 ∧
        (ResizeImage cv testImage 300 300 [ResizeTypeUpscale]).Height = 300) ∧
      ((ResizeImage cv testImage 300 300 [ResizeTypeDownscale]).Width = 300 ∧
        (ResizeImage cv testImage 300 300 [ResizeTypeDownscale]).Height = 225) := by
  have hne : typ ≠ ResizeTypeNone := by
    rcases ht with rfl | rfl <;> decide
  obtain ⟨x1, x2, x3, x4⟩ := calcBestfit_examples
  refine ⟨?_, ?_, ?_, ?_, ?_⟩
  · obtain ⟨a, b, -, ⟨a1, a2⟩, ⟨b1, b2⟩, e⟩ :=
      calcBestfit_floor cv i.Width i.Height w h typ hW hH hw hh bW bH bw bh
    refine ⟨a, b, eq_ediv_or_pred hH a1 a2, eq_ediv_or_pred hW b1 b2, ?_⟩
    obtain ⟨s1, s2⟩ := ResizeImage_fit_size cv i w h typ hne (ne_of_gt hw) (ne_of_gt hh)
    rw [s1, s2, ← e]
  · obtain ⟨s1, s2⟩ := ResizeImage_fit_size cv (testImageOf 300 225) 400 400 ResizeTypeUpscale
      (by decide) (by decide) (by decide)
    rw [s1, s2]
    have := calcBestfit_platform cv cvAmd64 300 225 400 400 ResizeTypeUpscale (by decide)
      (by decide) (by decide) (by decide) (by decide) (by decide) (by decide) (by decide)
    have e1 : (testImageOf 300 225).Width = 300 := rfl
    have e2 : (testImageOf 300 225).Height = 225 := rfl
    rw [e1, e2, this, x1]
    exact ⟨rfl, rfl⟩
  · obtain ⟨s1, s2⟩ := ResizeImage_fit_size cv (testImageOf 300 225) 400 400
      ResizeTypeDownscale (by decide) (by decide) (by decide)
    rw [s1, s2]
    have := calcBestfit_platform cv cvAmd64 300 225 400 400 ResizeTypeDownscale (by decide)
      (by decide) (by decide) (by decide) (by decide) (by decide) (by decide) (by decide)
    have e1 : (testImageOf 300 225).Width = 300 := rfl
    have e2 : (testImageOf 300 225).Height = 225 := rfl
    rw [e1, e2, this, x2]
    exact ⟨rfl, rfl⟩
  · obtain ⟨s1, s2⟩ := ResizeImage_fit_size cv testImage 300 300 ResizeTypeUpscale
      (by decide) (by decide) (by decide)
    rw [s1, s2]
    have := calcBestfit_platform cv cvAmd64 431 324 300 300 ResizeTypeUpscale (by decide)
      (by decide) (by decide) (by decide) (by decide) (by decide) (by decide) (by decide)
    have e1 : testImage.Width = 431 := rfl
    have e2 : testImage.Height = 324 := rfl
    rw [e1, e2, this, x3]
    exact ⟨rfl, rfl⟩
  · obtain ⟨s1, s2⟩ := ResizeImage_fit_size cv testImage 300 300 ResizeTypeDownscale
      (by decide) (by decide) (by decide)
    rw [s1, s2]
    have := calcBestfit_platform cv cvAmd64 431 324 300 300 ResizeTypeDownscale (by decide)
      (by decide) (by decide) (by decide) (by decide) (by decide) (by decide) (by decide)
    have e1 : testImage.Width = 431 := rfl
    have e2 : testImage.Height = 324 := rfl
    rw [e1, e2, this, x4]
    exact ⟨rfl, rfl⟩

theorem resize_fit_sizes_witness :
    ∃ a b : Int,
      (a = 300 * testImage.Width / testImage.Height ∨
        a = 300 * testImage.Width / testImage.Height - 1) ∧
      (b = 300 * testImage.Height / testImage.Width ∨
        b = 300 * testImage.Height / testImage.Width - 1) ∧
      ((ResizeImage cvAmd64 testImage 300 300 [ResizeTypeDownscale]).Width,
          (ResizeImage cvAmd64 testImage 300 300 [ResizeTypeDownscale]).Height) =
        if testImage.Width > testImage.Height then
          if (ResizeTypeDownscale = ResizeTypeDownscale ∧ a > 300) ∨
              (ResizeTypeDownscale = ResizeTypeUpscale ∧ 300 > a) then (300, b)
          else (a, 300)
        else
          if (ResizeTypeDownscale = ResizeTypeDownscale ∧ b > 300) ∨
              (ResizeTypeDownscale = ResizeTypeUpscale ∧ 300 > b) then (a, 300)
          else (300, b) :=
  (resize_fit_sizes cvAmd64 testImage 300 300 ResizeTypeDownscale (Or.inr rfl) (by decide)
    (by decide) (by decide) (by decide) (by decide) (by decide) (by decide) (by decide)).1

/-- The two aspect-preserving derivations `int(float64(k) * aspect)` and
`int(float64(k) / aspect)`, with `aspect = float64(W) / float64(H)`, on positive
arguments below `2^25`: the exact quotients truncated, or one less. -/
theorem derived_floor (cv : F64 → Int) (W H k : Int) (hW : 0 < W) (hH : 0 < H) (hk : 0 < k)
    (bW : W < 2 ^ 25) (bH : H < 2 ^ 25) (bk : k < 2 ^ 25) :
    (F64.toInt cv (F64.mul (F64.ofInt k) (F64.div (F64.ofInt W) (F64.ofInt H)))
        = ⌊rnd ((k : ℚ) * rnd ((W : ℚ) / H))⌋ ∧
      ⌊rnd ((k : ℚ) * rnd ((W : ℚ) / H))⌋ * H ≤ k * W ∧
      k * W - H ≤ ⌊rnd ((k : ℚ) * rnd ((W : ℚ) / H))⌋ * H) ∧
    (F64.toInt cv (F64.div (F64.ofInt k) (F64.div (F64.ofInt W) (F64.ofInt H)))
        = ⌊rnd ((k : ℚ) / rnd ((W : ℚ) / H))⌋ ∧
      ⌊rnd ((k : ℚ) / rnd ((W : ℚ) / H))⌋ * W ≤ k * H ∧
      k * H - W ≤ ⌊rnd ((k : ℚ) / rnd ((W : ℚ) / H))⌋ * W) := by
  have hWq : (0 : ℚ) < (W : ℚ) := by exact_mod_cast hW
  have hHq : (0 : ℚ) < (H : ℚ) := by exact_mod_cast hH
  have pr : 0 < rnd ((W : ℚ) / H) := rnd_pos (div_pos hWq hHq)
  have p1 : k * W < 2 ^ 51 := by
    have : k * W < 2 ^ 25 * 2 ^ 25 := mul_lt_mul'' bk bW (le_of_lt hk) (le_of_lt hW)
    omega
  have p2 : k * H < 2 ^ 51 := by
    have : k * H < 2 ^ 25 * 2 ^ 25 := mul_lt_mul'' bk bH (le_of_lt hk) (le_of_lt hH)
    omega
  have fa := floor_mul_rnd k W H hk hW hH p1
  have fb := floor_div_rnd k W H hk hW hH p2
  have ua : ⌊rnd ((k : ℚ) * rnd ((W : ℚ) / H))⌋ ≤ 2 ^ 51 := by
    have : ⌊rnd ((k : ℚ) * rnd ((W : ℚ) / H))⌋ * 1 ≤ ⌊rnd ((k : ℚ) * rnd ((W : ℚ) / H))⌋ * H :=
      mul_le_mul_of_nonneg_left (by omega) (Int.floor_nonneg.mpr (rnd_nonneg _))
    omega
  have ub : ⌊rnd ((k : ℚ) / rnd ((W : ℚ) / H))⌋ ≤ 2 ^ 51 := by
    have : ⌊rnd ((k : ℚ) / rnd ((W : ℚ) / H))⌋ * 1 ≤ ⌊rnd ((k : ℚ) / rnd ((W : ℚ) / H))⌋ * W :=
      mul_le_mul_of_nonneg_left (by omega) (Int.floor_nonneg.mpr (rnd_nonneg _))
    omega
  have eW := ofInt_of_nonneg_small (le_of_lt hW) (by omega : W < 2 ^ 53)
  have eH := ofInt_of_nonneg_small (le_of_lt hH) (by omega : H < 2 ^ 53)
  have ek := ofInt_of_nonneg_small (le_of_lt hk) (by omega : k < 2 ^ 53)
  rw [eW, eH, ek, div_fin_pos _ hHq, mul_fin_pos, div_fin_pos _ pr,
    toInt_floor_of_le cv (rnd_nonneg _) (by decide) ua,
    toInt_floor_of_le cv (rnd_nonneg _) (by decide) ub]
  exact ⟨⟨rfl, fa⟩, ⟨rfl, fb⟩⟩

theorem ResizeImage_zero (cv : F64 → Int) (i : Image) (typ : List ResizeType) :
    ResizeImage cv i 0 0 typ = i := by
  unfold ResizeImage
  simp

/-- The image `ResizeImage` leaves when it tracks `w' x h'`. -/
theorem ResizeImage_stretch (cv : F64 → Int) (i : Image) (w h : Int) (typ : List ResizeType)
    (ht : typ = [] ∨ typ = [ResizeTypeNone]) (hwh : ¬ (w = 0 ∧ h = 0)) :
    ResizeImage cv i w h typ =
      addFilter
        (setWidthHeight i
          (if w = 0 then
            F64.toInt cv (F64.mul (F64.ofInt h) (F64.div (F64.ofInt i.Width) (F64.ofInt i.Height)))
          else w)
          (if h = 0 then
            F64.toInt cv (F64.div (F64.ofInt w) (F64.div (F64.ofInt i.Width) (F64.ofInt i.Height)))
          else h))
        "scale"
        [fmtInt (if w = 0 then
            F64.toInt cv (F64.mul (F64.ofInt h) (F64.div (F64.ofInt i.Width) (F64.ofInt i.Height)))
          else w) ++ ":" ++
          fmtInt (if h = 0 then
            F64.toInt cv (F64.div (F64.ofInt w) (F64.div (F64.ofInt i.Width) (F64.ofInt i.Height)))
          else h)] := by
  have hcases : w ≠ 0 ∨ (w = 0 ∧ h ≠ 0) := by
    by_cases hw : w = 0
    · exact Or.inr ⟨hw, fun hh => hwh ⟨hw, hh⟩⟩
    · exact Or.inl hw
  unfold ResizeImage
  rcases ht with rfl | rfl <;> rcases hcases with hw | ⟨hw, hh⟩
  · simp [hw]
  · simp [hw, hh]
  · simp [hw, ResizeTypeNone]
  · simp [hw, hh, ResizeTypeNone]

theorem derived_examples :
    ⌊rnd (((300 : ℤ) : ℚ) / rnd (((431 : ℤ) : ℚ) / ((324 : ℤ) : ℚ)))⌋ = 225 ∧
      ⌊rnd (((300 : ℤ) : ℚ) * rnd (((431 : ℤ) : ℚ) / ((324 : ℤ) : ℚ)))⌋ = 399 := by
  decide!

/-- C18, as stated, fails: the missing dimension is derived in `float64`.  On a
113 x 100 image `ResizeImage(0, 100)` tracks 112 x 100 and appends
`scale 112:100`, not the width `trunc(100 * 113 / 100) = 113`. -/
theorem resize_stretch_not_exact_quotient :
    (ResizeImage cvAmd64 (testImageOf 113 100) 0 100 []).Width = 112 ∧
      (ResizeImage cvAmd64 (testImageOf 113 100) 0 100 []).Height = 100 ∧
      (ResizeImage cvAmd64 (testImageOf 113 100) 0 100 []).Output.Filters =
        (testImageOf 113 100).Output.Filters ++ [⟨"scale", ["112:100"]⟩] ∧
      Int.tdiv (100 * 113) 100 = 113 := by
  decide!

/-- C18, amended: `ResizeImage` without a fit mode (no `ResizeType`, or
`ResizeTypeNone`) on an image tracked at positive `W x H` below `2^25`.
`ResizeImage(0, 0)` is a no-op.  Otherwise, for non-negative `w`, `h` below
`2^25`, it sets the tracked size to (w', h') and appends exactly one filter
`scale "w':h'"`, where `w' = w` if `w ≠ 0` and else `w'` is `trunc(h * W / H)` or
one less, and `h' = h` if `h ≠ 0` and else `h'` is `trunc(w * H / W)` or one less
(the derived side is computed in `float64`).  On the 431 x 324 test image
(300, 300) gives 300 x 300, (300, 0) gives 300 x 225 and (0, 300) gives
399 x 300. -/
theorem resize_stretch_sizes (cv : F64 → Int) (i : Image) (w h : Int) (typ : List ResizeType)
    (ht : typ = [] ∨ typ = [ResizeTypeNone])
    (hW : 0 < i.Width) (hH : 0 < i.Height) (bW : i.Width < 2 ^ 25) (bH : i.Height < 2 ^ 25)
    (hw : 0 ≤ w) (hh : 0 ≤ h) (bw : w < 2 ^ 25) (bh : h < 2 ^ 25) :
    ResizeImage cv i 0 0 typ = i ∧
      (¬ (w = 0 ∧ h = 0) →
        ∃ w' h' : Int,
          (w ≠ 0 → w' = w) ∧
          (w = 0 → w' = h * i.Width / i.Height ∨ w' = h * i.Width / i.Height - 1) ∧
          (h ≠ 0 → h' = h) ∧
          (h = 0 → h' = w * i.Height / i.Width ∨ h' = w * i.Height / i.Width - 1) ∧
          ResizeImage cv i w h typ =
            addFilter (setWidthHeight i w' h') "scale" [fmtInt w' ++ ":" ++ fmtInt h']) ∧
      ResizeImage cv testImage 300 300 typ =
        addFilter (setWidthHeight testImage 300 300) "scale" ["300:300"] ∧
      ResizeImage cv testImage 300 0 typ =
        addFilter (setWidthHeight testImage 300 225) "scale" ["300:225"] ∧
      ResizeImage cv testImage 0 300 typ =
        addFilter (setWidthHeight testImage 399 300) "scale" ["399:300"] := by
  refine ⟨ResizeImage_zero cv i typ, ?_, ?_, ?_, ?_⟩
  · intro hwh
    rw [ResizeImage_stretch cv i w h typ ht hwh]
    refine ⟨_, _, ?_, ?_, ?_, ?_, rfl⟩
    · intro h0; rw [if_neg h0]
    · intro h0
      have hpos : 0 < h := by
        rcases lt_or_eq_of_le hh with hlt | heq
        · exact hlt
        · exact absurd ⟨h0, heq.symm⟩ hwh
      obtain ⟨⟨e, a1, a2⟩, -⟩ := derived_floor cv i.Width i.Height h hW hH hpos bW bH bh
      rw [if_pos h0, e]
      exact eq_ediv_or_pred hH a1 a2
    · intro h0; rw [if_neg h0]
    · intro h0
      have hpos : 0 < w := by
        rcases lt_or_eq_of_le hw with hlt | heq
        · exact hlt
        · exact absurd ⟨heq.symm, h0⟩ hwh
      obtain ⟨-, ⟨e, b1, b2⟩⟩ := derived_floor cv i.Width i.Height w hW hH hpos bW bH bw
      rw [if_pos h0, e]
      exact eq_ediv_or_pred hW b1 b2
  · rw [ResizeImage_stretch cv testImage 300 300 typ ht (by decide)]
    rfl
  · rw [ResizeImage_stretch cv testImage 300 0 typ ht (by decide)]
    obtain ⟨-, ⟨e, -, -⟩⟩ := derived_floor cv testImage.Width testImage.Height 300 (by decide)
      (by decide) (by decide) (by decide) (by decide) (by decide)
    have e1 : testImage.Width = 431 := rfl
    have e2 : testImage.Height = 324 := rfl
    simp only [if_true, if_neg (show ¬ ((300 : Int) = 0) by decide)]
    rw [e, e1, e2, derived_examples.1]
    rfl
  · rw [ResizeImage_stretch cv testImage 0 300 typ ht (by decide)]
    obtain ⟨⟨e, -, -⟩, -⟩ := derived_floor cv testImage.Width testImage.Height 300 (by decide)
      (by decide) (by decide) (by decide) (by decide) (by decide)
    have e1 : testImage.Width = 431 := rfl
    have e2 : testImage.Height = 324 := rfl
    simp only [if_true, if_neg (show ¬ ((300 : Int) = 0) by decide)]
    rw [e, e1, e2, derived_examples.2]
    rfl

theorem resize_stretch_sizes_witness :
    ResizeImage cvAmd64 testImage 0 0 [] = testImage ∧
      (∃ w' h' : Int,
        ((300 : Int) ≠ 0 → w' = 300) ∧
        ((300 : Int) = 0 →
          w' = 0 * testImage.Width / testImage.Height ∨
            w' = 0 * testImage.Width / testImage.Height - 1) ∧
        ((0 : Int) ≠ 0 → h' = 0) ∧
        ((0 : Int) = 0 →
          h' = 300 * testImage.Height / testImage.Width ∨
            h' = 300 * testImage.Height / testImage.Width - 1) ∧
        ResizeImage cvAmd64 testImage 300 0 [] =
          addFilter (setWidthHeight testImage w' h') "scale" [fmtInt w' ++ ":" ++ fmtInt h']) :=
  let t := resize_stretch_sizes cvAmd64 testImage 300 0 [] (Or.inl rfl) (by decide) (by decide)
    (by decide) (by decide) (by decide) (by decide) (by decide) (by decide)
  ⟨t.1, t.2.1 (by decide)⟩

/-! ## `calcBestpad` -/

/-- On positive arguments below `2^25` the `float64` comparison of `calcBestpad`
agrees with the exact one. -/
theorem rnd_quot_lt_iff (W H w h : Int) (hW : 0 < W) (hH : 0 < H) (hw : 0 < w) (hh : 0 < h)
    (bW : W < 2 ^ 25) (bh : h < 2 ^ 25) :
    rnd ((H : ℚ) / h) < rnd ((W : ℚ) / w) ↔ H * w < W * h := by
  have hWq : (0 : ℚ) < (W : ℚ) := by exact_mod_cast hW
  have hHq : (0 : ℚ) < (H : ℚ) := by exact_mod_cast hH
  have hwq : (0 : ℚ) < (w : ℚ) := by exact_mod_cast hw
  have hhq : (0 : ℚ) < (h : ℚ) := by exact_mod_cast hh
  constructor
  · intro hlt
    by_contra hc
    have hle : W * h ≤ H * w := not_lt.mp hc
    have hleq : (W : ℚ) * h ≤ (H : ℚ) * w := by exact_mod_cast hle
    have : (W : ℚ) / w ≤ (H : ℚ) / h := by
      rw [div_le_div_iff₀ hwq hhq]; exact hleq
    exact absurd (rnd_mono this) (not_le.mpr hlt)
  · intro hlt
    have hltq : (H : ℚ) * w + 1 ≤ (W : ℚ) * h := by
      have : H * w + 1 ≤ W * h := by omega
      exact_mod_cast this
    have hWh : (W : ℚ) * h < 2 ^ 50 := by
      have : W * h < 2 ^ 25 * 2 ^ 25 := mul_lt_mul'' bW bh (le_of_lt hW) (le_of_lt hh)
      have : W * h < 2 ^ 50 := by omega
      exact_mod_cast this
    have hHw0 : (0 : ℚ) ≤ (H : ℚ) * w := le_of_lt (mul_pos hHq hwq)
    obtain ⟨-, x2⟩ := rnd_error (div_pos hHq hhq)
    obtain ⟨y1, -⟩ := rnd_error (div_pos hWq hwq)
    have key : (H : ℚ) / h + (H : ℚ) / h / 2 ^ 53 < (W : ℚ) / w - (W : ℚ) / w / 2 ^ 53 := by
      have e1 : (H : ℚ) / h + (H : ℚ) / h / 2 ^ 53
          = ((H : ℚ) * w * (1 + 1 / 2 ^ 53)) / (h * w) := by
        field_simp
        ring
      have e2 : (W : ℚ) / w - (W : ℚ) / w / 2 ^ 53
          = ((W : ℚ) * h * (1 - 1 / 2 ^ 53)) / (h * w) := by
        field_simp
        ring
      rw [e1, e2]
      apply div_lt_div_of_pos_right _ (mul_pos hhq hwq)
      have a1 : (H : ℚ) * w * (1 + 1 / 2 ^ 53) = (H : ℚ) * w + (H : ℚ) * w / 2 ^ 53 := by ring
      have a2 : (W : ℚ) * h * (1 - 1 / 2 ^ 53) = (W : ℚ) * h - (W : ℚ) * h / 2 ^ 53 := by ring
      rw [a1, a2]
      have b1 : (H : ℚ) * w / 2 ^ 53 ≤ (W : ℚ) * h / 2 ^ 53 :=
        div_le_div_of_nonneg_right (by linarith) (by positivity)
      have b2 : (W : ℚ) * h / 2 ^ 53 < 2 ^ 50 / 2 ^ 53 :=
        div_lt_div_of_pos_right hWh (by positivity)
      have b3 : (2 : ℚ) ^ 50 / 2 ^ 53 = 1 / 8 := by norm_num
      linarith
    linarith

/-- `calcBestpad` on positive arguments below `2^25`: both sides are non-negative,
the side that limits the scale is the box side or one less, the other side the
exact quotient truncated or one less. -/
theorem calcBestpad_floor_nonneg (cv : F64 → Int) (origW origH w h : Int)
    (hW : 0 < origW) (hH : 0 < origH) (hw : 0 < w) (hh : 0 < h)
    (bW : origW < 2 ^ 25) (bH : origH < 2 ^ 25) (bw : w < 2 ^ 25) (bh : h < 2 ^ 25) :
    ∃ a b : Int, calcBestpad cv origW origH w h = (a, b) ∧ (0 ≤ a ∧ 0 ≤ b) ∧
      (origH * w < origW * h →
        (a * origW ≤ origW * w ∧ origW * w - origW ≤ a * origW) ∧
        (b * origW ≤ origH * w ∧ origH * w - origW ≤ b * origW)) ∧
      (¬ (origH * w < origW * h) →
        (a * origH ≤ origW * h ∧ origW * h - origH ≤ a * origH) ∧
        (b * origH ≤ origH * h ∧ origH * h - origH ≤ b * origH)) := by
  have hWq : (0 : ℚ) < (origW : ℚ) := by exact_mod_cast hW
  have hHq : (0 : ℚ) < (origH : ℚ) := by exact_mod_cast hH
  have hwq : (0 : ℚ) < (w : ℚ) := by exact_mod_cast hw
  have hhq : (0 : ℚ) < (h : ℚ) := by exact_mod_cast hh
  have eW := ofInt_of_nonneg_small (le_of_lt hW) (by omega : origW < 2 ^ 53)
  have eH := ofInt_of_nonneg_small (le_of_lt hH) (by omega : origH < 2 ^ 53)
  have ew := ofInt_of_nonneg_small (le_of_lt hw) (by omega : w < 2 ^ 53)
  have eh := ofInt_of_nonneg_small (le_of_lt hh) (by omega : h < 2 ^ 53)
  have prod : ∀ x y : Int, 0 < x → 0 < y → x < 2 ^ 25 → y < 2 ^ 25 → x * y < 2 ^ 51 := by
    intro x y hx hy bx b_y
    have : x * y < 2 ^ 25 * 2 ^ 25 := mul_lt_mul'' bx b_y (le_of_lt hx) (le_of_lt hy)
    omega
  have small : ∀ (m : ℚ) (c n : Int), 0 < c → n < 2 ^ 51 → ⌊m⌋ * c ≤ n → 0 ≤ m →
      F64.toInt cv (.fin false m) = ⌊m⌋ := by
    intro m c n hc hn hle h0
    apply toInt_floor_of_le cv h0 (by decide : (2 : Int) ^ 51 < 2 ^ 62)
    have : ⌊m⌋ * 1 ≤ ⌊m⌋ * c :=
      mul_le_mul_of_nonneg_left (by omega) (Int.floor_nonneg.mpr h0)
    omega
  unfold calcBestpad
  rw [eW, eH, ew, eh, div_fin_pos _ hwq, div_fin_pos _ hhq, div_fin_pos _ hWq, div_fin_pos _ hHq]
  have hgt : F64.gt (.fin false (rnd ((origW : ℚ) / w))) (.fin false (rnd ((origH : ℚ) / h)))
      = decide (origH * w < origW * h) := by
    unfold F64.gt F64.val
    simp only [Bool.false_eq_true, if_false]
    rw [decide_eq_decide]
    exact rnd_quot_lt_iff origW origH w h hW hH hw hh bW bh
  simp only [hgt]
  by_cases hc : origH * w < origW * h
  · simp only [decide_eq_true hc, if_true, mul_fin_pos]
    have f1 := floor_mul_rnd origW w origW hW hw hW (prod _ _ hW hw bW bw)
    have f2 := floor_mul_rnd origH w origW hH hw hW (prod _ _ hH hw bH bw)
    rw [small _ origW _ hW (prod _ _ hW hw bW bw) f1.1 (rnd_nonneg _),
      small _ origW _ hW (prod _ _ hH hw bH bw) f2.1 (rnd_nonneg _)]
    exact ⟨_, _, rfl, ⟨Int.floor_nonneg.mpr (rnd_nonneg _), Int.floor_nonneg.mpr (rnd_nonneg _)⟩,
      fun _ => ⟨f1, f2⟩, fun hn => absurd hc hn⟩
  · simp only [decide_eq_false hc, Bool.false_eq_true, if_false, mul_fin_pos]
    have f1 := floor_mul_rnd origW h origH hW hh hH (prod _ _ hW hh bW bh)
    have f2 := floor_mul_rnd origH h origH hH hh hH (prod _ _ hH hh bH bh)
    rw [small _ origH _ hH (prod _ _ hW hh bW bh) f1.1 (rnd_nonneg _),
      small _ origH _ hH (prod _ _ hH hh bH bh) f2.1 (rnd_nonneg _)]
    exact ⟨_, _, rfl, ⟨Int.floor_nonneg.mpr (rnd_nonneg _), Int.floor_nonneg.mpr (rnd_nonneg _)⟩,
      fun hp => absurd hp hc, fun _ => ⟨f1, f2⟩⟩

/-- `calcBestpad` on positive arguments below `2^25`: the side that limits the
scale is the box side or one less, the other side the exact quotient truncated
or one less. -/
theorem calcBestpad_floor (cv : F64 → Int) (origW origH w h : Int)
    (hW : 0 < origW) (hH : 0 < origH) (hw : 0 < w) (hh : 0 < h)
    (bW : origW < 2 ^ 25) (bH : origH < 2 ^ 25) (bw : w < 2 ^ 25) (bh : h < 2 ^ 25) :
    ∃ a b : Int, calcBestpad cv origW origH w h = (a, b) ∧
      (origH * w < origW * h →
        (a * origW ≤ origW * w ∧ origW * w - origW ≤ a * origW) ∧
        (b * origW ≤ origH * w ∧ origH * w - origW ≤ b * origW)) ∧
      (¬ (origH * w < origW * h) →
        (a * origH ≤ origW * h ∧ origW * h - origH ≤ a * origH) ∧
        (b * origH ≤ origH * h ∧ origH * h - origH ≤ b * origH)) := by
  obtain ⟨a, b, e, -, p, q⟩ :=
    calcBestpad_floor_nonneg cv origW origH w h hW hH hw hh bW bH bw bh
  exact ⟨a, b, e, p, q⟩

/-- C19, as stated, fails: the scale and the products are taken in `float64`.
For a 431 x 324 source and the box 111 x 111 the exact scale is
`min(111/431, 111/324) = 111/431`, which gives
(trunc(431 * 111/431), trunc(324 * 111/431)) = (111, 83); `calcBestpad` returns
(110, 83), because the double `431 * (111 / 431)` is just below 111.  Neither
`newW = w` nor `newH = h` holds. -/
theorem bestpad_misses_box_side :
    calcBestpad cvAmd64 431 324 111 111 = (110, 83) ∧
      Int.tdiv (431 * 111) 431 = 111 ∧ Int.tdiv (324 * 111) 431 = 83 ∧
      ¬ ((110 : Int) = 111 ∨ (83 : Int) = 111) := by
  decide!

/-- C19, amended: for all positive `origW`, `origH`, `w`, `h` below `2^25`,
`calcBestpad` returns (newW, newH) where, with the exact scale
`r = min(w/origW, h/origH)`, `newW` is `trunc(origW * r)` or one less and `newH`
is `trunc(origH * r)` or one less: when `w/origW < h/origH`, `newW` is `w` or
`w - 1` and `newH` is `trunc(origH * w / origW)` or one less; otherwise `newW` is
`trunc(origW * h / origH)` or one less and `newH` is `h` or `h - 1`.  So
`newW ≤ w`, `newH ≤ h`, and at least one of `newW ≥ w - 1`, `newH ≥ h - 1`
holds. -/
theorem bestpad_within_one_pixel (cv : F64 → Int) (origW origH w h : Int)
    (hW : 0 < origW) (hH : 0 < origH) (hw : 0 < w) (hh : 0 < h)
    (bW : origW < 2 ^ 25) (bH : origH < 2 ^ 25) (bw : w < 2 ^ 25) (bh : h < 2 ^ 25) :
    (origH * w < origW * h →
        ((calcBestpad cv origW origH w h).1 = w ∨ (calcBestpad cv origW origH w h).1 = w - 1) ∧
        ((calcBestpad cv origW origH w h).2 = origH * w / origW ∨
          (calcBestpad cv origW origH w h).2 = origH * w / origW - 1)) ∧
      (¬ (origH * w < origW * h) →
        ((calcBestpad cv origW origH w h).1 = origW * h / origH ∨
          (calcBestpad cv origW origH w h).1 = origW * h / origH - 1) ∧
        ((calcBestpad cv origW origH w h).2 = h ∨ (calcBestpad cv origW origH w h).2 = h - 1)) ∧
      (calcBestpad cv origW origH w h).1 ≤ w ∧ (calcBestpad cv origW origH w h).2 ≤ h ∧
      (w - 1 ≤ (calcBestpad cv origW origH w h).1 ∨
        h - 1 ≤ (calcBestpad cv origW origH w h).2) := by
  obtain ⟨a, b, e, hlt, hge⟩ := calcBestpad_floor cv origW origH w h hW hH hw hh bW bH bw bh
  rw [e]
  simp only
  by_cases hc : origH * w < origW * h
  · obtain ⟨⟨a1, a2⟩, ⟨b1, b2⟩⟩ := hlt hc
    have ca := eq_ediv_or_pred hW a1 a2
    rw [Int.mul_ediv_cancel_left _ (ne_of_gt hW)] at ca
    have cb := eq_ediv_or_pred hW b1 b2
    have bh' : b < h := by
      have : b * origW < h * origW := by
        have : origW * h = h * origW := mul_comm _ _
        omega
      exact lt_of_mul_lt_mul_right this (le_of_lt hW)
    refine ⟨fun _ => ⟨ca, cb⟩, fun hn => absurd hc hn, ?_, le_of_lt bh', ?_⟩
    · rcases ca with r | r <;> omega
    · left; rcases ca with r | r <;> omega
  · obtain ⟨⟨a1, a2⟩, ⟨b1, b2⟩⟩ := hge hc
    have ca := eq_ediv_or_pred hH a1 a2
    have cb := eq_ediv_or_pred hH b1 b2
    rw [Int.mul_ediv_cancel_left _ (ne_of_gt hH)] at cb
    have aw : a ≤ w := by
      have : a * origH ≤ w * origH := by
        have : origH * w = w * origH := mul_comm _ _
        omega
      exact le_of_mul_le_mul_right this hH
    refine ⟨fun hp => absurd hp hc, fun _ => ⟨ca, cb⟩, aw, ?_, ?_⟩
    · rcases cb with r | r <;> omega
    · right; rcases cb with r | r <;> omega

theorem bestpad_within_one_pixel_witness :
    (((calcBestpad cvAmd64 431 324 300 300).1 = 300 ∨
          (calcBestpad cvAmd64 431 324 300 300).1 = 300 - 1) ∧
        ((calcBestpad cvAmd64 431 324 300 300).2 = 324 * 300 / 431 ∨
          (calcBestpad cvAmd64 431 324 300 300).2 = 324 * 300 / 431 - 1)) ∧
      (calcBestpad cvAmd64 431 324 300 300).1 ≤ 300 ∧
      (calcBestpad cvAmd64 431 324 300 300).2 ≤ 300 ∧
      ((300 : Int) - 1 ≤ (calcBestpad cvAmd64 431 324 300 300).1 ∨
        (300 : Int) - 1 ≤ (calcBestpad cvAmd64 431 324 300 300).2) :=
  let t := bestpad_within_one_pixel cvAmd64 431 324 300 300 (by decide) (by decide) (by decide)
    (by decide) (by decide) (by decide) (by decide) (by decide)
  ⟨t.1 (by decide), t.2.2.1, t.2.2.2.1, t.2.2.2.2⟩

/-! ## The anchor table -/

theorem absInt_sub64 (cv : F64 → Int) {a b : Int} (h0 : -2 ^ 53 < a - b) (h1 : a - b < 2 ^ 53) :
    absInt cv (sub64 a b) = |a - b| := by
  unfold sub64
  rw [wrap64_of_range (by omega) (by omega), absInt_small cv h0 h1]

theorem absInt_zero (cv : F64 → Int) : absInt cv 0 = 0 := by
  rw [absInt_small cv (by decide) (by decide)]
  rfl

/-- `calcPosition` is the exact anchor table when the arguments and the differences
`origW - w`, `origH - h` have magnitude below `2^53`. -/
theorem calcPosition_eq_anchorOffset (cv : F64 → Int) (origW origH w h : Int)
    (pos : PositionType)
    (hW : -2 ^ 53 < origW ∧ origW < 2 ^ 53) (hH : -2 ^ 53 < origH ∧ origH < 2 ^ 53)
    (hw : -2 ^ 53 < w ∧ w < 2 ^ 53) (hh : -2 ^ 53 < h ∧ h < 2 ^ 53)
    (dW : -2 ^ 53 < origW - w ∧ origW - w < 2 ^ 53)
    (dH : -2 ^ 53 < origH - h ∧ origH - h < 2 ^ 53) :
    calcPosition cv origW origH w h pos = anchorOffset origW origH w h pos := by
  obtain ⟨a1, a2⟩ := tdiv_two_bounds hW.1 hW.2
  obtain ⟨b1, b2⟩ := tdiv_two_bounds hH.1 hH.2
  obtain ⟨c1, c2⟩ := tdiv_two_bounds hw.1 hw.2
  obtain ⟨d1, d2⟩ := tdiv_two_bounds hh.1 hh.2
  have ex := absInt_sub64 cv (a := origW.tdiv 2) (b := w.tdiv 2) (by omega) (by omega)
  have ey := absInt_sub64 cv (a := origH.tdiv 2) (b := h.tdiv 2) (by omega) (by omega)
  have rx := absInt_sub64 cv dW.1 dW.2
  have ry := absInt_sub64 cv dH.1 dH.2
  have z := absInt_zero cv
  unfold calcPosition anchorOffset
  by_cases h1 : pos = PositionTypeTopLeft
  · simp only [if_pos h1]
  simp only [if_neg h1]
  by_cases h2 : pos = PositionTypeTop
  · simp only [if_pos h2, ex, z]
  simp only [if_neg h2]
  by_cases h3 : pos = PositionTypeTopRight
  · simp only [if_pos h3, rx, z]
  simp only [if_neg h3]
  by_cases h4 : pos = PositionTypeLeft
  · simp only [if_pos h4, ey, z]
  simp only [if_neg h4]
  by_cases h5 : pos = PositionTypeCenter
  · simp only [if_pos h5, ex, ey]
  simp only [if_neg h5]
  by_cases h6 : pos = PositionTypeRight
  · simp only [if_pos h6, rx, ey]
  simp only [if_neg h6]
  by_cases h7 : pos = PositionTypeBottomLeft
  · simp only [if_pos h7, ry, z]
  simp only [if_neg h7]
  by_cases h8 : pos = PositionTypeBottom
  · simp only [if_pos h8, ex, ry]
  simp only [if_neg h8]
  by_cases h9 : pos = PositionTypeBottomRight
  · simp only [if_pos h9, rx, ry]
  simp only [if_neg h9, z]

theorem anchorOffset_fst (origW origH w h : Int) (pos : PositionType) :
    (anchorOffset origW origH w h pos).1 = 0 ∨
      (anchorOffset origW origH w h pos).1 = |origW.tdiv 2 - w.tdiv 2| ∨
      (anchorOffset origW origH w h pos).1 = |origW - w| := by
  unfold anchorOffset
  split_ifs <;> simp

theorem anchorOffset_snd (origW origH w h : Int) (pos : PositionType) :
    (anchorOffset origW origH w h pos).2 = 0 ∨
      (anchorOffset origW origH w h pos).2 = |origH.tdiv 2 - h.tdiv 2| ∨
      (anchorOffset origW origH w h pos).2 = |origH - h| := by
  unfold anchorOffset
  split_ifs <;> simp

theorem anchorOffset_nonneg (origW origH w h : Int) (pos : PositionType) :
    0 ≤ (anchorOffset origW origH w h pos).1 ∧ 0 ≤ (anchorOffset origW origH w h pos).2 := by
  constructor
  · rcases anchorOffset_fst origW origH w h pos with e | e | e <;> rw [e] <;>
      exact abs_nonneg _
  · rcases anchorOffset_snd origW origH w h pos with e | e | e <;> rw [e] <;>
      exact abs_nonneg _

/-- The rows and columns of the exact anchor table. -/
theorem anchorOffset_table (origW origH w h : Int) :
    anchorOffset origW origH w h PositionTypeTopLeft = (0, 0) ∧
      anchorOffset origW origH w h PositionTypeNone = (0, 0) ∧
      (anchorOffset origW origH w h PositionTypeLeft).1 = 0 ∧
      (anchorOffset origW origH w h PositionTypeBottomLeft).1 = 0 ∧
      (anchorOffset origW origH w h PositionTypeTopRight).1 = |origW - w| ∧
      (anchorOffset origW origH w h PositionTypeRight).1 = |origW - w| ∧
      (anchorOffset origW origH w h PositionTypeBottomRight).1 = |origW - w| ∧
      (anchorOffset origW origH w h PositionTypeTop).2 = 0 ∧
      (anchorOffset origW origH w h PositionTypeTopRight).2 = 0 ∧
      (anchorOffset origW origH w h PositionTypeBottomLeft).2 = |origH - h| ∧
      (anchorOffset origW origH w h PositionTypeBottom).2 = |origH - h| ∧
      (anchorOffset origW origH w h PositionTypeBottomRight).2 = |origH - h| := by
  refine ⟨?_, ?_, ?_, ?_, ?_, ?_, ?_, ?_, ?_, ?_, ?_, ?_⟩ <;>
    simp [anchorOffset, PositionTypeNone, PositionTypeTopLeft, PositionTypeTop,
      PositionTypeTopRight, PositionTypeLeft, PositionTypeCenter, PositionTypeRight,
      PositionTypeBottomLeft, PositionTypeBottom, PositionTypeBottomRight]

/-- One axis of the containment property: a side `a` placed inside a side `b`, at any
of the three offsets of the table, ends within `b`. -/
theorem axis_fits {a b : Int} (h0 : 0 ≤ a) (hab : a ≤ b) :
    |b.tdiv 2 - a.tdiv 2| + a ≤ b ∧ |a.tdiv 2 - b.tdiv 2| + a ≤ b ∧
      |b - a| + a ≤ b ∧ |a - b| + a ≤ b := by
  rw [Int.tdiv_eq_ediv h0 (by decide), Int.tdiv_eq_ediv (le_trans h0 hab) (by decide)]
  have e1 : |b / 2 - a / 2| = b / 2 - a / 2 := abs_of_nonneg (by omega)
  have e2 : |a / 2 - b / 2| = b / 2 - a / 2 := by rw [abs_sub_comm]; exact e1
  have e3 : |b - a| = b - a := abs_of_nonneg (by omega)
  have e4 : |a - b| = b - a := by rw [abs_sub_comm]; exact e3
  rw [e1, e2, e3, e4]
  omega

theorem anchorOffset_inside (origW origH w h : Int) (pos : PositionType)
    (hW : 0 ≤ origW) (hH : 0 ≤ origH) (hw : 0 ≤ w) (hh : 0 ≤ h) :
    (w ≤ origW → h ≤ origH →
        (anchorOffset origW origH w h pos).1 + w ≤ origW ∧
          (anchorOffset origW origH w h pos).2 + h ≤ origH) ∧
      (origW ≤ w → origH ≤ h →
        (anchorOffset origW origH w h pos).1 + origW ≤ w ∧
          (anchorOffset origW origH w h pos).2 + origH ≤ h) := by
  refine ⟨fun a b => ⟨?_, ?_⟩, fun a b => ⟨?_, ?_⟩⟩
  · obtain ⟨p, _, q, _⟩ := axis_fits hw a
    rcases anchorOffset_fst origW origH w h pos with e | e | e <;> rw [e]
    · omega
    · exact p
    · exact q
  · obtain ⟨p, _, q, _⟩ := axis_fits hh b
    rcases anchorOffset_snd origW origH w h pos with e | e | e <;> rw [e]
    · omega
    · exact p
    · exact q
  · obtain ⟨_, p, _, q⟩ := axis_fits hW a
    rcases anchorOffset_fst origW origH w h pos with e | e | e <;> rw [e]
    · omega
    · exact p
    · exact q
  · obtain ⟨_, p, _, q⟩ := axis_fits hH b
    rcases anchorOffset_snd origW origH w h pos with e | e | e <;> rw [e]
    · omega
    · exact p
    · exact q

/-- C21, as stated, fails.  The magnitude is taken in `float64` and converted back:
for `origW = -2^63` and `w = 0` the right column's offset is `2^63` as a double,
outside the integers, and on amd64 the conversion gives `-2^63`, a negative `x`;
for `origW = 2^53 + 1` and `w = 0` the offset is `2^53`, not `|origW - w|`. -/
theorem anchor_table_breaks_on_large_values :
    (calcPosition cvAmd64 (-9223372036854775808) 0 0 0 PositionTypeTopRight).1 < 0 ∧
      (calcPosition cvAmd64 9007199254740993 0 0 0 PositionTypeTopRight).1
        = 9007199254740992 ∧
      ¬ ((calcPosition cvAmd64 9007199254740993 0 0 0 PositionTypeTopRight).1
        = |9007199254740993 - 0|) := by
  decide!

/-- C21, amended: when the four arguments have magnitude below `2^52`, `calcPosition`
returns `x ≥ 0` and `y ≥ 0` for every anchor; `PositionTypeTopLeft` and
`PositionTypeNone` give `(0, 0)`; the left column has `x = 0`, the right column
`x = |origW - w|`, the top row `y = 0`, the bottom row `y = |origH - h|`. -/
theorem anchor_table (cv : F64 → Int) (origW origH w h : Int)
    (hW : -2 ^ 52 < origW ∧ origW < 2 ^ 52) (hH : -2 ^ 52 < origH ∧ origH < 2 ^ 52)
    (hw : -2 ^ 52 < w ∧ w < 2 ^ 52) (hh : -2 ^ 52 < h ∧ h < 2 ^ 52) :
    (∀ pos : PositionType, 0 ≤ (calcPosition cv origW origH w h pos).1 ∧
        0 ≤ (calcPosition cv origW origH w h pos).2) ∧
      calcPosition cv origW origH w h PositionTypeTopLeft = (0, 0) ∧
      calcPosition cv origW origH w h PositionTypeNone = (0, 0) ∧
      (calcPosition cv origW origH w h PositionTypeLeft).1 = 0 ∧
      (calcPosition cv origW origH w h PositionTypeBottomLeft).1 = 0 ∧
      (calcPosition cv origW origH w h PositionTypeTopRight).1 = |origW - w| ∧
      (calcPosition cv origW origH w h PositionTypeRight).1 = |origW - w| ∧
      (calcPosition cv origW origH w h PositionTypeBottomRight).1 = |origW - w| ∧
      (calcPosition cv origW origH w h PositionTypeTop).2 = 0 ∧
      (calcPosition cv origW origH w h PositionTypeTopRight).2 = 0 ∧
      (calcPosition cv origW origH w h PositionTypeBottomLeft).2 = |origH - h| ∧
      (calcPosition cv origW origH w h PositionTypeBottom).2 = |origH - h| ∧
      (calcPosition cv origW origH w h PositionTypeBottomRight).2 = |origH - h| := by
  have e : ∀ pos : PositionType,
      calcPosition cv origW origH w h pos = anchorOffset origW origH w h pos := fun pos =>
    calcPosition_eq_anchorOffset cv origW origH w h pos ⟨by omega, by omega⟩
      ⟨by omega, by omega⟩ ⟨by omega, by omega⟩ ⟨by omega, by omega⟩
      ⟨by omega, by omega⟩ ⟨by omega, by omega⟩
  simp only [e]
  exact ⟨fun pos => anchorOffset_nonneg origW origH w h pos, anchorOffset_table origW origH w h⟩

theorem anchor_table_witness :
    (∀ pos : PositionType, 0 ≤ (calcPosition cvAmd64 431 324 100 50 pos).1 ∧
        0 ≤ (calcPosition cvAmd64 431 324 100 50 pos).2) ∧
      calcPosition cvAmd64 431 324 100 50 PositionTypeTopLeft = (0, 0) ∧
      calcPosition cvAmd64 431 324 100 50 PositionTypeNone = (0, 0) ∧
      (calcPosition cvAmd64 431 324 100 50 PositionTypeLeft).1 = 0 ∧
      (calcPosition cvAmd64 431 324 100 50 PositionTypeBottomLeft).1 = 0 ∧
      (calcPosition cvAmd64 431 324 100 50 PositionTypeTopRight).1 = |431 - 100| ∧
      (calcPosition cvAmd64 431 324 100 50 PositionTypeRight).1 = |431 - 100| ∧
      (calcPosition cvAmd64 431 324 100 50 PositionTypeBottomRight).1 = |431 - 100| ∧
      (calcPosition cvAmd64 431 324 100 50 PositionTypeTop).2 = 0 ∧
      (calcPosition cvAmd64 431 324 100 50 PositionTypeTopRight).2 = 0 ∧
      (calcPosition cvAmd64 431 324 100 50 PositionTypeBottomLeft).2 = |324 - 50| ∧
      (calcPosition cvAmd64 431 324 100 50 PositionTypeBottom).2 = |324 - 50| ∧
      (calcPosition cvAmd64 431 324 100 50 PositionTypeBottomRight).2 = |324 - 50| :=
  anchor_table cvAmd64 431 324 100 50 (by decide) (by decide) (by decide) (by decide)

/-- C25, as stated, fails.  With `origW = 2^53 + 3` and `w = 0` the right column's
offset is the double nearest to `2^53 + 3`, which is `2^53 + 4`: the region fits the
canvas on both axes, yet `x + w` exceeds `origW`. -/
theorem anchor_leaves_canvas_on_large_values :
    (0 : Int) ≤ 9007199254740995 ∧
      (calcPosition cvAmd64 9007199254740995 0 0 0 PositionTypeBottomRight).1
        = 9007199254740996 ∧
      ¬ ((calcPosition cvAmd64 9007199254740995 0 0 0 PositionTypeBottomRight).1 + 0
        ≤ 9007199254740995) := by
  decide!

/-- C25, amended: for non-negative arguments below `2^53` and every anchor, a region
that fits the canvas on both axes stays inside it (`x + w ≤ origW`, `y + h ≤ origH`),
and a canvas that fits the region on both axes stays inside the region
(`x + origW ≤ w`, `y + origH ≤ h`). -/
theorem anchor_keeps_inside (cv : F64 → Int) (origW origH w h : Int) (pos : PositionType)
    (hW : 0 ≤ origW ∧ origW < 2 ^ 53) (hH : 0 ≤ origH ∧ origH < 2 ^ 53)
    (hw : 0 ≤ w ∧ w < 2 ^ 53) (hh : 0 ≤ h ∧ h < 2 ^ 53) :
    (w ≤ origW → h ≤ origH →
        (calcPosition cv origW origH w h pos).1 + w ≤ origW ∧
          (calcPosition cv origW origH w h pos).2 + h ≤ origH) ∧
      (origW ≤ w → origH ≤ h →
        (calcPosition cv origW origH w h pos).1 + origW ≤ w ∧
          (calcPosition cv origW origH w h pos).2 + origH ≤ h) := by
  rw [calcPosition_eq_anchorOffset cv origW origH w h pos ⟨by omega, by omega⟩
    ⟨by omega, by omega⟩ ⟨by omega, by omega⟩ ⟨by omega, by omega⟩
    ⟨by omega, by omega⟩ ⟨by omega, by omega⟩]
  exact anchorOffset_inside origW origH w h pos hW.1 hH.1 hw.1 hh.1

theorem anchor_keeps_inside_witness :
    (calcPosition cvAmd64 431 324 100 50 PositionTypeBottom).1 + 100 ≤ 431 ∧
      (calcPosition cvAmd64 431 324 100 50 PositionTypeBottom).2 + 50 ≤ 324 ∧
      (calcPosition cvAmd64 100 50 431 324 PositionTypeRight).1 + 100 ≤ 431 ∧
      (calcPosition cvAmd64 100 50 431 324 PositionTypeRight).2 + 50 ≤ 324 :=
  ⟨((anchor_keeps_inside cvAmd64 431 324 100 50 PositionTypeBottom (by decide) (by decide)
      (by decide) (by decide)).1 (by decide) (by decide)).1,
    ((anchor_keeps_inside cvAmd64 431 324 100 50 PositionTypeBottom (by decide) (by decide)
      (by decide) (by decide)).1 (by decide) (by decide)).2,
    ((anchor_keeps_inside cvAmd64 100 50 431 324 PositionTypeRight (by decide) (by decide)
      (by decide) (by decide)).2 (by decide) (by decide)).1,
    ((anchor_keeps_inside cvAmd64 100 50 431 324 PositionTypeRight (by decide) (by decide)
      (by decide) (by decide)).2 (by decide) (by decide)).2⟩

/-! ## Output format and append-only filters -/

theorem SetImageFormat_static (i : Image) (f : ImageFormat)
    (hf : f = ImageFormatJPEG ∨ f = ImageFormatPNG ∨ f = ImageFormatBMP) :
    SetImageFormat i f =
      { DropFrames i with Output := { (DropFrames i).Output with Format := f } } := by
  unfold SetImageFormat
  simp only [if_pos hf]

theorem SetImageFormat_other (i : Image) (f : ImageFormat)
    (hf : ¬ (f = ImageFormatJPEG ∨ f = ImageFormatPNG ∨ f = ImageFormatBMP)) :
    SetImageFormat i f = { i with Output := { i.Output with Format := f } } := by
  unfold SetImageFormat
  simp only [if_neg hf]

theorem SetImageFormat_Args (i : Image) (f : ImageFormat) :
    (SetImageFormat i f).Output.Args = i.Output.Args ++ [[("vframes", .int 1)]] ↔
      (f = ImageFormatJPEG ∨ f = ImageFormatPNG ∨ f = ImageFormatBMP) := by
  by_cases hf : f = ImageFormatJPEG ∨ f = ImageFormatPNG ∨ f = ImageFormatBMP
  · rw [SetImageFormat_static i f hf]
    exact iff_of_true rfl hf
  · rw [SetImageFormat_other i f hf]
    refine iff_of_false ?_ hf
    intro e
    have l := congrArg List.length e
    simp at l

/-- C22: `SetImageFormat(f)` sets `Output.Format` to `f`; it appends the argument
`vframes = 1`, which is the effect of `DropFrames`, if and only if `f` is JPEG, PNG
or BMP, and otherwise leaves the argument list unchanged; the filter list and the
tracked size are unchanged in either case. -/
theorem set_format_drops_frames_for_static (i : Image) (f : ImageFormat) :
    (SetImageFormat i f).Output.Format = f ∧
      ((SetImageFormat i f).Output.Args = i.Output.Args ++ [[("vframes", .int 1)]] ↔
        (f = ImageFormatJPEG ∨ f = ImageFormatPNG ∨ f = ImageFormatBMP)) ∧
      ((f = ImageFormatJPEG ∨ f = ImageFormatPNG ∨ f = ImageFormatBMP) →
        SetImageFormat i f =
          { DropFrames i with Output := { (DropFrames i).Output with Format := f } }) ∧
      (¬ (f = ImageFormatJPEG ∨ f = ImageFormatPNG ∨ f = ImageFormatBMP) →
        (SetImageFormat i f).Output.Args = i.Output.Args ∧
          SetImageFormat i f = { i with Output := { i.Output with Format := f } }) ∧
      (SetImageFormat i f).Output.Filters = i.Output.Filters ∧
      (SetImageFormat i f).Width = i.Width ∧ (SetImageFormat i f).Height = i.Height := by
  refine ⟨?_, SetImageFormat_Args i f, SetImageFormat_static i f, ?_, ?_, ?_, ?_⟩
  · unfold SetImageFormat; rfl
  · intro hf
    rw [SetImageFormat_other i f hf]
    exact ⟨rfl, rfl⟩
  all_goals
    by_cases hf : f = ImageFormatJPEG ∨ f = ImageFormatPNG ∨ f = ImageFormatBMP
    · rw [SetImageFormat_static i f hf]; rfl
    · rw [SetImageFormat_other i f hf]

theorem set_format_drops_frames_for_static_witness :
    (SetImageFormat testImage ImageFormatJPEG).Output.Args =
        testImage.Output.Args ++ [[("vframes", .int 1)]] ∧
      (SetImageFormat testImage ImageFormatGIF).Output.Args = testImage.Output.Args :=
  ⟨(set_format_drops_frames_for_static testImage ImageFormatJPEG).2.1.2 (Or.inl rfl),
    ((set_format_drops_frames_for_static testImage ImageFormatGIF).2.2.2.1 (by decide)).1⟩

/-- C23: `suffixToFormat` maps `.png` to PNG, `.apng` to APNG, `.jpg` and `.jpeg` to
JPEG, `.gif` to GIF, `.webp` to WEBP, `.avif` to AVIF, `.bmp` to BMP and `.jxl` to
JPEGXL, and every other string, the empty string and upper-case variants among
them, to the unresolved format. -/
theorem suffix_table :
    suffixToFormat ".png" = ImageFormatPNG ∧
      suffixToFormat ".apng" = ImageFormatAPNG ∧
      suffixToFormat ".jpg" = ImageFormatJPEG ∧
      suffixToFormat ".jpeg" = ImageFormatJPEG ∧
      suffixToFormat ".gif" = ImageFormatGIF ∧
      suffixToFormat ".webp" = ImageFormatWEBP ∧
      suffixToFormat ".avif" = ImageFormatAVIF ∧
      suffixToFormat ".bmp" = ImageFormatBMP ∧
      suffixToFormat ".jxl" = ImageFormatJPEGXL ∧
      (∀ ext : String,
        ext ∉ [".png", ".apng", ".jpg", ".jpeg", ".gif", ".webp", ".avif", ".bmp", ".jxl"] →
        suffixToFormat ext = ImageFormatUnknown) ∧
      suffixToFormat "" = ImageFormatUnknown ∧
      suffixToFormat ".PNG" = ImageFormatUnknown ∧
      suffixToFormat ".JPG" = ImageFormatUnknown := by
  refine ⟨by decide, by decide, by decide, by decide, by decide, by decide, by decide,
    by decide, by decide, ?_, by decide, by decide, by decide⟩
  intro ext h
  simp only [List.mem_cons, List.mem_singleton, List.not_mem_nil, or_false, not_or] at h
  obtain ⟨h1, h2, h3, h4, h5, h6, h7, h8, h9⟩ := h
  unfold suffixToFormat
  rw [if_neg h1, if_neg h2, if_neg (not_or.mpr ⟨h3, h4⟩), if_neg h5, if_neg h6, if_neg h7,
    if_neg h8, if_neg h9]

theorem suffix_table_witness : suffixToFormat ".Jpeg" = ImageFormatUnknown :=
  suffix_table.2.2.2.2.2.2.2.2.2.1 ".Jpeg" (by decide)

theorem ResizeImage_Filters_kept (cv : F64 → Int) (i : Image) (w h : Int)
    (typ : List ResizeType) :
    i.Output.Filters <+: (ResizeImage cv i w h typ).Output.Filters := by
  unfold ResizeImage
  simp only
  by_cases h0 : w = 0 ∧ h = 0
  · rw [if_pos h0]
  · rw [if_neg h0]
    exact List.prefix_append _ _

theorem SetImageFormat_Filters (i : Image) (f : ImageFormat) :
    (SetImageFormat i f).Output.Filters = i.Output.Filters := by
  unfold SetImageFormat
  simp only
  split_ifs <;> rfl

theorem Call.apply_Filters_kept (cv : F64 → Int) (i : Image) (c : Call) :
    i.Output.Filters <+: (c.apply cv i).Output.Filters := by
  cases c with
  | resize w h typ => exact ResizeImage_Filters_kept cv i w h typ
  | extent w h x y pos => exact List.prefix_append _ _
  | crop w h x y pos => exact List.prefix_append _ _
  | cropThumbnail w h =>
    exact (ResizeImage_Filters_kept cv i w h [ResizeTypeUpscale]).trans
      (List.prefix_append _ _)
  | thumbnail w h =>
    exact (ResizeImage_Filters_kept cv i _ _ [ResizeTypeDownscale]).trans
      (List.prefix_append _ _)
  | rotate d => exact List.prefix_append _ _
  | flip => exact List.prefix_append _ _
  | flop => exact List.prefix_append _ _
  | setBackgroundColor c => exact List.prefix_refl _
  | setLoop n => exact List.prefix_refl _
  | setQuality q => exact List.prefix_refl _
  | setImageFramerate fps => exact List.prefix_refl _
  | dropFrames => exact List.prefix_refl _
  | setImageFormat f =>
    show i.Output.Filters <+: (SetImageFormat i f).Output.Filters
    rw [SetImageFormat_Filters]
  | preserveEXIF => exact List.prefix_refl _

theorem runCalls_Filters_kept (cv : F64 → Int) (cs : List Call) :
    ∀ i : Image, i.Output.Filters <+: (runCalls cv i cs).Output.Filters := by
  induction cs with
  | nil => intro i; exact List.prefix_refl _
  | cons c cs ih =>
    intro i
    exact (Call.apply_Filters_kept cv i c).trans (ih (c.apply cv i))

/-- C24: filters are append-only.  For every builder method (`ResizeImage`,
`ExtentImage`, `CropImage`, `CropThumbnailImage`, `ThumbnailImage`, `RotateImage`,
`FlipImage`, `FlopImage` and every setter) and every argument, the filter list
before the call is a prefix of the filter list after the call, so no filter is
removed, reordered or merged; the same holds along any sequence of calls. -/
theorem filters_append_only (cv : F64 → Int) (i : Image) :
    (∀ (w h : Int) (typ : List ResizeType),
        i.Output.Filters <+: (ResizeImage cv i w h typ).Output.Filters) ∧
      (∀ (w h x y : Int) (pos : List PositionType),
        i.Output.Filters <+: (ExtentImage cv i w h x y pos).Output.Filters ∧
          i.Output.Filters <+: (CropImage cv i w h x y pos).Output.Filters) ∧
      (∀ w h : Int,
        i.Output.Filters <+: (CropThumbnailImage cv i w h).Output.Filters ∧
          i.Output.Filters <+: (ThumbnailImage cv i w h).Output.Filters) ∧
      (∀ degree : Int, i.Output.Filters <+: (RotateImage i degree).Output.Filters) ∧
      i.Output.Filters <+: (FlipImage i).Output.Filters ∧
      i.Output.Filters <+: (FlopImage i).Output.Filters ∧
      (∀ c : Call, i.Output.Filters <+: (c.apply cv i).Output.Filters) ∧
      (∀ cs : List Call, i.Output.Filters <+: (runCalls cv i cs).Output.Filters) :=
  ⟨fun w h typ => Call.apply_Filters_kept cv i (.resize w h typ),
    fun w h x y pos => ⟨Call.apply_Filters_kept cv i (.extent w h x y pos),
      Call.apply_Filters_kept cv i (.crop w h x y pos)⟩,
    fun w h => ⟨Call.apply_Filters_kept cv i (.cropThumbnail w h),
      Call.apply_Filters_kept cv i (.thumbnail w h)⟩,
    fun d => Call.apply_Filters_kept cv i (.rotate d),
    Call.apply_Filters_kept cv i .flip,
    Call.apply_Filters_kept cv i .flop,
    fun c => Call.apply_Filters_kept cv i c,
    fun cs => runCalls_Filters_kept cv cs i⟩

/-- C26, as stated, fails.  On a 1 x 1 image with the box `2^53 + 1` square,
`CropThumbnailImage` scales to `2^53` x `2^53 + 1`: the aspect-derived width is
taken in `float64`, where `2^53 + 1` is not a value, so the scaled image is one
pixel narrower than the box it is cropped to. -/
theorem crop_thumbnail_narrower_than_box :
    (CropThumbnailImage cvAmd64 (testImageOf 1 1) 9007199254740993
        9007199254740993).Output.Filters =
      (testImageOf 1 1).Output.Filters ++
        [⟨"scale", ["9007199254740992:9007199254740993"]⟩,
          ⟨"crop", ["9007199254740993:9007199254740993:0:0"]⟩] ∧
      ¬ ((9007199254740992 : Int) ≥ 9007199254740993) := by
  decide!

/-- C27, as stated, fails.  On a 49 x 49 image, `ThumbnailImage(1, 1)` appends the
pad filter alone: `calcBestpad` returns (0, 0), because the double `49 * (1 / 49)`
is just below 1, and `ResizeImage(0, 0)` does nothing.  On a 1 x 1 image with the
box `2^53 + 3` square the scale filter is `2^53 + 4` square, larger than the box. -/
theorem thumbnail_without_scale_or_beyond_box :
    calcBestpad cvAmd64 49 49 1 1 = (0, 0) ∧
      (ThumbnailImage cvAmd64 (testImageOf 49 49) 1 1).Output.Filters =
        (testImageOf 49 49).Output.Filters ++ [⟨"pad", ["1:1:0:0:black"]⟩] ∧
      (ThumbnailImage cvAmd64 (testImageOf 1 1) 9007199254740995
          9007199254740995).Output.Filters =
        (testImageOf 1 1).Output.Filters ++
          [⟨"scale", ["9007199254740996:9007199254740996"]⟩,
            ⟨"pad", ["9007199254740995:9007199254740995:1:1:black"]⟩] ∧
      ¬ ((9007199254740996 : Int) ≤ 9007199254740995) := by
  decide!

/-! ## Thumbnails -/

/-- The upscale fit of a positive box below `2^25` covers the box and stays below
`2^50`. -/
theorem calcBestfit_upscale_range (cv : F64 → Int) (origW origH w h : Int)
    (hW : 0 < origW) (hH : 0 < origH) (hw : 0 < w) (hh : 0 < h)
    (bW : origW < 2 ^ 25) (bH : origH < 2 ^ 25) (bw : w < 2 ^ 25) (bh : h < 2 ^ 25) :
    (w ≤ (calcBestfit cv origW origH w h ResizeTypeUpscale).1 ∧
        (calcBestfit cv origW origH w h ResizeTypeUpscale).1 < 2 ^ 50) ∧
      (h ≤ (calcBestfit cv origW origH w h ResizeTypeUpscale).2 ∧
        (calcBestfit cv origW origH w h ResizeTypeUpscale).2 < 2 ^ 50) := by
  obtain ⟨g1, g2⟩ := calcBestfit_upscale_ge cv origW origH w h hW hH hw hh
    (by omega) (by omega) (by omega) (by omega)
  obtain ⟨a, b, -, ⟨a1, -⟩, ⟨b1, -⟩, e⟩ :=
    calcBestfit_floor cv origW origH w h ResizeTypeUpscale hW hH hw hh bW bH bw bh
  have pa : a < 2 ^ 50 := by
    have h1 : a * 1 ≤ a * origH ∨ a < 0 := by
      rcases le_or_lt 0 a with p | p
      · exact Or.inl (mul_le_mul_of_nonneg_left (by omega) p)
      · exact Or.inr p
    have h2 : h * origW < 2 ^ 25 * 2 ^ 25 := mul_lt_mul'' bh bW (le_of_lt hh) (le_of_lt hW)
    rcases h1 with p | p <;> omega
  have pb : b < 2 ^ 50 := by
    have h1 : b * 1 ≤ b * origW ∨ b < 0 := by
      rcases le_or_lt 0 b with p | p
      · exact Or.inl (mul_le_mul_of_nonneg_left (by omega) p)
      · exact Or.inr p
    have h2 : w * origH < 2 ^ 25 * 2 ^ 25 := mul_lt_mul'' bw bH (le_of_lt hw) (le_of_lt hH)
    rcases h1 with p | p <;> omega
  refine ⟨⟨g1, ?_⟩, ⟨g2, ?_⟩⟩
  · rw [e]; split_ifs <;> simp only <;> omega
  · rw [e]; split_ifs <;> simp only <;> omega

/-- What `CropThumbnailImage` appends, for a box without a zero side. -/
theorem CropThumbnailImage_Filters (cv : F64 → Int) (i : Image) (w h : Int)
    (hw : w ≠ 0) (hh : h ≠ 0) :
    (CropThumbnailImage cv i w h).Output.Filters =
      i.Output.Filters ++
        [⟨"scale", [fmtInt (calcBestfit cv i.Width i.Height w h ResizeTypeUpscale).1 ++ ":" ++
            fmtInt (calcBestfit cv i.Width i.Height w h ResizeTypeUpscale).2]⟩,
          ⟨"crop", [fmtInt w ++ ":" ++ fmtInt h ++ ":" ++
            fmtInt (calcPosition cv (calcBestfit cv i.Width i.Height w h ResizeTypeUpscale).1
              (calcBestfit cv i.Width i.Height w h ResizeTypeUpscale).2 w h
              PositionTypeCenter).1 ++ ":" ++
            fmtInt (calcPosition cv (calcBestfit cv i.Width i.Height w h ResizeTypeUpscale).1
              (calcBestfit cv i.Width i.Height w h ResizeTypeUpscale).2 w h
              PositionTypeCenter).2]⟩] := by
  unfold CropThumbnailImage CropImage
  rw [anchored_one cv _ w h 0 0 PositionTypeCenter (by decide),
    ResizeImage_fit cv i w h ResizeTypeUpscale (by decide) hw hh]
  simp [addFilter, setWidthHeight]

/-- C26, amended: for every image whose tracked size is positive and below `2^25`
and every positive box (w, h) below `2^25`, `CropThumbnailImage(w, h)` appends a
scale filter `sw:sh`, the upscale fit of the box, followed by a crop filter
`w:h:x:y`, the centre anchor of the box in the scaled image, with `sw ≥ w`,
`sh ≥ h`, `x ≥ 0`, `y ≥ 0`, `x + w ≤ sw` and `y + h ≤ sh`, and leaves the tracked
size equal to (w, h). -/
theorem crop_thumbnail_fills_box (cv : F64 → Int) (i : Image) (w h : Int)
    (hW : 0 < i.Width) (hH : 0 < i.Height) (hw : 0 < w) (hh : 0 < h)
    (bW : i.Width < 2 ^ 25) (bH : i.Height < 2 ^ 25) (bw : w < 2 ^ 25) (bh : h < 2 ^ 25) :
    ∃ sw sh x y : Int,
      (sw, sh) = calcBestfit cv i.Width i.Height w h ResizeTypeUpscale ∧
      (x, y) = calcPosition cv sw sh w h PositionTypeCenter ∧
      (CropThumbnailImage cv i w h).Output.Filters =
        i.Output.Filters ++
          [⟨"scale", [fmtInt sw ++ ":" ++ fmtInt sh]⟩,
            ⟨"crop", [fmtInt w ++ ":" ++ fmtInt h ++ ":" ++ fmtInt x ++ ":" ++ fmtInt y]⟩] ∧
      w ≤ sw ∧ h ≤ sh ∧ 0 ≤ x ∧ 0 ≤ y ∧ x + w ≤ sw ∧ y + h ≤ sh ∧
      (CropThumbnailImage cv i w h).Width = w ∧ (CropThumbnailImage cv i w h).Height = h := by
  obtain ⟨⟨s1, s2⟩, ⟨t1, t2⟩⟩ :=
    calcBestfit_upscale_range cv i.Width i.Height w h hW hH hw hh bW bH bw bh
  have e := calcPosition_eq_anchorOffset cv
    (calcBestfit cv i.Width i.Height w h ResizeTypeUpscale).1
    (calcBestfit cv i.Width i.Height w h ResizeTypeUpscale).2 w h PositionTypeCenter
    ⟨by omega, by omega⟩ ⟨by omega, by omega⟩ ⟨by omega, by omega⟩ ⟨by omega, by omega⟩
    ⟨by omega, by omega⟩ ⟨by omega, by omega⟩
  have n := anchorOffset_nonneg (calcBestfit cv i.Width i.Height w h ResizeTypeUpscale).1
    (calcBestfit cv i.Width i.Height w h ResizeTypeUpscale).2 w h PositionTypeCenter
  have f := (anchorOffset_inside (calcBestfit cv i.Width i.Height w h ResizeTypeUpscale).1
    (calcBestfit cv i.Width i.Height w h ResizeTypeUpscale).2 w h PositionTypeCenter
    (by omega) (by omega) (le_of_lt hw) (le_of_lt hh)).1 s1 t1
  rw [← e] at n f
  exact ⟨_, _, _, _, rfl, rfl,
    CropThumbnailImage_Filters cv i w h (ne_of_gt hw) (ne_of_gt hh),
    s1, t1, n.1, n.2, f.1, f.2, rfl, rfl⟩

theorem crop_thumbnail_fills_box_witness :
    ∃ sw sh x y : Int,
      (sw, sh) = calcBestfit cvAmd64 testImage.Width testImage.Height 300 300
        ResizeTypeUpscale ∧
      (x, y) = calcPosition cvAmd64 sw sh 300 300 PositionTypeCenter ∧
      (CropThumbnailImage cvAmd64 testImage 300 300).Output.Filters =
        testImage.Output.Filters ++
          [⟨"scale", [fmtInt sw ++ ":" ++ fmtInt sh]⟩,
            ⟨"crop", [fmtInt 300 ++ ":" ++ fmtInt 300 ++ ":" ++ fmtInt x ++ ":" ++ fmtInt y]⟩] ∧
      300 ≤ sw ∧ 300 ≤ sh ∧ 0 ≤ x ∧ 0 ≤ y ∧ x + 300 ≤ sw ∧ y + 300 ≤ sh ∧
      (CropThumbnailImage cvAmd64 testImage 300 300).Width = 300 ∧
      (CropThumbnailImage cvAmd64 testImage 300 300).Height = 300 :=
  crop_thumbnail_fills_box cvAmd64 testImage 300 300 (by decide) (by decide) (by decide)
    (by decide) (by decide) (by decide) (by decide) (by decide)

/-- `ResizeImage` with a fit mode and a zero height: the width stands in for it. -/
theorem ResizeImage_fit_zero_height (cv : F64 → Int) (i : Image) (w : Int) (t : ResizeType)
    (ht : t ≠ ResizeTypeNone) (hw : w ≠ 0) :
    ResizeImage cv i w 0 [t] =
      addFilter
        (setWidthHeight i (calcBestfit cv i.Width i.Height w w t).1
          (calcBestfit cv i.Width i.Height w w t).2)
        "scale"
        [fmtInt (calcBestfit cv i.Width i.Height w w t).1 ++ ":" ++
          fmtInt (calcBestfit cv i.Width i.Height w w t).2] := by
  unfold ResizeImage
  simp [hw, ht]

/-- `ResizeImage` with a fit mode and a zero width: the height stands in for it. -/
theorem ResizeImage_fit_zero_width (cv : F64 → Int) (i : Image) (h : Int) (t : ResizeType)
    (ht : t ≠ ResizeTypeNone) (hh : h ≠ 0) :
    ResizeImage cv i 0 h [t] =
      addFilter
        (setWidthHeight i (calcBestfit cv i.Width i.Height h h t).1
          (calcBestfit cv i.Width i.Height h h t).2)
        "scale"
        [fmtInt (calcBestfit cv i.Width i.Height h h t).1 ++ ":" ++
          fmtInt (calcBestfit cv i.Width i.Height h h t).2] := by
  unfold ResizeImage
  simp [hh, ht]

/-- The downscale fit of a square box for a source at least `k ≥ 2` times as wide as
high, the box side at most `k`: the height is at most 1. -/
theorem calcBestfit_square_wide (cv : F64 → Int) (origW origH n k : Int)
    (hW : 0 < origW) (hH : 0 < origH) (hn : 0 < n) (hk : 2 ≤ k) (hnk : n ≤ k)
    (wide : origH * k ≤ origW)
    (bW : origW < 2 ^ 25) (bH : origH < 2 ^ 25) (bn : n < 2 ^ 25) :
    (calcBestfit cv origW origH n n ResizeTypeDownscale).2 ≤ 1 := by
  obtain ⟨a, b, -, ⟨-, a2⟩, ⟨b1, -⟩, e⟩ :=
    calcBestfit_floor cv origW origH n n ResizeTypeDownscale hW hH hn hn bW bH bn bn
  have two : origH * 2 ≤ origW :=
    le_trans (mul_le_mul_of_nonneg_left hk (le_of_lt hH)) wide
  have hWH : origW > origH := by omega
  rw [e, if_pos hWH]
  by_cases hc : a > n
  · rw [if_pos (Or.inl ⟨rfl, hc⟩)]
    have h1 : n * origH ≤ k * origH := mul_le_mul_of_nonneg_right hnk (le_of_lt hH)
    have h2 : b * origW ≤ 1 * origW := by
      have : k * origH = origH * k := mul_comm _ _
      omega
    exact le_of_mul_le_mul_right h2 hW
  · have hd : ¬ ((ResizeTypeDownscale = ResizeTypeDownscale ∧ a > n) ∨
        (ResizeTypeDownscale = ResizeTypeUpscale ∧ n > a)) := by
      rintro (⟨-, p⟩ | ⟨p, -⟩)
      · exact hc p
      · exact absurd p (by decide)
    rw [if_neg hd]
    have h1 : a * origH ≤ n * origH :=
      mul_le_mul_of_nonneg_right (not_lt.mp hc) (le_of_lt hH)
    have h2 : n * (origH * 2) ≤ n * origW := mul_le_mul_of_nonneg_left two (le_of_lt hn)
    have h3 : (2 * n) * origH ≤ (n + 1) * origH := by
      have p : n * (origH * 2) = (2 * n) * origH := by ring
      have q : (n + 1) * origH = n * origH + origH := by ring
      omega
    have h4 : 2 * n ≤ n + 1 := le_of_mul_le_mul_right h3 hH
    show n ≤ 1
    omega

/-- The downscale fit of a square box for a source at least `k ≥ 2` times as high as
wide, the box side at most `k`: the width is at most 1. -/
theorem calcBestfit_square_tall (cv : F64 → Int) (origW origH n k : Int)
    (hW : 0 < origW) (hH : 0 < origH) (hn : 0 < n) (hk : 2 ≤ k) (hnk : n ≤ k)
    (tall : origW * k ≤ origH)
    (bW : origW < 2 ^ 25) (bH : origH < 2 ^ 25) (bn : n < 2 ^ 25) :
    (calcBestfit cv origW origH n n ResizeTypeDownscale).1 ≤ 1 := by
  obtain ⟨a, b, -, ⟨a1, -⟩, ⟨-, b2⟩, e⟩ :=
    calcBestfit_floor cv origW origH n n ResizeTypeDownscale hW hH hn hn bW bH bn bn
  have two : origW * 2 ≤ origH :=
    le_trans (mul_le_mul_of_nonneg_left hk (le_of_lt hW)) tall
  have hWH : ¬ origW > origH := by omega
  rw [e, if_neg hWH]
  by_cases hc : b > n
  · rw [if_pos (Or.inl ⟨rfl, hc⟩)]
    have h1 : n * origW ≤ k * origW := mul_le_mul_of_nonneg_right hnk (le_of_lt hW)
    have h2 : a * origH ≤ 1 * origH := by
      have : k * origW = origW * k := mul_comm _ _
      omega
    exact le_of_mul_le_mul_right h2 hH
  · have hd : ¬ ((ResizeTypeDownscale = ResizeTypeDownscale ∧ b > n) ∨
        (ResizeTypeDownscale = ResizeTypeUpscale ∧ n > b)) := by
      rintro (⟨-, p⟩ | ⟨p, -⟩)
      · exact hc p
      · exact absurd p (by decide)
    rw [if_neg hd]
    have h1 : b * origW ≤ n * origW :=
      mul_le_mul_of_nonneg_right (not_lt.mp hc) (le_of_lt hW)
    have h2 : n * (origW * 2) ≤ n * origH := mul_le_mul_of_nonneg_left two (le_of_lt hn)
    have h3 : (2 * n) * origW ≤ (n + 1) * origW := by
      have p : n * (origW * 2) = (2 * n) * origW := by ring
      have q : (n + 1) * origW = n * origW + origW := by ring
      omega
    have h4 : 2 * n ≤ n + 1 := le_of_mul_le_mul_right h3 hW
    show n ≤ 1
    omega

/-- The inner size of `ThumbnailImage` and the size it is scaled to, for a source
below `2^25` and a box with sides from 2 to below `2^25`: the `calcBestpad` size
(pa, pb) lies within the box and is not (0, 0), `ResizeImage` appends one scale
filter, and each scaled side is at most the `calcBestpad` side, or at most 1 where
that side is 0. -/
theorem ThumbnailImage_scaled (cv : F64 → Int) (i : Image) (w h : Int)
    (hW : 0 < i.Width) (hH : 0 < i.Height) (hw : 2 ≤ w) (hh : 2 ≤ h)
    (bW : i.Width < 2 ^ 25) (bH : i.Height < 2 ^ 25) (bw : w < 2 ^ 25) (bh : h < 2 ^ 25) :
    ∃ pa pb sw sh : Int,
      calcBestpad cv i.Width i.Height w h = (pa, pb) ∧
      ResizeImage cv i pa pb [ResizeTypeDownscale] =
        addFilter (setWidthHeight i sw sh) "scale" [fmtInt sw ++ ":" ++ fmtInt sh] ∧
      (0 ≤ pa ∧ pa ≤ w) ∧ (0 ≤ pb ∧ pb ≤ h) ∧
      (sw ≤ pa ∨ (pa = 0 ∧ sw ≤ 1)) ∧ (sh ≤ pb ∨ (pb = 0 ∧ sh ≤ 1)) := by
  obtain ⟨pa, pb, e, ⟨na, nb⟩, hlt, hge⟩ :=
    calcBestpad_floor_nonneg cv i.Width i.Height w h hW hH (by omega) (by omega) bW bH bw bh
  have range : pa ≤ w ∧ pb ≤ h ∧ (pb = 0 → pa ≠ 0 ∧ i.Height * w ≤ i.Width) ∧
      (pa = 0 → pb ≠ 0 ∧ i.Width * h ≤ i.Height) := by
    by_cases hc : i.Height * w < i.Width * h
    · obtain ⟨⟨a1, a2⟩, ⟨b1, b2⟩⟩ := hlt hc
      have p1 : pa * i.Width ≤ w * i.Width := by rw [mul_comm w]; exact a1
      have p2 : (w - 1) * i.Width ≤ pa * i.Width := by
        have : (w - 1) * i.Width = i.Width * w - i.Width := by ring
        omega
      have p3 : pb * i.Width ≤ h * i.Width := by
        have : h * i.Width = i.Width * h := mul_comm _ _
        omega
      have q1 := le_of_mul_le_mul_right p1 hW
      have q2 := le_of_mul_le_mul_right p2 hW
      have q3 := le_of_mul_le_mul_right p3 hW
      refine ⟨q1, q3, fun z => ⟨by omega, ?_⟩, fun z => by omega⟩
      rw [z] at b2
      omega
    · obtain ⟨⟨a1, a2⟩, ⟨b1, b2⟩⟩ := hge hc
      have p1 : pb * i.Height ≤ h * i.Height := by rw [mul_comm h]; exact b1
      have p2 : (h - 1) * i.Height ≤ pb * i.Height := by
        have : (h - 1) * i.Height = i.Height * h - i.Height := by ring
        omega
      have p3 : pa * i.Height ≤ w * i.Height := by
        have : w * i.Height = i.Height * w := mul_comm _ _
        omega
      have q1 := le_of_mul_le_mul_right p1 hH
      have q2 := le_of_mul_le_mul_right p2 hH
      have q3 := le_of_mul_le_mul_right p3 hH
      refine ⟨q3, q1, fun z => by omega, fun z => ⟨by omega, ?_⟩⟩
      rw [z] at a2
      omega
  obtain ⟨ra, rb, zb, za⟩ := range
  by_cases ha : pa = 0
  · obtain ⟨hb, tall⟩ := za ha
    have pb0 : 0 < pb := by omega
    refine ⟨pa, pb, (calcBestfit cv i.Width i.Height pb pb ResizeTypeDownscale).1,
      (calcBestfit cv i.Width i.Height pb pb ResizeTypeDownscale).2, e, ?_, ⟨na, ra⟩, ⟨nb, rb⟩,
      Or.inr ⟨ha, ?_⟩, Or.inl ?_⟩
    · rw [ha]
      exact ResizeImage_fit_zero_width cv i pb ResizeTypeDownscale (by decide) hb
    · exact calcBestfit_square_tall cv i.Width i.Height pb h hW hH pb0 hh rb tall bW bH
        (by omega)
    · exact (calcBestfit_downscale_le cv i.Width i.Height pb pb hW hH pb0 pb0 (by omega)
        (by omega)).2
  · have pa0 : 0 < pa := by omega
    by_cases hb : pb = 0
    · obtain ⟨-, wide⟩ := zb hb
      refine ⟨pa, pb, (calcBestfit cv i.Width i.Height pa pa ResizeTypeDownscale).1,
        (calcBestfit cv i.Width i.Height pa pa ResizeTypeDownscale).2, e, ?_, ⟨na, ra⟩,
        ⟨nb, rb⟩, Or.inl ?_, Or.inr ⟨hb, ?_⟩⟩
      · rw [hb]
        exact ResizeImage_fit_zero_height cv i pa ResizeTypeDownscale (by decide) ha
      · exact (calcBestfit_downscale_le cv i.Width i.Height pa pa hW hH pa0 pa0 (by omega)
          (by omega)).1
      · exact calcBestfit_square_wide cv i.Width i.Height pa w hW hH pa0 hw ra wide bW bH
          (by omega)
    · have pb0 : 0 < pb := by omega
      obtain ⟨d1, d2⟩ := calcBestfit_downscale_le cv i.Width i.Height pa pb hW hH pa0 pb0
        (by omega) (by omega)
      exact ⟨pa, pb, _, _, e,
        ResizeImage_fit cv i pa pb ResizeTypeDownscale (by decide) ha hb,
        ⟨na, ra⟩, ⟨nb, rb⟩, Or.inl d1, Or.inl d2⟩

/-- A side `s` placed at the centre offset of an inner side `p` in a box side
`w ≥ 2` ends within the box, when `s ≤ p`, or when `p = 0` and `s ≤ 1`. -/
theorem centre_fits {w p s : Int} (hw : 2 ≤ w) (hp : 0 ≤ p ∧ p ≤ w)
    (hs : s ≤ p ∨ (p = 0 ∧ s ≤ 1)) :
    |p.tdiv 2 - w.tdiv 2| + s ≤ w := by
  rcases hs with q | ⟨z, q⟩
  · have := (axis_fits hp.1 hp.2).2.1
    omega
  · rw [z, Int.tdiv_eq_ediv (by omega : (0 : Int) ≤ w) (by decide)]
    have e1 : |Int.tdiv 0 2 - w / 2| = w / 2 := by
      have : Int.tdiv 0 2 = 0 := by decide
      rw [this, zero_sub, abs_neg]
      exact abs_of_nonneg (by omega)
    rw [e1]
    omega

theorem anchorOffset_center (origW origH w h : Int) :
    anchorOffset origW origH w h PositionTypeCenter =
      (|origW.tdiv 2 - w.tdiv 2|, |origH.tdiv 2 - h.tdiv 2|) := by
  simp [anchorOffset, PositionTypeTopLeft, PositionTypeTop, PositionTypeTopRight,
    PositionTypeLeft, PositionTypeCenter]

/-- C27, amended: for every image whose tracked size is positive and below `2^25`
and every box (w, h) with sides from 2 to below `2^25`, `ThumbnailImage(w, h)`
appends a scale filter `sw:sh`, the size `ResizeImage` tracks for the `calcBestpad`
size, followed by a pad filter `w:h:x:y:bg`, the centre anchor of the `calcBestpad`
size in the box, with `sw ≤ w`, `sh ≤ h`, `x ≥ 0`, `y ≥ 0`, `x + sw ≤ w` and
`y + sh ≤ h`, and leaves the tracked size equal to (w, h). -/
theorem thumbnail_letterboxes (cv : F64 → Int) (i : Image) (w h : Int)
    (hW : 0 < i.Width) (hH : 0 < i.Height) (hw : 2 ≤ w) (hh : 2 ≤ h)
    (bW : i.Width < 2 ^ 25) (bH : i.Height < 2 ^ 25) (bw : w < 2 ^ 25) (bh : h < 2 ^ 25) :
    ∃ sw sh x y : Int,
      sw = (ResizeImage cv i (calcBestpad cv i.Width i.Height w h).1
        (calcBestpad cv i.Width i.Height w h).2 [ResizeTypeDownscale]).Width ∧
      sh = (ResizeImage cv i (calcBestpad cv i.Width i.Height w h).1
        (calcBestpad cv i.Width i.Height w h).2 [ResizeTypeDownscale]).Height ∧
      (x, y) = calcPosition cv (calcBestpad cv i.Width i.Height w h).1
        (calcBestpad cv i.Width i.Height w h).2 w h PositionTypeCenter ∧
      (ThumbnailImage cv i w h).Output.Filters =
        i.Output.Filters ++
          [⟨"scale", [fmtInt sw ++ ":" ++ fmtInt sh]⟩,
            ⟨"pad", [fmtInt w ++ ":" ++ fmtInt h ++ ":" ++ fmtInt x ++ ":" ++ fmtInt y ++ ":" ++
              i.Output.BackgroundColor]⟩] ∧
      sw ≤ w ∧ sh ≤ h ∧ 0 ≤ x ∧ 0 ≤ y ∧ x + sw ≤ w ∧ y + sh ≤ h ∧
      (ThumbnailImage cv i w h).Width = w ∧ (ThumbnailImage cv i w h).Height = h := by
  obtain ⟨pa, pb, sw, sh, e, r, ha, hb, ca, cb⟩ :=
    ThumbnailImage_scaled cv i w h hW hH hw hh bW bH bw bh
  have ex : calcPosition cv pa pb w h PositionTypeCenter =
      (|pa.tdiv 2 - w.tdiv 2|, |pb.tdiv 2 - h.tdiv 2|) := by
    rw [calcPosition_eq_anchorOffset cv pa pb w h PositionTypeCenter ⟨by omega, by omega⟩
      ⟨by omega, by omega⟩ ⟨by omega, by omega⟩ ⟨by omega, by omega⟩ ⟨by omega, by omega⟩
      ⟨by omega, by omega⟩]
    exact anchorOffset_center pa pb w h
  have fx := centre_fits hw ha ca
  have fy := centre_fits hh hb cb
  have sw_le : sw ≤ w := by rcases ca with q | ⟨-, q⟩ <;> omega
  have sh_le : sh ≤ h := by rcases cb with q | ⟨-, q⟩ <;> omega
  refine ⟨sw, sh, |pa.tdiv 2 - w.tdiv 2|, |pb.tdiv 2 - h.tdiv 2|, ?_, ?_, ?_, ?_,
    sw_le, sh_le, abs_nonneg _, abs_nonneg _, fx, fy, rfl, rfl⟩
  · rw [e]; simp only; rw [r]; rfl
  · rw [e]; simp only; rw [r]; rfl
  · rw [e]; simp only; rw [ex]
  · unfold ThumbnailImage ExtentImage
    rw [e]
    simp only
    rw [r, ex, anchored_else cv _ w h _ _ [] (by intro p hp; cases hp)]
    simp [addFilter, setWidthHeight]

theorem thumbnail_letterboxes_witness :
    ∃ sw sh x y : Int,
      sw = (ResizeImage cvAmd64 testImage (calcBestpad cvAmd64 testImage.Width
        testImage.Height 150 150).1 (calcBestpad cvAmd64 testImage.Width
        testImage.Height 150 150).2 [ResizeTypeDownscale]).Width ∧
      sh = (ResizeImage cvAmd64 testImage (calcBestpad cvAmd64 testImage.Width
        testImage.Height 150 150).1 (calcBestpad cvAmd64 testImage.Width
        testImage.Height 150 150).2 [ResizeTypeDownscale]).Height ∧
      (x, y) = calcPosition cvAmd64 (calcBestpad cvAmd64 testImage.Width
        testImage.Height 150 150).1 (calcBestpad cvAmd64 testImage.Width
        testImage.Height 150 150).2 150 150 PositionTypeCenter ∧
      (ThumbnailImage cvAmd64 testImage 150 150).Output.Filters =
        testImage.Output.Filters ++
          [⟨"scale", [fmtInt sw ++ ":" ++ fmtInt sh]⟩,
            ⟨"pad", [fmtInt 150 ++ ":" ++ fmtInt 150 ++ ":" ++ fmtInt x ++ ":" ++ fmtInt y ++
              ":" ++ testImage.Output.BackgroundColor]⟩] ∧
      sw ≤ 150 ∧ sh ≤ 150 ∧ 0 ≤ x ∧ 0 ≤ y ∧ x + sw ≤ 150 ∧ y + sh ≤ 150 ∧
      (ThumbnailImage cvAmd64 testImage 150 150).Width = 150 ∧
      (ThumbnailImage cvAmd64 testImage 150 150).Height = 150 :=
  thumbnail_letterboxes cvAmd64 testImage 150 150 (by decide) (by decide) (by decide)
    (by decide) (by decide) (by decide) (by decide) (by decide)

end FFImage
